import Mathlib

/-!
# Startosis interpreter: plan reconciliation and entry-point resolution

A shallow embedding of `startosis_interpreter.go`
(`core/server/api_container/server/startosis_engine`).

* Go `int` values that the code keeps non-negative (sizes, loop cursors) are `Nat`;
  the result of `findFirstEqualInstructionPastIndex`, which is `-1` when nothing is
  found, and the first-instruction index stored in a plan are `Int`.
* Mutable objects handed to a callee by pointer (the enclave components, the
  instructions plan mask, the ambient state of the interpreter) are passed in and
  returned explicitly.
* The unbounded `for` loop of `InterpretAndOptimizePlan` is a step function on a loop
  state, iterated with fuel; the theorems show that the fuel given is enough.
-/

namespace StartosisEngine

/-! ## Constants of the source file -/

def multipleInterpretationErrorMsg : String :=
  "Multiple errors caught interpreting the Starlark script. Listing each of them below."

def evaluationErrorPrefix : String := "Evaluation error: "

def skipImportInstructionInStacktraceValue : String := "import_module"

def runFunctionName : String := "run"

def paramsRequiredForArgs : Nat := 2

def minimumParamsRequiredForPlan : Nat := 1

def planParamIndex : Nat := 0

def planParamName : String := "plan"

def argsParamIndex : Nat := 1

def argsParamName : String := "args"

/-! ## Data model -/

/-- Modelled from the spec: the resolution outcome of `enclave_structure`, which is not
part of the source file. It is tri-state: Equal, Update, Different. The source file only
names `InstructionIsEqual` and `InstructionIsUpdate`. -/
inductive InstructionResolutionStatus where
  | InstructionIsEqual
  | InstructionIsUpdate
  | InstructionIsDifferent
  deriving DecidableEq, Repr

/-- Modelled from the spec: one stack frame of `startosis_errors` (message, file, line,
column). -/
structure CallFrame where
  name : String
  fileName : String
  line : Int
  col : Int
  deriving DecidableEq, Repr

/-- Modelled from the spec: the structured error of `startosis_errors`, an ordered list
of stack frames together with a message. -/
structure InterpretationError where
  msg : String
  stacktrace : List CallFrame
  deriving DecidableEq, Repr

/-- Modelled from the spec: `startosis_errors.NewInterpretationError`, applied to the
already formatted message. -/
def NewInterpretationError (msg : String) : InterpretationError :=
  { msg := msg, stacktrace := [] }

/-- Modelled from the spec: `startosis_errors.NewInterpretationErrorFromStacktrace`. -/
def NewInterpretationErrorFromStacktrace (stacktrace : List CallFrame) : InterpretationError :=
  { msg := "", stacktrace := stacktrace }

/-- Modelled from the spec: `startosis_errors.NewInterpretationErrorWithCustomMsg`, applied
to the already formatted message. -/
def NewInterpretationErrorWithCustomMsg (stacktrace : List CallFrame) (msg : String) :
    InterpretationError :=
  { msg := msg, stacktrace := stacktrace }

/-- Modelled from the spec: `instructions_plan.InstructionsPlan`, which is not part of the
source file: an ordered sequence of scheduled instructions, the first-instruction index,
the set of package dependencies, and the deferred error that freezing may surface. -/
structure InstructionsPlan (SI : Type) where
  indexOfFirstInstruction : Int
  scheduledInstructions : List SI
  packageDependencies : List String
  deferredError : Option InterpretationError
  deriving DecidableEq, Repr

namespace InstructionsPlan

variable {SI : Type}

/-- Modelled from the spec: `instructions_plan.NewInstructionsPlan`, the empty plan. -/
def NewInstructionsPlan : InstructionsPlan SI :=
  { indexOfFirstInstruction := 0, scheduledInstructions := [], packageDependencies := [],
    deferredError := none }

/-- Modelled from the spec: `setFirstInstructionIndex` records the preserved prefix count. -/
def SetIndexOfFirstInstruction (plan : InstructionsPlan SI) (idx : Int) : InstructionsPlan SI :=
  { plan with indexOfFirstInstruction := idx }

/-- Modelled from the spec: `append` adds one instruction at the end of the plan. -/
def AddScheduledInstruction (plan : InstructionsPlan SI) (instruction : SI) :
    InstructionsPlan SI :=
  { plan with scheduledInstructions := plan.scheduledInstructions ++ [instruction] }

/-- Modelled from the spec: `addDependency` records a package dependency, deduplicated. -/
def AddPackageDependency (plan : InstructionsPlan SI) (dependency : String) :
    InstructionsPlan SI :=
  if dependency ∈ plan.packageDependencies then plan
  else { plan with packageDependencies := plan.packageDependencies ++ [dependency] }

/-- Modelled from the spec: `freeze` produces the final ordered sequence, propagating any
deferred error. -/
def GeneratePlan (plan : InstructionsPlan SI) : Except InterpretationError (List SI) :=
  match plan.deferredError with
  | some e => .error e
  | none => .ok plan.scheduledInstructions

/-- Modelled from the spec: the number of instructions of the plan. -/
def Size (plan : InstructionsPlan SI) : Nat := plan.scheduledInstructions.length

end InstructionsPlan

/-- Modelled from the spec: `enclave_plan_persistence.EnclavePlan`, which is not part of the
source file: a persisted historical-plan object exposing an ordered instruction sequence and
its length. -/
structure EnclavePlan (EPI : Type) where
  enclavePlanInstructions : List EPI
  deriving DecidableEq, Repr

namespace EnclavePlan

variable {EPI : Type}

/-- Modelled from the spec: the ordered instruction sequence of the history. -/
def GeneratePlan (plan : EnclavePlan EPI) : List EPI := plan.enclavePlanInstructions

/-- Modelled from the spec: the length of the history. -/
def Size (plan : EnclavePlan EPI) : Nat := plan.enclavePlanInstructions.length

end EnclavePlan

/-- Modelled from the spec: `resolver.InstructionsPlanMask`, which is not part of the source
file: a fixed-capacity, position-indexed map from slot index to historical instruction, with a
validity flag that is initially true. -/
structure InstructionsPlanMask (EPI : Type) where
  slots : List (Option EPI)
  isValid : Bool
  deriving DecidableEq, Repr

namespace InstructionsPlanMask

variable {EPI : Type}

/-- Modelled from the spec: a fresh mask of the given capacity, every slot empty, valid. -/
def NewInstructionsPlanMask (size : Nat) : InstructionsPlanMask EPI :=
  { slots := List.replicate size none, isValid := true }

/-- Modelled from the spec: `insertAt(i, instruction)` installs a historical override for
slot `i`. -/
def InsertAt (mask : InstructionsPlanMask EPI) (idx : Nat) (instruction : EPI) :
    InstructionsPlanMask EPI :=
  { mask with slots := mask.slots.set idx (some instruction) }

/-- Modelled from the spec: the capacity of the mask. -/
def Size (mask : InstructionsPlanMask EPI) : Nat := mask.slots.length

/-- Modelled from the spec: the validity flag of the mask. -/
def IsValid (mask : InstructionsPlanMask EPI) : Bool := mask.isValid

end InstructionsPlanMask

open InstructionsPlan InstructionsPlanMask

/-! ## Collaborators of `InterpretAndOptimizePlan` -/

/-- What one call of `Interpret` leaves behind: the ambient state, the enclave components
and the mask it was handed (both are pointers the callee may write through), and the
returned output and plan, or the returned error. -/
structure InterpretEffect (SI EPI EC W AE : Type) where
  world : W
  enclaveComponents : EC
  mask : InstructionsPlanMask EPI
  result : Except AE (String × InstructionsPlan SI)

/-- The parts of the program that `InterpretAndOptimizePlan` uses and that lie outside it.
`SI` are scheduled instructions, `EPI` the instructions of the enclave plan, `EC` the enclave
components, `W` the ambient state (package content provider, runtime), `AE` the error of the
API. The arguments that `InterpretAndOptimizePlan` passes unchanged to every call (package
id, script, parameters, ...) are fixed inside `Interpret` and
`CloneReplacedPackagesIfNeeded`. -/
structure Collaborators (SI EPI EC W AE : Type) where
  NoOutputObject : String
  ToAPIType : InterpretationError → AE
  NewEnclaveComponents : EC
  TryResolveWith : SI → EPI → EC → InstructionResolutionStatus
  CloneReplacedPackagesIfNeeded : W → W × Option InterpretationError
  Interpret : W → EC → InstructionsPlanMask EPI → InterpretEffect SI EPI EC W AE

/-- The arguments of one call of `Interpret` that differ from call to call, as they are at
the time of the call. -/
structure InterpretCall (EPI EC : Type) where
  enclaveComponents : EC
  instructionsPlanMask : InstructionsPlanMask EPI
  deriving DecidableEq, Repr

/-- The three values returned by `InterpretAndOptimizePlan`, and the calls of `Interpret` it
made, in order. -/
structure OptimizeReturn (SI EPI EC AE : Type) where
  output : String
  plan : Option (InstructionsPlan SI)
  err : Option AE
  calls : List (InterpretCall EPI EC)
  deriving DecidableEq, Repr

/-- The variables of `InterpretAndOptimizePlan` that change from one iteration of its loop
to the next, with the calls of `Interpret` made so far. -/
structure LoopState (EPI EC W : Type) where
  firstPossibleIndexForMatchingInstruction : Nat
  world : W
  enclaveComponents : EC
  calls : List (InterpretCall EPI EC)

section Reconciler

variable {SI EPI EC W AE : Type}

/-! ## `findFirstEqualInstructionPastIndex` -/

/-- The loop of `findFirstEqualInstructionPastIndex`, from index `i`, for a non-empty
`naiveInstructionsList` whose first instruction is `first`. The loop ends when `i` reaches
`len(currentEnclaveInstructionsList)`, which is when the read at `i` finds nothing. -/
def findFirstEqualInstructionLoop (c : Collaborators SI EPI EC W AE)
    (currentEnclaveInstructionsList : List EPI) (first : SI) : Nat → Nat → Int
  | 0, _ => -1
  | fuel + 1, i =>
    match currentEnclaveInstructionsList[i]? with
    | none => -1
    | some enclaveInstruction =>
      let fakeEnclaveComponent := c.NewEnclaveComponents
      let instructionResolutionResult :=
        c.TryResolveWith first enclaveInstruction fakeEnclaveComponent
      if instructionResolutionResult = .InstructionIsEqual
          ∨ instructionResolutionResult = .InstructionIsUpdate then
        (i : Int)
      else
        findFirstEqualInstructionLoop c currentEnclaveInstructionsList first fuel (i + 1)

/-- The function `findFirstEqualInstructionPastIndex`. The one caller passes a non-negative
`minIndex`. -/
def findFirstEqualInstructionPastIndex (c : Collaborators SI EPI EC W AE)
    (currentEnclaveInstructionsList : List EPI) (naiveInstructionsList : List SI)
    (minIndex : Nat) : Int :=
  match naiveInstructionsList with
  | [] => -1
  | first :: _ =>
    findFirstEqualInstructionLoop c currentEnclaveInstructionsList first
      (currentEnclaveInstructionsList.length - minIndex) minIndex

/-! ## `InterpretAndOptimizePlan` -/

/-- The loop copying the enclave plan from `copyIdx` on into the mask: it stops at the end of
the enclave plan, or when the mask is full. Returns `numberOfInstructionCopiedToMask` and the
mask. -/
def copyToMask (currentEnclavePlanSequence : List EPI) :
    Nat → Nat → Nat → InstructionsPlanMask EPI → Nat × InstructionsPlanMask EPI
  | 0, _, numberOfInstructionCopiedToMask, potentialMask =>
    (numberOfInstructionCopiedToMask, potentialMask)
  | fuel + 1, copyIdx, numberOfInstructionCopiedToMask, potentialMask =>
    match currentEnclavePlanSequence[copyIdx]? with
    | none => (numberOfInstructionCopiedToMask, potentialMask)
    | some enclaveInstruction =>
      if numberOfInstructionCopiedToMask ≥ potentialMask.Size then
        (numberOfInstructionCopiedToMask, potentialMask)
      else
        copyToMask currentEnclavePlanSequence fuel (copyIdx + 1)
          (numberOfInstructionCopiedToMask + 1)
          (potentialMask.InsertAt numberOfInstructionCopiedToMask enclaveInstruction)

/-- The mask built for a match at `matchingInstructionIdx`: a fresh mask of the size of the
naive sequence, filled by the copy loop. -/
def buildPotentialMask (currentEnclavePlanSequence : List EPI)
    (naiveInstructionsPlanSequence : List SI) (matchingInstructionIdx : Nat) :
    InstructionsPlanMask EPI :=
  (copyToMask currentEnclavePlanSequence
    (currentEnclavePlanSequence.length - matchingInstructionIdx) matchingInstructionIdx 0
    (NewInstructionsPlanMask naiveInstructionsPlanSequence.length)).2

/-- One iteration of the `for` loop of `InterpretAndOptimizePlan`: either `continue` with the
next loop state, or `return`. -/
def loopBody (c : Collaborators SI EPI EC W AE) (currentEnclavePlan : EnclavePlan EPI)
    (naiveInstructionsPlanSequence : List SI)
    (naiveInstructionsPlanSerializedScriptOutput : String) (s : LoopState EPI EC W) :
    LoopState EPI EC W ⊕ OptimizeReturn SI EPI EC AE :=
  let currentEnclavePlanSequence := currentEnclavePlan.GeneratePlan
  let optimizedPlan : InstructionsPlan SI := NewInstructionsPlan
  let matchingInstructionIdx :=
    findFirstEqualInstructionPastIndex c currentEnclavePlanSequence
      naiveInstructionsPlanSequence s.firstPossibleIndexForMatchingInstruction
  if matchingInstructionIdx ≥ 0 then
    let optimizedPlan := optimizedPlan.SetIndexOfFirstInstruction matchingInstructionIdx
    let potentialMask :=
      buildPotentialMask currentEnclavePlanSequence naiveInstructionsPlanSequence
        matchingInstructionIdx.toNat
    let attempt := c.Interpret s.world s.enclaveComponents potentialMask
    let calls := s.calls ++ [{ enclaveComponents := s.enclaveComponents,
                               instructionsPlanMask := potentialMask }]
    let rejected : LoopState EPI EC W :=
      { firstPossibleIndexForMatchingInstruction :=
          s.firstPossibleIndexForMatchingInstruction + 1,
        world := attempt.world, enclaveComponents := attempt.enclaveComponents,
        calls := calls }
    match attempt.result with
    | .error _ => .inl rejected
    | .ok (attemptSerializedScriptOutput, attemptInstructionsPlan) =>
      if !attempt.mask.IsValid then .inl rejected
      else
        match attemptInstructionsPlan.GeneratePlan with
        | .error interpretationErr =>
          .inr { output := c.NoOutputObject, plan := none,
                 err := some (c.ToAPIType interpretationErr), calls := calls }
        | .ok attemptInstructionsPlanSequence =>
          .inr { output := attemptSerializedScriptOutput,
                 plan := some (attemptInstructionsPlanSequence.foldl
                   AddScheduledInstruction optimizedPlan),
                 err := none, calls := calls }
  else
    let optimizedPlan := optimizedPlan.SetIndexOfFirstInstruction currentEnclavePlan.Size
    .inr { output := naiveInstructionsPlanSerializedScriptOutput,
           plan := some (naiveInstructionsPlanSequence.foldl
             AddScheduledInstruction optimizedPlan),
           err := none, calls := s.calls }

/-- The `for` loop of `InterpretAndOptimizePlan`, run for at most `fuel` iterations; `none`
when the loop has not returned by then. -/
def optimizeLoop (c : Collaborators SI EPI EC W AE) (currentEnclavePlan : EnclavePlan EPI)
    (naiveInstructionsPlanSequence : List SI)
    (naiveInstructionsPlanSerializedScriptOutput : String) :
    Nat → LoopState EPI EC W → Option (OptimizeReturn SI EPI EC AE)
  | 0, _ => none
  | fuel + 1, s =>
    match loopBody c currentEnclavePlan naiveInstructionsPlanSequence
        naiveInstructionsPlanSerializedScriptOutput s with
    | .inl next =>
      optimizeLoop c currentEnclavePlan naiveInstructionsPlanSequence
        naiveInstructionsPlanSerializedScriptOutput fuel next
    | .inr returned => some returned

/-- The loop state after `k` iterations that all ended in `continue`; `none` when the loop
returned earlier. -/
def loopStateAfter (c : Collaborators SI EPI EC W AE) (currentEnclavePlan : EnclavePlan EPI)
    (naiveInstructionsPlanSequence : List SI)
    (naiveInstructionsPlanSerializedScriptOutput : String) :
    Nat → LoopState EPI EC W → Option (LoopState EPI EC W)
  | 0, s => some s
  | k + 1, s =>
    match loopBody c currentEnclavePlan naiveInstructionsPlanSequence
        naiveInstructionsPlanSerializedScriptOutput s with
    | .inl next =>
      loopStateAfter c currentEnclavePlan naiveInstructionsPlanSequence
        naiveInstructionsPlanSerializedScriptOutput k next
    | .inr _ => none

/-- The loop state with which `InterpretAndOptimizePlan` enters its loop, after an unmasked
interpretation that left `probe` behind and produced `naiveInstructionsPlan`. -/
def initialLoopState (c : Collaborators SI EPI EC W AE) (currentEnclavePlan : EnclavePlan EPI)
    (naiveInstructionsPlan : InstructionsPlan SI) (probe : InterpretEffect SI EPI EC W AE) :
    LoopState EPI EC W :=
  { firstPossibleIndexForMatchingInstruction :=
      if currentEnclavePlan.Size > naiveInstructionsPlan.Size then
        currentEnclavePlan.Size - naiveInstructionsPlan.Size
      else 0,
    world := probe.world,
    enclaveComponents := probe.enclaveComponents,
    calls := [{ enclaveComponents := c.NewEnclaveComponents,
                instructionsPlanMask := NewInstructionsPlanMask 0 }] }

/-- The function `InterpretAndOptimizePlan`, started in the ambient state `w`. Its loop is
given `currentEnclavePlan.Size() + 1` iterations; `none` stands for a loop that has not
returned by then. -/
def InterpretAndOptimizePlan (c : Collaborators SI EPI EC W AE) (w : W)
    (currentEnclavePlan : EnclavePlan EPI) : Option (OptimizeReturn SI EPI EC AE) :=
  match c.CloneReplacedPackagesIfNeeded w with
  | (_, some interpretationErr) =>
    some { output := "", plan := none, err := some (c.ToAPIType interpretationErr),
           calls := [] }
  | (w, none) =>
    let enclaveComponents := c.NewEnclaveComponents
    let emptyPlanInstructionsMask : InstructionsPlanMask EPI := NewInstructionsPlanMask 0
    let probe := c.Interpret w enclaveComponents emptyPlanInstructionsMask
    let calls : List (InterpretCall EPI EC) :=
      [{ enclaveComponents := enclaveComponents,
         instructionsPlanMask := emptyPlanInstructionsMask }]
    match probe.result with
    | .error interpretationErrorApi =>
      some { output := c.NoOutputObject, plan := none, err := some interpretationErrorApi,
             calls := calls }
    | .ok (naiveInstructionsPlanSerializedScriptOutput, naiveInstructionsPlan) =>
      match naiveInstructionsPlan.GeneratePlan with
      | .error interpretationErr =>
        some { output := c.NoOutputObject, plan := none,
               err := some (c.ToAPIType interpretationErr), calls := calls }
      | .ok naiveInstructionsPlanSequence =>
        -- `currentEnclavePlan.GeneratePlan()` returns no error; the test that follows it in
        -- the source reads `interpretationErr` again, which is nil at this point
        optimizeLoop c currentEnclavePlan naiveInstructionsPlanSequence
          naiveInstructionsPlanSerializedScriptOutput (currentEnclavePlan.Size + 1)
          (initialLoopState c currentEnclavePlan naiveInstructionsPlan probe)

/-! ## Predicates used to state the properties -/

/-- Whether the instruction `first` resolves (Equal or Update) against the historical
instruction `e`, with a fresh enclave components object, as the search loop tests it. -/
def resolvesWith (c : Collaborators SI EPI EC W AE) (first : SI) (e : EPI) : Bool :=
  decide (c.TryResolveWith first e c.NewEnclaveComponents = .InstructionIsEqual
    ∨ c.TryResolveWith first e c.NewEnclaveComponents = .InstructionIsUpdate)

/-- Whether the historical instruction at index `j` of `H` resolves (Equal or Update) against
the first instruction of `N`; false when `N` is empty or `j` is out of range. -/
def resolvesAt (c : Collaborators SI EPI EC W AE) (H : List EPI) (N : List SI) (j : Nat) :
    Bool :=
  match N, H[j]? with
  | first :: _, some e => resolvesWith c first e
  | _, _ => false

/-- Whether a call of `Interpret` is accepted by the loop: no error and the mask still
valid. -/
def accepted (eff : InterpretEffect SI EPI EC W AE) : Bool :=
  match eff.result with
  | .error _ => false
  | .ok _ => eff.mask.IsValid

/-- The unmasked call of `Interpret` with which `InterpretAndOptimizePlan` starts, in the
ambient state `w`: fresh enclave components, a mask of size zero. -/
def unmaskedProbe (c : Collaborators SI EPI EC W AE) (w : W) : InterpretEffect SI EPI EC W AE :=
  c.Interpret w c.NewEnclaveComponents (NewInstructionsPlanMask 0)

/-- The masked call of `Interpret` that the loop makes in state `s` for a match at index
`i`. -/
def attemptAt (c : Collaborators SI EPI EC W AE) (cep : EnclavePlan EPI) (N : List SI)
    (s : LoopState EPI EC W) (i : Nat) : InterpretEffect SI EPI EC W AE :=
  c.Interpret s.world s.enclaveComponents (buildPotentialMask cep.GeneratePlan N i)

/-- The calls of `Interpret` made once the loop, in state `s`, has run the masked call for a
match at index `i`. -/
def callsAfterAttempt (cep : EnclavePlan EPI) (N : List SI) (s : LoopState EPI EC W)
    (i : Nat) : List (InterpretCall EPI EC) :=
  s.calls ++ [⟨s.enclaveComponents, buildPotentialMask cep.GeneratePlan N i⟩]

/-- The loop state with which the loop continues from `s` after rejecting the masked call
made for a match at index `i`. -/
def rejectedState (c : Collaborators SI EPI EC W AE) (cep : EnclavePlan EPI) (N : List SI)
    (s : LoopState EPI EC W) (i : Nat) : LoopState EPI EC W :=
  { firstPossibleIndexForMatchingInstruction := s.firstPossibleIndexForMatchingInstruction + 1,
    world := (attemptAt c cep N s i).world,
    enclaveComponents := (attemptAt c cep N s i).enclaveComponents,
    calls := callsAfterAttempt cep N s i }

/-- A plan with the given first-instruction index and body, no dependency and no deferred
error. -/
def planOf (idx : Int) (body : List SI) : InstructionsPlan SI :=
  { indexOfFirstInstruction := idx, scheduledInstructions := body, packageDependencies := [],
    deferredError := none }

end Reconciler

/-! ## Concrete collaborators on which the model is run -/

/-- How the masked calls of the scripted interpreter below behave. -/
inductive MaskedBehaviour where
  /-- The script is generated again; the mask stays valid when every override equals the
  instruction generated at its slot. -/
  | replay
  /-- The script is generated again and the mask is marked invalid. -/
  | rejectEvery
  /-- The interpretation returns an error. -/
  | failEvery
  /-- The interpretation returns a plan whose freezing fails. -/
  | deferredError
  deriving DecidableEq, Repr

/-- Whether every override of the mask equals the instruction generated at its slot. -/
def maskAgrees : List (Option Nat) → List Nat → Bool
  | [], _ => true
  | _ :: _, [] => true
  | none :: slots, _ :: generated => maskAgrees slots generated
  | some e :: slots, i :: generated => e == i && maskAgrees slots generated

/-- An interpreter for a script that generates the instructions `script`, numbered
instructions standing for themselves in the history. Two instructions resolve Equal when
they are the same number, Update when they agree up to the last decimal digit, and Different
otherwise. The ambient state counts the calls of `Interpret`; the first call, which is the
unmasked one, always generates the script again, the later ones follow `behaviour`. -/
def scripted (script : List Nat) (behaviour : MaskedBehaviour) :
    Collaborators Nat Nat Nat Nat String where
  NoOutputObject := ""
  ToAPIType := fun e => e.msg
  NewEnclaveComponents := 0
  TryResolveWith := fun instruction enclaveInstruction _ =>
    if instruction = enclaveInstruction then .InstructionIsEqual
    else if instruction / 10 = enclaveInstruction / 10 then .InstructionIsUpdate
    else .InstructionIsDifferent
  CloneReplacedPackagesIfNeeded := fun w => (w, none)
  Interpret := fun w enclaveComponents mask =>
    let replayed : InterpretEffect Nat Nat Nat Nat String :=
      { world := w + 1, enclaveComponents := enclaveComponents + script.length,
        mask := { mask with isValid := mask.isValid && maskAgrees mask.slots script },
        result := .ok (if w = 0 then "naive" else "masked", planOf 0 script) }
    if w = 0 then replayed
    else
      match behaviour with
      | .replay => replayed
      | .rejectEvery =>
        { world := w + 1, enclaveComponents := enclaveComponents + script.length,
          mask := { mask with isValid := false },
          result := .ok ("masked", planOf 0 script) }
      | .failEvery =>
        { world := w + 1, enclaveComponents := enclaveComponents, mask := mask,
          result := .error "masked interpretation failed" }
      | .deferredError =>
        { world := w + 1, enclaveComponents := enclaveComponents + script.length,
          mask := mask,
          result := .ok ("masked", { planOf 0 script with
            deferredError := some (NewInterpretationError "instruction not found") }) }

/-- An interpreter whose unmasked interpretation fails. -/
def failingProbe : Collaborators Nat Nat Nat Nat String where
  NoOutputObject := ""
  ToAPIType := fun e => e.msg
  NewEnclaveComponents := 0
  TryResolveWith := fun _ _ _ => .InstructionIsEqual
  CloneReplacedPackagesIfNeeded := fun w => (w, none)
  Interpret := fun w enclaveComponents mask =>
    { world := w + 1, enclaveComponents := enclaveComponents, mask := mask,
      result := .error "syntax error" }

/-! ## `Interpret` -/

/-- Modelled from the spec: a position in a script, as the Starlark runtime reports it. -/
structure Position where
  filename : String
  line : Int
  col : Int
  deriving DecidableEq, Repr

/-- Modelled from the spec: one error of the Starlark resolver (`resolve.Error`). -/
structure ResolveError where
  msg : String
  pos : Position
  deriving DecidableEq, Repr

/-- Modelled from the spec: one frame of the call stack of a Starlark evaluation error. -/
structure StarlarkCallFrame where
  name : String
  pos : Position
  deriving DecidableEq, Repr

/-- Modelled from the spec: the shapes of failure raised by the Starlark runtime that
`generateInterpretationError` tells apart: a resolution error, a syntax error, a list of
resolution errors, an evaluation error with its call stack and the text of the error it
wraps, an error that is already structured, and any other error with its text. -/
inductive StarlarkError where
  | resolveError (e : ResolveError)
  | syntaxError (msg : String) (pos : Position)
  | resolveErrorList (errs : List ResolveError)
  | evalError (callStack : List StarlarkCallFrame) (unwrapped : String)
  | interpretationError (e : InterpretationError)
  | other (text : String)
  deriving DecidableEq, Repr

/-- Modelled from the spec: `startosis_errors.NewCallFrame` on a `NewScriptPosition`. -/
def NewCallFrame (name : String) (pos : Position) : CallFrame :=
  { name := name, fileName := pos.filename, line := pos.line, col := pos.col }

/-- The function `generateInterpretationError`. -/
def generateInterpretationError (err : StarlarkError) : InterpretationError :=
  match err with
  | .resolveError slError =>
    NewInterpretationErrorFromStacktrace [NewCallFrame slError.msg slError.pos]
  | .syntaxError msg pos =>
    NewInterpretationErrorFromStacktrace [NewCallFrame msg pos]
  | .resolveErrorList slError =>
    let stacktrace : List CallFrame :=
      slError.foldl (fun stacktrace slErr =>
        if slErr.msg = skipImportInstructionInStacktraceValue then stacktrace
        else stacktrace ++ [NewCallFrame slErr.msg slErr.pos]) []
    NewInterpretationErrorWithCustomMsg stacktrace multipleInterpretationErrorMsg
  | .evalError callStackFrames unwrapped =>
    let stacktrace : List CallFrame :=
      callStackFrames.foldl (fun stacktrace callStack =>
        if callStack.name = skipImportInstructionInStacktraceValue then stacktrace
        else stacktrace ++ [NewCallFrame callStack.name callStack.pos]) []
    let errorMsg :=
      if evaluationErrorPrefix.data.isPrefixOf unwrapped.data then unwrapped
      else evaluationErrorPrefix ++ unwrapped
    NewInterpretationErrorWithCustomMsg stacktrace errorMsg
  | .interpretationError slError => slError
  | .other text => NewInterpretationError ("UnknownError: " ++ text ++ "\n")

/-- The message of `missingMainFunctionError`, after formatting. -/
def missingMainFunctionMessage (packageIdPlaceholderForStandaloneScript packageId
    mainFunctionName : String) : String :=
  if packageId = packageIdPlaceholderForStandaloneScript then
    "No '" ++ mainFunctionName ++ "' function found in the script; a '" ++ mainFunctionName
      ++ "' entrypoint function with the signature `" ++ mainFunctionName
      ++ "(plan, args)` or `" ++ mainFunctionName
      ++ "()` is required in the Kurtosis script"
  else
    "No '" ++ mainFunctionName ++ "' function found in the main file of package '"
      ++ packageId ++ "'; a '" ++ mainFunctionName
      ++ "' entrypoint function with the signature `" ++ mainFunctionName
      ++ "(plan, args)` or `" ++ mainFunctionName
      ++ "()` is required in the main file of the Kurtosis package"

/-- The message of the constant `unexpectedArgNameError`, after formatting. -/
def unexpectedArgNameError (index : Nat) (expected got : String) : String :=
  "Expected argument at index '" ++ toString index ++ "' of run function to be called '"
    ++ expected ++ "' got '" ++ got ++ "' "

/-- What one call of `starlark.Call` on the entry function leaves behind: the ambient state,
the plan, the enclave components and the mask (which the function reaches through the plan
handle), and the returned value or the raised failure. -/
structure CallEffect (SI EPI EC W V : Type) where
  world : W
  plan : InstructionsPlan SI
  enclaveComponents : EC
  mask : InstructionsPlanMask EPI
  result : Except StarlarkError V

/-- The Starlark runtime and the other parts of the program that `Interpret` uses and that
lie outside the source file. `V` are Starlark values and `Fn` Starlark functions.
`interpretInternal` stands for the execution of one module (bindings, then
`starlark.ExecFile`) once `getModulePrefix` has not panicked on the package id, which
yields the globals of the module or an error that is already translated; `asFunction` and `asDict` are the type assertions to `*starlark.Function` and
`*starlark.Dict` (with the items of the dictionary); `params` gives the declared parameter
names of a function, in order; `PlanModule` is the plan handle; `isNone` tells whether a
value is `starlark.None`; `stringOf` is the text of a value. -/
structure StarlarkRuntime (SI EPI EC W V Fn AE : Type) where
  NoOutputObject : String
  PackageIdPlaceholderForStandaloneScript : String
  ToAPIType : InterpretationError → AE
  pathJoin : String → String → String
  interpretInternal : W → String → String → String → InstructionsPlan SI →
    W × InstructionsPlan SI × Except InterpretationError (List (String × V))
  asFunction : V → Option Fn
  params : Fn → List String
  PlanModule : V
  DeserializeArgs : String → Except InterpretationError V
  asDict : V → Option (List (V × V))
  Call : W → Fn → List V → List (V × V) → InstructionsPlan SI → EC →
    InstructionsPlanMask EPI → CallEffect SI EPI EC W V
  isNone : V → Bool
  SerializeOutputObject : V → Except InterpretationError String
  stringOf : V → String

/-- The three values returned by `Interpret`, what the call leaves behind (ambient state,
enclave components, mask), and the positional and keyword arguments with which the entry
function was called, when it was. -/
structure InterpretReturn (SI EPI EC W V AE : Type) where
  output : String
  plan : Option (InstructionsPlan SI)
  err : Option AE
  world : W
  enclaveComponents : EC
  mask : InstructionsPlanMask EPI
  callArguments : Option (List V × List (V × V))
  deriving DecidableEq, Repr

section Interpreter

variable {SI EPI EC W V Fn AE : Type}

/-- The function `missingMainFunctionError`. -/
def missingMainFunctionError (rt : StarlarkRuntime SI EPI EC W V Fn AE)
    (packageId mainFunctionName : String) : AE :=
  rt.ToAPIType (NewInterpretationError
    (missingMainFunctionMessage rt.PackageIdPlaceholderForStandaloneScript packageId
      mainFunctionName))

/-- `mainFunction.NumParams()`. -/
def NumParams (rt : StarlarkRuntime SI EPI EC W V Fn AE) (mainFunction : Fn) : Nat :=
  (rt.params mainFunction).length

/-- `mainFunction.Param(i)`, the name of the parameter at index `i`; the source only calls
it with an index below `NumParams()`. -/
def Param (rt : StarlarkRuntime SI EPI EC W V Fn AE) (mainFunction : Fn) (i : Nat) : String :=
  (rt.params mainFunction).getD i ""

/-- Lines 284 to 299 of `Interpret`: the positional arguments after the injection of the
plan handle, or the error for a default entry function whose first parameter is not named
`plan`. -/
def injectPlan (rt : StarlarkRuntime SI EPI EC W V Fn AE) (isUsingDefaultMainFunction : Bool)
    (mainFunction : Fn) : Except InterpretationError (List V) :=
  let argsTuple : List V := []
  let mainFuncParamsNum := NumParams rt mainFunction
  if mainFuncParamsNum ≥ minimumParamsRequiredForPlan then
    let firstParamName := Param rt mainFunction planParamIndex
    let argsTuple := if firstParamName = planParamName then argsTuple ++ [rt.PlanModule]
      else argsTuple
    if firstParamName ≠ planParamName ∧ isUsingDefaultMainFunction = true then
      .error (NewInterpretationError
        (unexpectedArgNameError planParamIndex planParamName firstParamName))
    else .ok argsTuple
  else .ok argsTuple

/-- Lines 301 to 338 of `Interpret`: the input arguments are deserialized and bound, the
entry function is called, and its output is serialized. -/
def callMainFunction (rt : StarlarkRuntime SI EPI EC W V Fn AE)
    (serializedJsonParams : String) (isUsingDefaultMainFunction : Bool) (mainFunction : Fn)
    (argsTuple : List V) (newInstructionsPlan : InstructionsPlan SI) (w : W)
    (enclaveComponents : EC) (instructionsPlanMask : InstructionsPlanMask EPI) :
    InterpretReturn SI EPI EC W V AE :=
  match rt.DeserializeArgs serializedJsonParams with
  | .error interpretationError =>
    { output := rt.NoOutputObject, plan := none,
      err := some (rt.ToAPIType interpretationError), world := w,
      enclaveComponents := enclaveComponents, mask := instructionsPlanMask,
      callArguments := none }
  | .ok inputArgs =>
    let noKwargs : List (V × V) := []
    let runWithGenericDictArgs : Bool :=
      isUsingDefaultMainFunction = true
        ∧ NumParams rt mainFunction = paramsRequiredForArgs
        ∧ Param rt mainFunction argsParamIndex = argsParamName
    let bound : Except AE (List V × List (V × V)) :=
      if runWithGenericDictArgs then .ok (argsTuple ++ [inputArgs], noKwargs)
      else
        match rt.asDict inputArgs with
        | none =>
          .error (rt.ToAPIType (NewInterpretationError
            ("An error occurred casting input args '" ++ rt.stringOf inputArgs
              ++ "' to Starlark Dict")))
        | some items => .ok (argsTuple, items)
    match bound with
    | .error e =>
      { output := rt.NoOutputObject, plan := none, err := some e, world := w,
        enclaveComponents := enclaveComponents, mask := instructionsPlanMask,
        callArguments := none }
    | .ok (argsTuple, kwArgs) =>
      let called := rt.Call w mainFunction argsTuple kwArgs newInstructionsPlan
        enclaveComponents instructionsPlanMask
      match called.result with
      | .error err =>
        { output := rt.NoOutputObject, plan := none,
          err := some (rt.ToAPIType (generateInterpretationError err)),
          world := called.world, enclaveComponents := called.enclaveComponents,
          mask := called.mask, callArguments := some (argsTuple, kwArgs) }
      | .ok outputObject =>
        if rt.isNone outputObject then
          { output := rt.NoOutputObject, plan := some called.plan, err := none,
            world := called.world, enclaveComponents := called.enclaveComponents,
            mask := called.mask, callArguments := some (argsTuple, kwArgs) }
        else
          match rt.SerializeOutputObject outputObject with
          | .error interpretationError =>
            { output := rt.NoOutputObject, plan := none,
              err := some (rt.ToAPIType interpretationError),
              world := called.world, enclaveComponents := called.enclaveComponents,
              mask := called.mask, callArguments := some (argsTuple, kwArgs) }
          | .ok serializedOutputObject =>
            { output := serializedOutputObject, plan := some called.plan, err := none,
              world := called.world, enclaveComponents := called.enclaveComponents,
              mask := called.mask, callArguments := some (argsTuple, kwArgs) }

/-- The module locator computed at lines 248 to 251 of `Interpret`. -/
def moduleLocatorOf (rt : StarlarkRuntime SI EPI EC W V Fn AE)
    (packageId relativePathtoMainFile : String) : String :=
  if packageId ≠ rt.PackageIdPlaceholderForStandaloneScript then
    rt.pathJoin packageId relativePathtoMainFile
  else packageId

/-- The function `Interpret`, started in the ambient state `w`, for a call on which
`getModulePrefix(packageId)`, reached through `interpretInternal` and `buildBindings`, does
not panic; `InterpretOrPanic` below adds that panic. -/
def Interpret (rt : StarlarkRuntime SI EPI EC W V Fn AE)
    (packageId mainFunctionName relativePathtoMainFile serializedStarlark
      serializedJsonParams : String)
    (w : W) (enclaveComponents : EC) (instructionsPlanMask : InstructionsPlanMask EPI) :
    InterpretReturn SI EPI EC W V AE :=
  let newInstructionsPlan : InstructionsPlan SI := NewInstructionsPlan
  let moduleLocator := moduleLocatorOf rt packageId relativePathtoMainFile
  match rt.interpretInternal w packageId moduleLocator serializedStarlark
      newInstructionsPlan with
  | (w, _, .error interpretationErr) =>
    { output := rt.NoOutputObject, plan := none,
      err := some (rt.ToAPIType interpretationErr), world := w,
      enclaveComponents := enclaveComponents, mask := instructionsPlanMask,
      callArguments := none }
  | (w, newInstructionsPlan, .ok globalVariables) =>
    let isUsingDefaultMainFunction : Bool :=
      mainFunctionName = "" ∨ mainFunctionName = runFunctionName
    let mainFunctionName :=
      if isUsingDefaultMainFunction then runFunctionName else mainFunctionName
    match globalVariables.lookup mainFunctionName with
    | none =>
      { output := "", plan := none,
        err := some (missingMainFunctionError rt packageId mainFunctionName), world := w,
        enclaveComponents := enclaveComponents, mask := instructionsPlanMask,
        callArguments := none }
    | some value =>
      match rt.asFunction value with
      | none =>
        { output := rt.NoOutputObject, plan := none,
          err := some (missingMainFunctionError rt packageId mainFunctionName), world := w,
          enclaveComponents := enclaveComponents, mask := instructionsPlanMask,
          callArguments := none }
      | some mainFunction =>
        match injectPlan rt isUsingDefaultMainFunction mainFunction with
        | .error interpretationErr =>
          { output := rt.NoOutputObject, plan := none,
            err := some (rt.ToAPIType interpretationErr), world := w,
            enclaveComponents := enclaveComponents, mask := instructionsPlanMask,
            callArguments := none }
        | .ok argsTuple =>
          callMainFunction rt serializedJsonParams isUsingDefaultMainFunction mainFunction
            argsTuple newInstructionsPlan w enclaveComponents instructionsPlanMask

/-- The name of the entry function that `Interpret` looks up: the requested name, the empty
name standing for the default `run`. -/
def entryFunctionName (mainFunctionName : String) : String :=
  if mainFunctionName = "" then runFunctionName else mainFunctionName

end Interpreter

/-! ## A concrete runtime on which `Interpret` is run -/

/-- The values of the runtime below. -/
inductive DemoValue where
  | none
  | int (n : Int)
  | str (s : String)
  | function (params : List String)
  | dict (items : List (String × Int))
  | planModule
  deriving DecidableEq, Repr

/-- A runtime in which executing the script yields the globals `globals`, the parameters
deserialize to `payload`, and the entry function schedules the instruction 1 when it is
handed the plan handle, and returns `None`. -/
def demoRuntime (globals : List (String × DemoValue)) (payload : DemoValue) :
    StarlarkRuntime Nat Nat Nat Nat DemoValue (List String) String where
  NoOutputObject := ""
  PackageIdPlaceholderForStandaloneScript := "DEFAULT_PACKAGE_ID_FOR_SCRIPT"
  ToAPIType := fun e => e.msg
  pathJoin := fun a b => a ++ "/" ++ b
  interpretInternal := fun w _ _ _ plan => (w + 1, plan, .ok globals)
  asFunction := fun v => match v with
    | .function params => some params
    | _ => Option.none
  params := fun fn => fn
  PlanModule := .planModule
  DeserializeArgs := fun _ => .ok payload
  asDict := fun v => match v with
    | .dict items => some (items.map (fun kv => (DemoValue.str kv.1, DemoValue.int kv.2)))
    | _ => Option.none
  Call := fun w _ args _ plan enclaveComponents mask =>
    { world := w + 1,
      plan := if args.head? = some DemoValue.planModule then plan.AddScheduledInstruction 1
        else plan,
      enclaveComponents := enclaveComponents, mask := mask, result := .ok DemoValue.none }
  isNone := fun v => v == DemoValue.none
  SerializeOutputObject := fun _ => .ok "output"
  stringOf := fun _ => "value"

/-! ## `getModulePrefix` and the import closure of `buildBindings` -/

def numModIdSeparators : Nat := 3

/-- Modelled from the spec: `git_package_content_provider.OsPathSeparatorString`, which is
not part of the source file; the example in the comment of `getModulePrefix`
(`"github.com/kurtosis-tech/postgres-package/main.star"`) shows it to be the slash. -/
def OsPathSeparator : Char := '/'

/-- `strings.Index` followed by the two slicings of the loop of `strings.SplitN`: the text
before the first separator and the text after it, or nothing when there is no separator. -/
def cutAtSeparator (sep : Char) : List Char → Option (List Char × List Char)
  | [] => none
  | c :: cs =>
    if c = sep then some ([], cs)
    else
      match cutAtSeparator sep cs with
      | none => none
      | some (before, after) => some (c :: before, after)

/-- The loop of `strings.SplitN` (Go standard library): at most `cuts` cuts at the
separator, the rest of the text being the last piece. -/
def splitPieces (sep : Char) : Nat → List Char → List (List Char)
  | 0, s => [s]
  | cuts + 1, s =>
    match cutAtSeparator sep s with
    | none => [s]
    | some (before, after) => before :: splitPieces sep cuts after

/-- A Go slice of strings as `strings.SplitN` returns it: its elements, and the capacity of
the array behind it, whose elements past the length are empty strings. -/
structure GoStringSlice where
  elems : List (List Char)
  cap : Nat
  deriving DecidableEq, Repr

/-- `strings.SplitN(s, sep, n)` for a positive `n` and a separator of one character (Go
standard library): the array allocated has `min(n, len(s) + 1)` elements, `len(s)` counting
bytes. -/
def SplitN (s : String) (sep : Char) (n : Nat) : GoStringSlice :=
  let n := if n > s.utf8ByteSize + 1 then s.utf8ByteSize + 1 else n
  { elems := splitPieces sep (n - 1) s.data, cap := n }

/-- The slice expression `a[:k]`: it panics (`none`) when `k` exceeds the capacity, and
otherwise holds the first `k` elements of the array. -/
def GoStringSlice.upTo (a : GoStringSlice) (k : Nat) : Option (List (List Char)) :=
  if k ≤ a.cap then some ((a.elems ++ List.replicate (k - a.elems.length) []).take k)
  else none

/-- The function `getModulePrefix`; `none` stands for the run-time panic of the slice
expression on a module id of fewer than two bytes. -/
def getModulePrefix (moduleId : String) : Option String :=
  match (SplitN moduleId OsPathSeparator (numModIdSeparators + 1)).upTo
      numModIdSeparators with
  | none => none
  | some parts => some (String.mk (List.intercalate [OsPathSeparator] parts))

section ImportClosure

variable {SI EPI EC W V Fn AE : Type}

/-- The closure `recursiveInterpretForModuleLoading` that `buildBindings` builds for the
package `packageId`, whose prefix `packagePrefix` it has computed before, applied to a
module id and its text. The shared plan and the ambient state are passed in and returned;
`none` stands for the panic of `getModulePrefix`. -/
def recursiveInterpretForModuleLoading (rt : StarlarkRuntime SI EPI EC W V Fn AE)
    (packageId packagePrefix : String) (w : W) (instructionPlan : InstructionsPlan SI)
    (moduleId serializedStartosis : String) :
    Option (W × InstructionsPlan SI × Except InterpretationError (List (String × V))) :=
  match getModulePrefix moduleId with
  | none => none
  | some modulePrefix =>
    let instructionPlan :=
      if modulePrefix ≠ packagePrefix then instructionPlan.AddPackageDependency modulePrefix
      else instructionPlan
    match rt.interpretInternal w packageId moduleId serializedStartosis instructionPlan with
    | (w, instructionPlan, .error err) => some (w, instructionPlan, .error err)
    | (w, instructionPlan, .ok result) => some (w, instructionPlan, .ok result)

/-- The part of `buildBindings` that builds the import closure: the prefix of the package
id is computed first (line 373), then the closure is built. -/
def buildBindingsImportClosure (rt : StarlarkRuntime SI EPI EC W V Fn AE)
    (packageId : String) :
    Option (W → InstructionsPlan SI → String → String →
      Option (W × InstructionsPlan SI × Except InterpretationError (List (String × V)))) :=
  match getModulePrefix packageId with
  | none => none
  | some packagePrefix => some (recursiveInterpretForModuleLoading rt packageId packagePrefix)

end ImportClosure

/-- The runtime `demoRuntime` in which the execution of every module fails, leaving the plan
as it found it. -/
def failingModuleRuntime :
    StarlarkRuntime Nat Nat Nat Nat DemoValue (List String) String :=
  { demoRuntime [] (.dict []) with
    interpretInternal := fun w _ _ _ plan =>
      (w + 1, plan, .error (NewInterpretationError "module fails")) }

/-! ## The copy loop with a record of what it did -/

/-- What the copy loop of `InterpretAndOptimizePlan` did: what it returned, the slot indices
at which it called `InsertAt`, in order, and whether it left through the `break` taken when
the mask is full. -/
structure CopyTrace (EPI : Type) where
  result : Nat × InstructionsPlanMask EPI
  insertedAt : List Nat
  maskFullBreak : Bool

/-- The loop of `copyToMask`, recording each call of `InsertAt` and the `break`. -/
def copyToMaskTrace {EPI : Type} (currentEnclavePlanSequence : List EPI) :
    Nat → Nat → Nat → InstructionsPlanMask EPI → CopyTrace EPI
  | 0, _, numberOfInstructionCopiedToMask, potentialMask =>
    { result := (numberOfInstructionCopiedToMask, potentialMask), insertedAt := [],
      maskFullBreak := false }
  | fuel + 1, copyIdx, numberOfInstructionCopiedToMask, potentialMask =>
    match currentEnclavePlanSequence[copyIdx]? with
    | none =>
      { result := (numberOfInstructionCopiedToMask, potentialMask), insertedAt := [],
        maskFullBreak := false }
    | some enclaveInstruction =>
      if numberOfInstructionCopiedToMask ≥ potentialMask.Size then
        { result := (numberOfInstructionCopiedToMask, potentialMask), insertedAt := [],
          maskFullBreak := true }
      else
        let rest := copyToMaskTrace currentEnclavePlanSequence fuel (copyIdx + 1)
          (numberOfInstructionCopiedToMask + 1)
          (potentialMask.InsertAt numberOfInstructionCopiedToMask enclaveInstruction)
        { rest with insertedAt := numberOfInstructionCopiedToMask :: rest.insertedAt }

/-! ## The variant of the loop that moves the cursor past a rejected match -/

section SkipToNext

variable {SI EPI EC W AE : Type}

/-- One iteration of the variant of the loop described in the specification of the
reconciler, in which rejecting the match found at index `i` sets the cursor to `i + 1`.
Everything else is the iteration of `loopBody`. -/
def loopBodySkipToNext (c : Collaborators SI EPI EC W AE) (currentEnclavePlan : EnclavePlan EPI)
    (naiveInstructionsPlanSequence : List SI)
    (naiveInstructionsPlanSerializedScriptOutput : String) (s : LoopState EPI EC W) :
    LoopState EPI EC W ⊕ OptimizeReturn SI EPI EC AE :=
  let matchingInstructionIdx :=
    findFirstEqualInstructionPastIndex c currentEnclavePlan.GeneratePlan
      naiveInstructionsPlanSequence s.firstPossibleIndexForMatchingInstruction
  match loopBody c currentEnclavePlan naiveInstructionsPlanSequence
      naiveInstructionsPlanSerializedScriptOutput s with
  | .inl rejected =>
    .inl { rejected with
      firstPossibleIndexForMatchingInstruction := matchingInstructionIdx.toNat + 1 }
  | .inr returned => .inr returned

/-- The loop of the variant, run for at most `fuel` iterations; `none` when it has not
returned by then. -/
def optimizeLoopSkipToNext (c : Collaborators SI EPI EC W AE)
    (currentEnclavePlan : EnclavePlan EPI) (naiveInstructionsPlanSequence : List SI)
    (naiveInstructionsPlanSerializedScriptOutput : String) :
    Nat → LoopState EPI EC W → Option (OptimizeReturn SI EPI EC AE)
  | 0, _ => none
  | fuel + 1, s =>
    match loopBodySkipToNext c currentEnclavePlan naiveInstructionsPlanSequence
        naiveInstructionsPlanSerializedScriptOutput s with
    | .inl next =>
      optimizeLoopSkipToNext c currentEnclavePlan naiveInstructionsPlanSequence
        naiveInstructionsPlanSerializedScriptOutput fuel next
    | .inr returned => some returned

/-- The variant of `InterpretAndOptimizePlan` whose loop is `optimizeLoopSkipToNext`: the
steps before the loop are those of `InterpretAndOptimizePlan`. -/
def InterpretAndOptimizePlanSkipToNext (c : Collaborators SI EPI EC W AE) (w : W)
    (currentEnclavePlan : EnclavePlan EPI) : Option (OptimizeReturn SI EPI EC AE) :=
  match c.CloneReplacedPackagesIfNeeded w with
  | (_, some interpretationErr) =>
    some { output := "", plan := none, err := some (c.ToAPIType interpretationErr),
           calls := [] }
  | (w, none) =>
    let enclaveComponents := c.NewEnclaveComponents
    let emptyPlanInstructionsMask : InstructionsPlanMask EPI := NewInstructionsPlanMask 0
    let probe := c.Interpret w enclaveComponents emptyPlanInstructionsMask
    let calls : List (InterpretCall EPI EC) :=
      [{ enclaveComponents := enclaveComponents,
         instructionsPlanMask := emptyPlanInstructionsMask }]
    match probe.result with
    | .error interpretationErrorApi =>
      some { output := c.NoOutputObject, plan := none, err := some interpretationErrorApi,
             calls := calls }
    | .ok (naiveInstructionsPlanSerializedScriptOutput, naiveInstructionsPlan) =>
      match naiveInstructionsPlan.GeneratePlan with
      | .error interpretationErr =>
        some { output := c.NoOutputObject, plan := none,
               err := some (c.ToAPIType interpretationErr), calls := calls }
      | .ok naiveInstructionsPlanSequence =>
        optimizeLoopSkipToNext c currentEnclavePlan naiveInstructionsPlanSequence
          naiveInstructionsPlanSerializedScriptOutput (currentEnclavePlan.Size + 1)
          (initialLoopState c currentEnclavePlan naiveInstructionsPlan probe)

/-- What the loop of `InterpretAndOptimizePlan` reads of a masked call of `Interpret`: the
error, or the output and what `GeneratePlan` makes of the plan, and the validity of the
mask. -/
def probeOutcome (eff : InterpretEffect SI EPI EC W AE) :
    Except AE (String × Except InterpretationError (List SI)) × Bool :=
  (match eff.result with
    | .error interpretationErrorApi => .error interpretationErrorApi
    | .ok (attemptSerializedScriptOutput, attemptInstructionsPlan) =>
      .ok (attemptSerializedScriptOutput, attemptInstructionsPlan.GeneratePlan),
   eff.mask.IsValid)

/-- What the caller receives from `InterpretAndOptimizePlan`: the output, the plan and the
error. -/
def returnedValues (r : OptimizeReturn SI EPI EC AE) :
    String × Option (InstructionsPlan SI) × Option AE :=
  (r.output, r.plan, r.err)

end SkipToNext

/-- An interpreter for a script that generates the instructions `script`, whose result
depends on the mask alone: the script is generated again, and the mask stays valid when
every override equals the instruction generated at its slot. The ambient state counts the
calls. -/
def maskDetermined (script : List Nat) : Collaborators Nat Nat Nat Nat String where
  NoOutputObject := ""
  ToAPIType := fun e => e.msg
  NewEnclaveComponents := 0
  TryResolveWith := fun instruction enclaveInstruction _ =>
    if instruction = enclaveInstruction then .InstructionIsEqual
    else if instruction / 10 = enclaveInstruction / 10 then .InstructionIsUpdate
    else .InstructionIsDifferent
  CloneReplacedPackagesIfNeeded := fun w => (w, none)
  Interpret := fun w enclaveComponents mask =>
    { world := w + 1, enclaveComponents := enclaveComponents + script.length,
      mask := { mask with isValid := mask.isValid && maskAgrees mask.slots script },
      result := .ok ("output", planOf 0 script) }

/-! ## The calls of `Interpret` with the panic of `getModulePrefix` -/

/-- The function `Interpret` with the panic that every call of it can run into: its first
step after the module locator is `interpretInternal` (line 255), which calls `buildBindings`
(line 353), whose first statement is `getModulePrefix(packageId)` (line 373). `none` stands
for that panic, in which case nothing is returned to the caller; otherwise the call is the
one described by `Interpret`. -/
def InterpretOrPanic {SI EPI EC W V Fn AE : Type} (rt : StarlarkRuntime SI EPI EC W V Fn AE)
    (packageId mainFunctionName relativePathtoMainFile serializedStarlark
      serializedJsonParams : String)
    (w : W) (enclaveComponents : EC) (instructionsPlanMask : InstructionsPlanMask EPI) :
    Option (InterpretReturn SI EPI EC W V AE) :=
  match getModulePrefix packageId with
  | none => none
  | some _ =>
    some (Interpret rt packageId mainFunctionName relativePathtoMainFile serializedStarlark
      serializedJsonParams w enclaveComponents instructionsPlanMask)

/-- The function `InterpretAndOptimizePlan` for the package id `packageId`, which it hands to
every call of `Interpret` (lines 122 and 191), with the panic of those calls. When the
replaced packages cannot be cloned it returns before any call of `Interpret` (line 116);
otherwise its first call of `Interpret` panics when `getModulePrefix(packageId)` does.
`none` stands for that panic, or for a loop that has not returned. -/
def InterpretAndOptimizePlanOrPanic {SI EPI EC W AE : Type} (c : Collaborators SI EPI EC W AE)
    (packageId : String) (w : W) (currentEnclavePlan : EnclavePlan EPI) :
    Option (OptimizeReturn SI EPI EC AE) :=
  match c.CloneReplacedPackagesIfNeeded w with
  | (_, some _) => InterpretAndOptimizePlan c w currentEnclavePlan
  | (_, none) =>
    match getModulePrefix packageId with
    | none => none
    | some _ => InterpretAndOptimizePlan c w currentEnclavePlan

/-! ## Lemmas on the plan primitives and on the search loop -/

section ReconcilerLemmas

variable {SI EPI EC W AE : Type}

theorem foldl_AddScheduledInstruction (seq : List SI) (p : InstructionsPlan SI) :
    seq.foldl AddScheduledInstruction p
      = { p with scheduledInstructions := p.scheduledInstructions ++ seq } := by
  induction seq generalizing p with
  | nil => simp
  | cons a t ih => simp [List.foldl, ih, AddScheduledInstruction]

theorem findLoop_spec (c : Collaborators SI EPI EC W AE) (H : List EPI) (first : SI) :
    ∀ fuel i, H.length - i ≤ fuel →
      (findFirstEqualInstructionLoop c H first fuel i = -1
          ∧ ∀ j e, i ≤ j → H[j]? = some e → resolvesWith c first e = false)
      ∨ ∃ (k : Nat) (e : EPI), findFirstEqualInstructionLoop c H first fuel i = (k : Int) ∧ i ≤ k
          ∧ H[k]? = some e ∧ resolvesWith c first e = true
          ∧ ∀ j e, i ≤ j → j < k → H[j]? = some e → resolvesWith c first e = false := by
  intro fuel
  induction fuel with
  | zero =>
    intro i hi
    left
    refine ⟨rfl, ?_⟩
    intro j e hij hj
    have : j < H.length := (List.getElem?_eq_some_iff.mp hj).1
    omega
  | succ n ih =>
    intro i hi
    unfold findFirstEqualInstructionLoop
    cases hget : H[i]? with
    | none =>
      left
      refine ⟨rfl, ?_⟩
      intro j e hij hj
      have h1 : j < H.length := (List.getElem?_eq_some_iff.mp hj).1
      have h2 : H.length ≤ i := List.getElem?_eq_none_iff.mp hget
      omega
    | some e0 =>
      simp only []
      by_cases hres : c.TryResolveWith first e0 c.NewEnclaveComponents = .InstructionIsEqual
          ∨ c.TryResolveWith first e0 c.NewEnclaveComponents = .InstructionIsUpdate
      · right
        refine ⟨i, e0, by rw [if_pos hres], le_refl _, hget, by simp [resolvesWith, hres], ?_⟩
        intro j e hij hji
        omega
      · rw [if_neg hres]
        have hlen : i < H.length := (List.getElem?_eq_some_iff.mp hget).1
        rcases ih (i + 1) (by omega) with ⟨h1, h2⟩ | ⟨k, e, h1, h2, h3, h4, h5⟩
        · left
          refine ⟨h1, ?_⟩
          intro j e hij hj
          rcases Nat.eq_or_lt_of_le hij with heq | hlt
          · subst heq
            rw [hget] at hj
            cases hj
            simp [resolvesWith, hres]
          · exact h2 j e hlt hj
        · right
          refine ⟨k, e, h1, by omega, h3, h4, ?_⟩
          intro j e' hij hjk hj
          rcases Nat.eq_or_lt_of_le hij with heq | hlt
          · subst heq
            rw [hget] at hj
            cases hj
            simp [resolvesWith, hres]
          · exact h5 j e' hlt hjk hj

theorem findFirst_spec (c : Collaborators SI EPI EC W AE) (H : List EPI) (N : List SI)
    (m : Nat) :
    (findFirstEqualInstructionPastIndex c H N m = -1
        ∧ ∀ j, m ≤ j → resolvesAt c H N j = false)
    ∨ ∃ k : Nat, findFirstEqualInstructionPastIndex c H N m = (k : Int) ∧ m ≤ k
        ∧ k < H.length ∧ resolvesAt c H N k = true
        ∧ ∀ j, m ≤ j → j < k → resolvesAt c H N j = false := by
  cases N with
  | nil =>
    left
    refine ⟨rfl, ?_⟩
    intro j _
    simp [resolvesAt]
  | cons first rest =>
    simp only [findFirstEqualInstructionPastIndex]
    rcases findLoop_spec c H first (H.length - m) m (le_refl _) with
      ⟨h1, h2⟩ | ⟨k, e, h1, h2, h3, h4, h5⟩
    · left
      refine ⟨h1, ?_⟩
      intro j hj
      cases hget : H[j]? with
      | none => simp [resolvesAt, hget]
      | some e => simpa [resolvesAt, hget] using h2 j e hj hget
    · right
      refine ⟨k, h1, h2, (List.getElem?_eq_some_iff.mp h3).1, ?_, ?_⟩
      · simpa [resolvesAt, h3] using h4
      · intro j hj hjk
        cases hget : H[j]? with
        | none => simp [resolvesAt, hget]
        | some e => simpa [resolvesAt, hget] using h5 j e hj hjk hget

/-- The four ways one iteration of the loop can end. -/
theorem loopBody_cases (c : Collaborators SI EPI EC W AE) (cep : EnclavePlan EPI)
    (N : List SI) (out : String) (s : LoopState EPI EC W) :
    (findFirstEqualInstructionPastIndex c cep.GeneratePlan N
          s.firstPossibleIndexForMatchingInstruction = -1
        ∧ (∀ j, s.firstPossibleIndexForMatchingInstruction ≤ j →
            resolvesAt c cep.GeneratePlan N j = false)
        ∧ loopBody c cep N out s = .inr
            { output := out, plan := some (planOf (cep.Size : Int) N), err := none,
              calls := s.calls })
    ∨ ∃ i : Nat,
        findFirstEqualInstructionPastIndex c cep.GeneratePlan N
          s.firstPossibleIndexForMatchingInstruction = (i : Int)
        ∧ s.firstPossibleIndexForMatchingInstruction ≤ i ∧ i < cep.Size
        ∧ resolvesAt c cep.GeneratePlan N i = true
        ∧ (∀ j, s.firstPossibleIndexForMatchingInstruction ≤ j → j < i →
            resolvesAt c cep.GeneratePlan N j = false)
        ∧ ((accepted (attemptAt c cep N s i) = false
            ∧ loopBody c cep N out s = .inl (rejectedState c cep N s i))
          ∨ ∃ o p, (attemptAt c cep N s i).result = .ok (o, p)
              ∧ (attemptAt c cep N s i).mask.IsValid = true
              ∧ ((∃ e, p.GeneratePlan = .error e
                    ∧ loopBody c cep N out s = .inr
                        { output := c.NoOutputObject, plan := none,
                          err := some (c.ToAPIType e),
                          calls := callsAfterAttempt cep N s i })
                ∨ ∃ seq, p.GeneratePlan = .ok seq
                    ∧ loopBody c cep N out s = .inr
                        { output := o, plan := some (planOf (i : Int) seq), err := none,
                          calls := callsAfterAttempt cep N s i })) := by
  rcases findFirst_spec c cep.GeneratePlan N s.firstPossibleIndexForMatchingInstruction with
    ⟨h1, h2⟩ | ⟨i, h1, h2, h3, h4, h5⟩
  · left
    refine ⟨h1, h2, ?_⟩
    simp [loopBody, h1, foldl_AddScheduledInstruction, SetIndexOfFirstInstruction,
      NewInstructionsPlan, planOf]
  · right
    refine ⟨i, h1, h2, h3, h4, h5, ?_⟩
    cases hres : (attemptAt c cep N s i).result with
    | error e =>
      left
      refine ⟨by simp [accepted, hres], ?_⟩
      simp only [attemptAt] at hres
      simp [loopBody, h1, hres, rejectedState, attemptAt, callsAfterAttempt]
    | ok op =>
      obtain ⟨o, p⟩ := op
      cases hval : (attemptAt c cep N s i).mask.IsValid with
      | false =>
        left
        refine ⟨by simp [accepted, hres, hval], ?_⟩
        simp only [attemptAt] at hres hval
        simp [loopBody, h1, hres, hval, rejectedState, attemptAt, callsAfterAttempt]
      | true =>
        right
        refine ⟨o, p, rfl, rfl, ?_⟩
        simp only [attemptAt] at hres hval
        cases hgen : p.GeneratePlan with
        | error e =>
          left
          refine ⟨e, rfl, ?_⟩
          simp [loopBody, h1, hres, hval, hgen, callsAfterAttempt]
        | ok seq =>
          right
          refine ⟨seq, rfl, ?_⟩
          simp [loopBody, h1, hres, hval, hgen, foldl_AddScheduledInstruction,
            SetIndexOfFirstInstruction, NewInstructionsPlan, planOf, callsAfterAttempt]

/-- An iteration that ends in `continue` found a match and rejected its masked call. -/
theorem loopBody_inl (c : Collaborators SI EPI EC W AE) (cep : EnclavePlan EPI)
    (N : List SI) (out : String) (s next : LoopState EPI EC W)
    (hbody : loopBody c cep N out s = .inl next) :
    ∃ i : Nat, s.firstPossibleIndexForMatchingInstruction ≤ i ∧ i < cep.Size
      ∧ resolvesAt c cep.GeneratePlan N i = true
      ∧ (∀ j, s.firstPossibleIndexForMatchingInstruction ≤ j → j < i →
          resolvesAt c cep.GeneratePlan N j = false)
      ∧ accepted (attemptAt c cep N s i) = false
      ∧ next = rejectedState c cep N s i := by
  rcases loopBody_cases c cep N out s with
    ⟨_, _, h⟩ | ⟨i, _, h2, h3, h4, h5, ⟨h6, h7⟩ | ⟨o, p, _, _, ⟨e, _, h⟩ | ⟨seq, _, h⟩⟩⟩
  · rw [h] at hbody; cases hbody
  · rw [h7] at hbody
    refine ⟨i, h2, h3, h4, h5, h6, ?_⟩
    injection hbody with h'
    exact h'.symm
  · rw [h] at hbody; cases hbody
  · rw [h] at hbody; cases hbody

theorem optimizeLoop_of_inr (c : Collaborators SI EPI EC W AE) (cep : EnclavePlan EPI)
    (N : List SI) (out : String) (s : LoopState EPI EC W) (r : OptimizeReturn SI EPI EC AE)
    (fuel : Nat) (hbody : loopBody c cep N out s = .inr r) :
    optimizeLoop c cep N out (fuel + 1) s = some r := by
  simp [optimizeLoop, hbody]

theorem optimizeLoop_of_inl (c : Collaborators SI EPI EC W AE) (cep : EnclavePlan EPI)
    (N : List SI) (out : String) (s next : LoopState EPI EC W)
    (fuel : Nat) (hbody : loopBody c cep N out s = .inl next) :
    optimizeLoop c cep N out (fuel + 1) s = optimizeLoop c cep N out fuel next := by
  simp [optimizeLoop, hbody]

/-- The loop returns as soon as its fuel exceeds the distance of the cursor to the end of
the history. -/
theorem optimizeLoop_total (c : Collaborators SI EPI EC W AE) (cep : EnclavePlan EPI)
    (N : List SI) (out : String) :
    ∀ (fuel : Nat) (s : LoopState EPI EC W),
      cep.Size - s.firstPossibleIndexForMatchingInstruction < fuel →
      ∃ r, optimizeLoop c cep N out fuel s = some r := by
  intro fuel
  induction fuel with
  | zero => intro s h; omega
  | succ n ih =>
    intro s h
    cases hbody : loopBody c cep N out s with
    | inr r => exact ⟨r, optimizeLoop_of_inr c cep N out s r n hbody⟩
    | inl next =>
      obtain ⟨i, h1, h2, _, _, _, h6⟩ := loopBody_inl c cep N out s next hbody
      rw [optimizeLoop_of_inl c cep N out s next n hbody]
      apply ih
      rw [h6]
      simp only [rejectedState]
      omega

/-- More fuel does not change what the loop returns. -/
theorem optimizeLoop_mono (c : Collaborators SI EPI EC W AE) (cep : EnclavePlan EPI)
    (N : List SI) (out : String) :
    ∀ (fuel extra : Nat) (s : LoopState EPI EC W) (r : OptimizeReturn SI EPI EC AE),
      optimizeLoop c cep N out fuel s = some r →
      optimizeLoop c cep N out (fuel + extra) s = some r := by
  intro fuel
  induction fuel with
  | zero => intro extra s r h; simp [optimizeLoop] at h
  | succ n ih =>
    intro extra s r h
    have hrw : n + 1 + extra = (n + extra) + 1 := by omega
    rw [hrw]
    cases hbody : loopBody c cep N out s with
    | inr r' =>
      rw [optimizeLoop_of_inr c cep N out s r' n hbody] at h
      rw [optimizeLoop_of_inr c cep N out s r' (n + extra) hbody]
      exact h
    | inl next =>
      rw [optimizeLoop_of_inl c cep N out s next n hbody] at h
      rw [optimizeLoop_of_inl c cep N out s next (n + extra) hbody]
      exact ih extra next r h

/-- A property of the loop state that every `continue` preserves, and that makes every
`return` satisfy `P`, makes the result of the loop satisfy `P`. -/
theorem optimizeLoop_invariant (c : Collaborators SI EPI EC W AE) (cep : EnclavePlan EPI)
    (N : List SI) (out : String) (Inv : LoopState EPI EC W → Prop)
    (P : OptimizeReturn SI EPI EC AE → Prop)
    (hstep : ∀ s next, Inv s → loopBody c cep N out s = .inl next → Inv next)
    (hret : ∀ s r, Inv s → loopBody c cep N out s = .inr r → P r) :
    ∀ (fuel : Nat) (s : LoopState EPI EC W) (r : OptimizeReturn SI EPI EC AE),
      Inv s → optimizeLoop c cep N out fuel s = some r → P r := by
  intro fuel
  induction fuel with
  | zero => intro s r _ h; simp [optimizeLoop] at h
  | succ n ih =>
    intro s r hinv h
    cases hbody : loopBody c cep N out s with
    | inr r' =>
      rw [optimizeLoop_of_inr c cep N out s r' n hbody] at h
      cases h
      exact hret s r hinv hbody
    | inl next =>
      rw [optimizeLoop_of_inl c cep N out s next n hbody] at h
      exact ih next r (hstep s next hinv hbody) h

/-- After `k` iterations that ended in `continue`, the cursor has advanced by `k`, stays
below the end of the history when `k` is positive, and `k` calls were added. -/
theorem loopStateAfter_cursor (c : Collaborators SI EPI EC W AE) (cep : EnclavePlan EPI)
    (N : List SI) (out : String) :
    ∀ (k : Nat) (s0 s : LoopState EPI EC W),
      loopStateAfter c cep N out k s0 = some s →
      s.firstPossibleIndexForMatchingInstruction
          = s0.firstPossibleIndexForMatchingInstruction + k
        ∧ (0 < k → s.firstPossibleIndexForMatchingInstruction ≤ cep.Size)
        ∧ s.calls.length = s0.calls.length + k := by
  intro k
  induction k with
  | zero =>
    intro s0 s h
    simp [loopStateAfter] at h
    subst h
    simp
  | succ n ih =>
    intro s0 s h
    cases hbody : loopBody c cep N out s0 with
    | inr r => simp [loopStateAfter, hbody] at h
    | inl next =>
      simp only [loopStateAfter, hbody] at h
      obtain ⟨i, h1, h2, _, _, _, h6⟩ := loopBody_inl c cep N out s0 next hbody
      obtain ⟨g1, g2, g3⟩ := ih next s h
      have e1 : next.firstPossibleIndexForMatchingInstruction
          = s0.firstPossibleIndexForMatchingInstruction + 1 := by rw [h6]; rfl
      have e2 : next.calls.length = s0.calls.length + 1 := by
        rw [h6]; simp [rejectedState, callsAfterAttempt]
      refine ⟨by omega, ?_, by omega⟩
      intro _
      rcases Nat.eq_zero_or_pos n with hn | hn
      · subst hn
        omega
      · exact g2 hn

/-- Running the loop from the state reached after `k` iterations is running it from the
start with `k` more iterations of fuel. -/
theorem optimizeLoop_after (c : Collaborators SI EPI EC W AE) (cep : EnclavePlan EPI)
    (N : List SI) (out : String) :
    ∀ (k fuel : Nat) (s0 s : LoopState EPI EC W),
      loopStateAfter c cep N out k s0 = some s →
      optimizeLoop c cep N out (k + fuel) s0 = optimizeLoop c cep N out fuel s := by
  intro k
  induction k with
  | zero =>
    intro fuel s0 s h
    simp [loopStateAfter] at h
    subst h
    simp
  | succ n ih =>
    intro fuel s0 s h
    cases hbody : loopBody c cep N out s0 with
    | inr r => simp [loopStateAfter, hbody] at h
    | inl next =>
      simp only [loopStateAfter, hbody] at h
      have hrw : n + 1 + fuel = (n + fuel) + 1 := by omega
      rw [hrw, optimizeLoop_of_inl c cep N out s0 next (n + fuel) hbody]
      exact ih fuel next s h

/-- What `InterpretAndOptimizePlan` is once the preliminary steps have succeeded. -/
theorem InterpretAndOptimizePlan_eq_loop (c : Collaborators SI EPI EC W AE) (w w1 : W)
    (cep : EnclavePlan EPI) (out : String) (naivePlan : InstructionsPlan SI) (N : List SI)
    (hclone : c.CloneReplacedPackagesIfNeeded w = (w1, none))
    (hprobe : (unmaskedProbe c w1).result
      = .ok (out, naivePlan))
    (hfreeze : naivePlan.GeneratePlan = .ok N) :
    InterpretAndOptimizePlan c w cep
      = optimizeLoop c cep N out (cep.Size + 1)
          (initialLoopState c cep naivePlan
            (unmaskedProbe c w1)) := by
  simp only [unmaskedProbe] at hprobe
  simp [InterpretAndOptimizePlan, hclone, hprobe, hfreeze, unmaskedProbe]

theorem GeneratePlan_length (p : InstructionsPlan SI) (N : List SI)
    (hfreeze : p.GeneratePlan = .ok N) : p.Size = N.length := by
  unfold InstructionsPlan.GeneratePlan at hfreeze
  cases hd : p.deferredError with
  | some e => simp [hd] at hfreeze
  | none =>
    simp [hd] at hfreeze
    simp [InstructionsPlan.Size, hfreeze]

/-- From any loop state the loop returns after a number of iterations that is at most one
more than the distance of the cursor to the end of the history, and it makes at most one
call of `Interpret` per position left. -/
theorem optimizeLoop_exact (c : Collaborators SI EPI EC W AE) (cep : EnclavePlan EPI)
    (N : List SI) (out : String) :
    ∀ (d : Nat) (s : LoopState EPI EC W),
      cep.Size - s.firstPossibleIndexForMatchingInstruction = d →
      ∃ k r, k ≤ d + 1 ∧ optimizeLoop c cep N out k s = some r
        ∧ (∀ k', k' < k → optimizeLoop c cep N out k' s = none)
        ∧ r.calls.length ≤ s.calls.length + d := by
  intro d
  induction d with
  | zero =>
    intro s hd
    cases hbody : loopBody c cep N out s with
    | inl next =>
      obtain ⟨i, h1, h2, _⟩ := loopBody_inl c cep N out s next hbody
      omega
    | inr r =>
      refine ⟨1, r, by omega, optimizeLoop_of_inr c cep N out s r 0 hbody, ?_, ?_⟩
      · intro k' hk'
        have : k' = 0 := by omega
        subst this
        rfl
      · rcases loopBody_cases c cep N out s with
          ⟨_, _, h⟩ | ⟨i, _, h2, h3, _, _, _⟩
        · rw [h] at hbody
          cases hbody
          simp
        · omega
  | succ n ih =>
    intro s hd
    cases hbody : loopBody c cep N out s with
    | inl next =>
      obtain ⟨i, h1, h2, _, _, _, h6⟩ := loopBody_inl c cep N out s next hbody
      have e1 : next.firstPossibleIndexForMatchingInstruction
          = s.firstPossibleIndexForMatchingInstruction + 1 := by rw [h6]; rfl
      have e2 : next.calls.length = s.calls.length + 1 := by
        rw [h6]; simp [rejectedState, callsAfterAttempt]
      obtain ⟨k, r, g1, g2, g3, g4⟩ := ih next (by omega)
      refine ⟨k + 1, r, by omega, ?_, ?_, by omega⟩
      · rw [optimizeLoop_of_inl c cep N out s next k hbody]
        exact g2
      · intro k' hk'
        cases k' with
        | zero => rfl
        | succ m =>
          rw [optimizeLoop_of_inl c cep N out s next m hbody]
          exact g3 m (by omega)
    | inr r =>
      refine ⟨1, r, by omega, optimizeLoop_of_inr c cep N out s r 0 hbody, ?_, ?_⟩
      · intro k' hk'
        have : k' = 0 := by omega
        subst this
        rfl
      · rcases loopBody_cases c cep N out s with
          ⟨_, _, h⟩ | ⟨i, _, _, _, _, _, ⟨_, h⟩ | ⟨o, p, _, _, ⟨e, _, h⟩ | ⟨seq, _, h⟩⟩⟩
        · rw [h] at hbody
          cases hbody
          simp
        · rw [h] at hbody
          cases hbody
        · rw [h] at hbody
          cases hbody
          simp [callsAfterAttempt]
        · rw [h] at hbody
          cases hbody
          simp [callsAfterAttempt]

theorem initialLoopState_cursor_le (c : Collaborators SI EPI EC W AE) (cep : EnclavePlan EPI)
    (naivePlan : InstructionsPlan SI) (probe : InterpretEffect SI EPI EC W AE) :
    (initialLoopState c cep naivePlan probe).firstPossibleIndexForMatchingInstruction
      = cep.Size - naivePlan.Size := by
  simp only [initialLoopState]
  split <;> omega

theorem findLoop_congr (c : Collaborators SI EPI EC W AE) (H H' : List EPI) (first : SI) :
    ∀ fuel i, (∀ j, i ≤ j → H'[j]? = H[j]?) →
      findFirstEqualInstructionLoop c H' first fuel i
        = findFirstEqualInstructionLoop c H first fuel i := by
  intro fuel
  induction fuel with
  | zero => intro i _; rfl
  | succ n ih =>
    intro i hagree
    unfold findFirstEqualInstructionLoop
    rw [hagree i (le_refl _), ih (i + 1) (fun j hj => hagree j (by omega))]

theorem copyToMask_congr (H H' : List EPI) :
    ∀ fuel idx copied (mask : InstructionsPlanMask EPI),
      (∀ j, idx ≤ j → H'[j]? = H[j]?) →
      copyToMask H' fuel idx copied mask = copyToMask H fuel idx copied mask := by
  intro fuel
  induction fuel with
  | zero => intro idx copied mask _; rfl
  | succ n ih =>
    intro idx copied mask hagree
    unfold copyToMask
    rw [hagree idx (le_refl _)]
    cases H[idx]? with
    | none => rfl
    | some e =>
      simp only []
      rw [ih (idx + 1) (copied + 1) _ (fun j hj => hagree j (by omega))]

/-- One iteration of the loop reads the history only from the cursor on. -/
theorem loopBody_congr (c : Collaborators SI EPI EC W AE) (cep cep' : EnclavePlan EPI)
    (N : List SI) (out : String) (s : LoopState EPI EC W) (hsize : cep'.Size = cep.Size)
    (hagree : ∀ j, s.firstPossibleIndexForMatchingInstruction ≤ j →
      cep'.GeneratePlan[j]? = cep.GeneratePlan[j]?) :
    loopBody c cep' N out s = loopBody c cep N out s := by
  have hlen : cep'.GeneratePlan.length = cep.GeneratePlan.length := hsize
  have hfind : findFirstEqualInstructionPastIndex c cep'.GeneratePlan N
        s.firstPossibleIndexForMatchingInstruction
      = findFirstEqualInstructionPastIndex c cep.GeneratePlan N
        s.firstPossibleIndexForMatchingInstruction := by
    cases N with
    | nil => rfl
    | cons first rest =>
      simp only [findFirstEqualInstructionPastIndex, hlen]
      exact findLoop_congr c _ _ first _ _ hagree
  rcases findFirst_spec c cep.GeneratePlan N s.firstPossibleIndexForMatchingInstruction with
    ⟨h1, _⟩ | ⟨i, h1, h2, _, _, _⟩
  · simp [loopBody, hfind, h1, hsize]
  · have hmask : buildPotentialMask cep'.GeneratePlan N i
        = buildPotentialMask cep.GeneratePlan N i := by
      simp only [buildPotentialMask, hlen]
      rw [copyToMask_congr _ _ _ _ _ _ (fun j hj => hagree j (by omega))]
    simp [loopBody, hfind, h1, hmask]

theorem optimizeLoop_congr (c : Collaborators SI EPI EC W AE) (cep cep' : EnclavePlan EPI)
    (N : List SI) (out : String) (start : Nat) (hsize : cep'.Size = cep.Size)
    (hagree : ∀ j, start ≤ j → cep'.GeneratePlan[j]? = cep.GeneratePlan[j]?) :
    ∀ (fuel : Nat) (s : LoopState EPI EC W),
      start ≤ s.firstPossibleIndexForMatchingInstruction →
      optimizeLoop c cep' N out fuel s = optimizeLoop c cep N out fuel s := by
  intro fuel
  induction fuel with
  | zero => intro s _; rfl
  | succ n ih =>
    intro s hs
    have hb := loopBody_congr c cep cep' N out s hsize (fun j hj => hagree j (by omega))
    cases hbody : loopBody c cep N out s with
    | inr r =>
      rw [optimizeLoop_of_inr c cep N out s r n hbody,
        optimizeLoop_of_inr c cep' N out s r n (hb.trans hbody)]
    | inl next =>
      rw [optimizeLoop_of_inl c cep N out s next n hbody,
        optimizeLoop_of_inl c cep' N out s next n (hb.trans hbody)]
      obtain ⟨i, _, _, _, _, _, h6⟩ := loopBody_inl c cep N out s next hbody
      apply ih
      rw [h6]
      simp only [rejectedState]
      omega

theorem max_zero_sub_le_iff (h n j : Nat) :
    max 0 ((h : Int) - (n : Int)) ≤ (j : Int) ↔ h - n ≤ j := by
  omega

theorem loopStateAfter_snoc (c : Collaborators SI EPI EC W AE) (cep : EnclavePlan EPI)
    (N : List SI) (out : String) :
    ∀ (k : Nat) (s0 s next : LoopState EPI EC W),
      loopStateAfter c cep N out k s0 = some s → loopBody c cep N out s = .inl next →
      loopStateAfter c cep N out (k + 1) s0 = some next := by
  intro k
  induction k with
  | zero =>
    intro s0 s next h hbody
    simp [loopStateAfter] at h
    subst h
    simp [loopStateAfter, hbody]
  | succ n ih =>
    intro s0 s next h hbody
    cases hb0 : loopBody c cep N out s0 with
    | inr r => simp [loopStateAfter, hb0] at h
    | inl mid =>
      simp only [loopStateAfter, hb0] at h
      have := ih mid s next h hbody
      simp only [loopStateAfter, hb0]
      exact this

/-- A match whose masked call is not accepted makes the loop continue. -/
theorem loopBody_of_rejected (c : Collaborators SI EPI EC W AE)
    (cep : EnclavePlan EPI) (N : List SI) (out : String) (s : LoopState EPI EC W) (i : Nat)
    (hmatch : findFirstEqualInstructionPastIndex c cep.GeneratePlan N
      s.firstPossibleIndexForMatchingInstruction = (i : Int))
    (hrej : accepted (attemptAt c cep N s i) = false) :
    loopBody c cep N out s = .inl (rejectedState c cep N s i) := by
  rcases loopBody_cases c cep N out s with
    ⟨h1, _, _⟩ | ⟨i', h1, _, _, _, _, ⟨_, h⟩ | ⟨o, p, g6, g7, _⟩⟩
  · rw [hmatch] at h1; omega
  · have hi : i' = i := by rw [hmatch] at h1; omega
    subst hi
    exact h
  · have hi : i' = i := by rw [hmatch] at h1; omega
    subst hi
    simp [accepted, g6, g7] at hrej

end ReconcilerLemmas

/-! ## The reconciliation algorithm: properties -/

section ReconcilerClaims

variable {SI EPI EC W AE : Type}

/-- C1, fallback correctness. When the unmasked interpretation succeeds with output `out`
and sequence `N`, and no instruction of the history resolves (Equal or Update) against the
first instruction of `N` (which is so when the history is empty, and when `N` is empty),
`InterpretAndOptimizePlan` returns no error, the output `out` of the unmasked interpretation,
and a plan whose first-instruction index is the length of the history and whose body is
exactly `N`; the unmasked call is the only call of `Interpret`. -/
theorem fallback_correctness (c : Collaborators SI EPI EC W AE) (w w1 : W)
    (cep : EnclavePlan EPI) (out : String) (naivePlan : InstructionsPlan SI) (N : List SI)
    (hclone : c.CloneReplacedPackagesIfNeeded w = (w1, none))
    (hprobe : (unmaskedProbe c w1).result
      = .ok (out, naivePlan))
    (hfreeze : naivePlan.GeneratePlan = .ok N)
    (hno : ∀ first ∈ N.head?, ∀ e ∈ cep.GeneratePlan, resolvesWith c first e = false) :
    InterpretAndOptimizePlan c w cep
      = some { output := out, plan := some (planOf (cep.Size : Int) N), err := none,
               calls := [⟨c.NewEnclaveComponents, NewInstructionsPlanMask 0⟩] } := by
  rw [InterpretAndOptimizePlan_eq_loop c w w1 cep out naivePlan N hclone hprobe hfreeze]
  apply optimizeLoop_of_inr
  rcases loopBody_cases c cep N out (initialLoopState c cep naivePlan
      (unmaskedProbe c w1)) with
    ⟨_, _, h⟩ | ⟨i, _, _, h3, h4, _⟩
  · rw [h]; rfl
  · exfalso
    cases N with
    | nil => simp [resolvesAt] at h4
    | cons first rest =>
      cases hget : cep.GeneratePlan[i]? with
      | none => simp [resolvesAt, hget] at h4
      | some e =>
        simp only [resolvesAt, hget] at h4
        have := hno first (by simp) e (List.getElem?_mem hget)
        rw [this] at h4
        cases h4

/-- Scenario A: a script that generates one instruction, run against an empty history. -/
theorem fallback_correctness_witness :
    InterpretAndOptimizePlan (scripted [1] .replay) 0 ⟨[]⟩
      = some { output := "naive", plan := some (planOf 0 [1]), err := none,
               calls := [⟨0, NewInstructionsPlanMask 0⟩] } :=
  fallback_correctness (scripted [1] .replay) 0 0 ⟨[]⟩ "naive" (planOf 0 [1]) [1]
    rfl rfl rfl (by simp [EnclavePlan.GeneratePlan])

/-- C2, accepted alignment result. Whenever the loop of `InterpretAndOptimizePlan`, in the
state `s` it has reached after `k` rejected attempts, finds a match at history index `i`, and
the masked interpretation for it returns no error (output `o`, plan `p`), leaves the mask
valid, and `p` freezes without error into `seq`, the call returns no error, the output `o` of
that masked interpretation, and a plan whose first-instruction index is `i` and whose body
is exactly `seq`. -/
theorem accepted_alignment_result (c : Collaborators SI EPI EC W AE) (w w1 : W)
    (cep : EnclavePlan EPI) (out : String) (naivePlan : InstructionsPlan SI) (N : List SI)
    (hclone : c.CloneReplacedPackagesIfNeeded w = (w1, none))
    (hprobe : (unmaskedProbe c w1).result = .ok (out, naivePlan))
    (hfreeze : naivePlan.GeneratePlan = .ok N)
    (k i : Nat) (s : LoopState EPI EC W) (o : String) (p : InstructionsPlan SI)
    (seq : List SI)
    (hreach : loopStateAfter c cep N out k
      (initialLoopState c cep naivePlan (unmaskedProbe c w1)) = some s)
    (hmatch : findFirstEqualInstructionPastIndex c cep.GeneratePlan N
      s.firstPossibleIndexForMatchingInstruction = (i : Int))
    (hok : (attemptAt c cep N s i).result = .ok (o, p))
    (hvalid : (attemptAt c cep N s i).mask.IsValid = true)
    (hfrozen : p.GeneratePlan = .ok seq) :
    InterpretAndOptimizePlan c w cep
      = some { output := o, plan := some (planOf (i : Int) seq), err := none,
               calls := callsAfterAttempt cep N s i } := by
  rw [InterpretAndOptimizePlan_eq_loop c w w1 cep out naivePlan N hclone hprobe hfreeze]
  obtain ⟨hcur, _, _⟩ := loopStateAfter_cursor c cep N out k _ s hreach
  rcases loopBody_cases c cep N out s with ⟨h1, _, _⟩ | ⟨i', h1, h2, h3, _, _, hcase⟩
  · rw [hmatch] at h1; omega
  · have hi : i' = i := by rw [hmatch] at h1; omega
    subst hi
    have hfuel : cep.Size + 1 = k + (cep.Size - k + 1) := by omega
    rw [hfuel, optimizeLoop_after c cep N out k _ _ s hreach]
    apply optimizeLoop_of_inr
    rcases hcase with ⟨h6, _⟩ | ⟨o', p', h6, _, ⟨e, h8, _⟩ | ⟨seq', h8, h9⟩⟩
    · simp [accepted, hok, hvalid] at h6
    · rw [hok] at h6; cases h6; rw [hfrozen] at h8; cases h8
    · rw [hok] at h6; cases h6; rw [hfrozen] at h8; cases h8; exact h9

/-- A script generating the instructions 1 and 2, run against the history 1, 3, 1: the
attempt at index 1 is rejected (the override 3 differs from the instruction 1), the attempt
at index 2 is accepted. -/
theorem accepted_alignment_result_witness :
    InterpretAndOptimizePlan (scripted [1, 2] .replay) 0 ⟨[1, 3, 1]⟩
      = some { output := "masked", plan := some (planOf 2 [1, 2]), err := none,
               calls := [⟨0, NewInstructionsPlanMask 0⟩, ⟨2, ⟨[some 3, some 1], true⟩⟩,
                         ⟨4, ⟨[some 1, none], true⟩⟩] } :=
  accepted_alignment_result (scripted [1, 2] .replay) 0 0 ⟨[1, 3, 1]⟩ "naive"
    (planOf 0 [1, 2]) [1, 2] rfl rfl rfl 1 2
    { firstPossibleIndexForMatchingInstruction := 2, world := 2, enclaveComponents := 4,
      calls := [⟨0, NewInstructionsPlanMask 0⟩, ⟨2, ⟨[some 3, some 1], true⟩⟩] }
    "masked" (planOf 0 [1, 2]) [1, 2] rfl rfl rfl rfl rfl

/-- C4, termination and monotonic search. After a successful unmasked interpretation, and
whatever the masked interpretations do: every loop state reached has its cursor at or after
the initial cursor, at most `h` and so at most `h + 1`; every rejection increases the cursor
strictly; the loop returns after some number `k ≤ h + 1` of iterations (and not before), which
is the result of `InterpretAndOptimizePlan`; and `Interpret` is called at most `h + 1` times,
the unmasked call included, that is, at most `h` masked calls are made. -/
theorem termination_monotonic_search (c : Collaborators SI EPI EC W AE) (w w1 : W)
    (cep : EnclavePlan EPI) (out : String) (naivePlan : InstructionsPlan SI) (N : List SI)
    (hclone : c.CloneReplacedPackagesIfNeeded w = (w1, none))
    (hprobe : (unmaskedProbe c w1).result = .ok (out, naivePlan))
    (hfreeze : naivePlan.GeneratePlan = .ok N) :
    (∀ k s, loopStateAfter c cep N out k
          (initialLoopState c cep naivePlan (unmaskedProbe c w1)) = some s →
        (initialLoopState c cep naivePlan
            (unmaskedProbe c w1)).firstPossibleIndexForMatchingInstruction
          ≤ s.firstPossibleIndexForMatchingInstruction
        ∧ s.firstPossibleIndexForMatchingInstruction ≤ cep.Size
        ∧ s.firstPossibleIndexForMatchingInstruction ≤ cep.Size + 1)
    ∧ (∀ s next, loopBody c cep N out s = .inl next →
        s.firstPossibleIndexForMatchingInstruction
          < next.firstPossibleIndexForMatchingInstruction)
    ∧ ∃ k r, k ≤ cep.Size + 1
        ∧ optimizeLoop c cep N out k
            (initialLoopState c cep naivePlan (unmaskedProbe c w1)) = some r
        ∧ (∀ k', k' < k → optimizeLoop c cep N out k'
            (initialLoopState c cep naivePlan (unmaskedProbe c w1)) = none)
        ∧ InterpretAndOptimizePlan c w cep = some r
        ∧ r.calls.length ≤ cep.Size + 1 := by
  have hstart := initialLoopState_cursor_le c cep naivePlan (unmaskedProbe c w1)
  refine ⟨?_, ?_, ?_⟩
  · intro k s hreach
    obtain ⟨g1, g2, _⟩ := loopStateAfter_cursor c cep N out k _ s hreach
    rcases Nat.eq_zero_or_pos k with hk | hk
    · subst hk
      omega
    · have := g2 hk
      omega
  · intro s next hbody
    obtain ⟨i, _, _, _, _, _, h6⟩ := loopBody_inl c cep N out s next hbody
    rw [h6]
    simp [rejectedState]
  · obtain ⟨k, r, g1, g2, g3, g4⟩ := optimizeLoop_exact c cep N out _
      (initialLoopState c cep naivePlan (unmaskedProbe c w1)) rfl
    have hk : k ≤ cep.Size + 1 := by omega
    refine ⟨k, r, hk, g2, g3, ?_, ?_⟩
    · rw [InterpretAndOptimizePlan_eq_loop c w w1 cep out naivePlan N hclone hprobe hfreeze]
      have hfuel : cep.Size + 1 = k + (cep.Size + 1 - k) := by omega
      rw [hfuel]
      exact optimizeLoop_mono c cep N out k _ _ r g2
    · have : (initialLoopState c cep naivePlan (unmaskedProbe c w1)).calls.length = 1 := rfl
      omega

/-- A script generating 1 and 2 whose masked interpretations all end with an invalid mask,
run against the history 1, 3, 1: the loop returns at its third iteration, after two masked
calls. -/
theorem termination_monotonic_search_witness :
    ∃ k r, k ≤ 3 + 1
      ∧ optimizeLoop (scripted [1, 2] .rejectEvery) ⟨[1, 3, 1]⟩ [1, 2] "naive" k
          (initialLoopState (scripted [1, 2] .rejectEvery) ⟨[1, 3, 1]⟩ (planOf 0 [1, 2])
            (unmaskedProbe (scripted [1, 2] .rejectEvery) 0)) = some r
      ∧ (∀ k', k' < k → optimizeLoop (scripted [1, 2] .rejectEvery) ⟨[1, 3, 1]⟩ [1, 2] "naive" k'
          (initialLoopState (scripted [1, 2] .rejectEvery) ⟨[1, 3, 1]⟩ (planOf 0 [1, 2])
            (unmaskedProbe (scripted [1, 2] .rejectEvery) 0)) = none)
      ∧ InterpretAndOptimizePlan (scripted [1, 2] .rejectEvery) 0 ⟨[1, 3, 1]⟩ = some r
      ∧ r.calls.length ≤ 3 + 1 :=
  (termination_monotonic_search (scripted [1, 2] .rejectEvery) 0 0 ⟨[1, 3, 1]⟩ "naive"
    (planOf 0 [1, 2]) [1, 2] rfl rfl rfl).2.2

/-- C6, initial probe failure is final. If the unmasked interpretation returns an error,
`InterpretAndOptimizePlan` returns that same error, no plan and the no-output sentinel, and
the unmasked call is its only call of `Interpret`. -/
theorem initial_probe_failure_is_final (c : Collaborators SI EPI EC W AE) (w w1 : W)
    (cep : EnclavePlan EPI) (e : AE)
    (hclone : c.CloneReplacedPackagesIfNeeded w = (w1, none))
    (hprobe : (unmaskedProbe c w1).result = .error e) :
    InterpretAndOptimizePlan c w cep
      = some { output := c.NoOutputObject, plan := none, err := some e,
               calls := [⟨c.NewEnclaveComponents, NewInstructionsPlanMask 0⟩] } := by
  simp only [unmaskedProbe] at hprobe
  simp [InterpretAndOptimizePlan, hclone, hprobe]

/-- An interpreter whose unmasked interpretation fails with a syntax error, run against a
history of one instruction. -/
theorem initial_probe_failure_is_final_witness :
    InterpretAndOptimizePlan failingProbe 0 ⟨[1]⟩
      = some { output := "", plan := none, err := some "syntax error",
               calls := [⟨0, NewInstructionsPlanMask 0⟩] } :=
  initial_probe_failure_is_final failingProbe 0 0 ⟨[1]⟩ "syntax error" rfl rfl

/-- C3, first-match selection. Let the acceptance of a masked interpretation (no error,
mask still valid) be a function `probe` of the mask alone. When `InterpretAndOptimizePlan`
returns a plan whose first-instruction index is below `h`, that index is the least
`i ≥ max(0, h - n)` such that the historical instruction at `i` resolves (Equal or Update)
against the first instruction of `N` and the mask built from the history at `i` is accepted;
and when there is no such index, the fallback plan (index `h`, body `N`, output of the
unmasked interpretation) is returned. -/
theorem first_match_selection (c : Collaborators SI EPI EC W AE) (w w1 : W)
    (cep : EnclavePlan EPI) (out : String) (naivePlan : InstructionsPlan SI) (N : List SI)
    (hclone : c.CloneReplacedPackagesIfNeeded w = (w1, none))
    (hprobe : (unmaskedProbe c w1).result = .ok (out, naivePlan))
    (hfreeze : naivePlan.GeneratePlan = .ok N)
    (probe : InstructionsPlanMask EPI → Bool)
    (hdet : ∀ (w' : W) (ec : EC) (m : InstructionsPlanMask EPI),
      accepted (c.Interpret w' ec m) = probe m) :
    (∀ r p, InterpretAndOptimizePlan c w cep = some r → r.plan = some p →
        p.indexOfFirstInstruction < (cep.Size : Int) →
        ∃ i : Nat, p.indexOfFirstInstruction = (i : Int)
          ∧ max 0 ((cep.Size : Int) - (N.length : Int)) ≤ (i : Int)
          ∧ resolvesAt c cep.GeneratePlan N i = true
          ∧ probe (buildPotentialMask cep.GeneratePlan N i) = true
          ∧ ∀ j : Nat, max 0 ((cep.Size : Int) - (N.length : Int)) ≤ (j : Int) → j < i →
              ¬ (resolvesAt c cep.GeneratePlan N j = true
                  ∧ probe (buildPotentialMask cep.GeneratePlan N j) = true))
    ∧ ((∀ j : Nat, max 0 ((cep.Size : Int) - (N.length : Int)) ≤ (j : Int) → j < cep.Size →
          ¬ (resolvesAt c cep.GeneratePlan N j = true
              ∧ probe (buildPotentialMask cep.GeneratePlan N j) = true)) →
        ∃ calls, InterpretAndOptimizePlan c w cep
          = some { output := out, plan := some (planOf (cep.Size : Int) N), err := none,
                   calls := calls }) := by
  have hstart := initialLoopState_cursor_le c cep naivePlan (unmaskedProbe c w1)
  have hsize := GeneratePlan_length naivePlan N hfreeze
  rw [hsize] at hstart
  have hloop :=
    InterpretAndOptimizePlan_eq_loop c w w1 cep out naivePlan N hclone hprobe hfreeze
  have key := optimizeLoop_invariant c cep N out
    (fun s => cep.Size - N.length ≤ s.firstPossibleIndexForMatchingInstruction
      ∧ ∀ j, cep.Size - N.length ≤ j → j < s.firstPossibleIndexForMatchingInstruction →
          ¬ (resolvesAt c cep.GeneratePlan N j = true
              ∧ probe (buildPotentialMask cep.GeneratePlan N j) = true))
    (fun r =>
      (∀ p, r.plan = some p → p.indexOfFirstInstruction < (cep.Size : Int) →
        ∃ i : Nat, p.indexOfFirstInstruction = (i : Int)
          ∧ cep.Size - N.length ≤ i
          ∧ resolvesAt c cep.GeneratePlan N i = true
          ∧ probe (buildPotentialMask cep.GeneratePlan N i) = true
          ∧ ∀ j : Nat, cep.Size - N.length ≤ j → j < i →
              ¬ (resolvesAt c cep.GeneratePlan N j = true
                  ∧ probe (buildPotentialMask cep.GeneratePlan N j) = true))
      ∧ ((∀ j : Nat, cep.Size - N.length ≤ j → j < cep.Size →
            ¬ (resolvesAt c cep.GeneratePlan N j = true
                ∧ probe (buildPotentialMask cep.GeneratePlan N j) = true)) →
          r.output = out ∧ r.plan = some (planOf (cep.Size : Int) N) ∧ r.err = none))
    (by
      intro s next hinv hbody
      obtain ⟨h1, h2⟩ := hinv
      obtain ⟨i, g1, g2, g3, g4, g5, g6⟩ := loopBody_inl c cep N out s next hbody
      rw [g6]
      simp only [rejectedState]
      refine ⟨by omega, ?_⟩
      intro j hj hlt hgood
      obtain ⟨hr, hp⟩ := hgood
      by_cases hjs : j < s.firstPossibleIndexForMatchingInstruction
      · exact h2 j hj hjs ⟨hr, hp⟩
      · by_cases hji : j < i
        · rw [g4 j (by omega) hji] at hr
          cases hr
        · have hjeq : j = i := by omega
          subst hjeq
          simp only [attemptAt] at g5
          rw [hdet] at g5
          rw [g5] at hp
          cases hp)
    (by
      intro s r hinv hbody
      obtain ⟨h1, h2⟩ := hinv
      rcases loopBody_cases c cep N out s with
        ⟨_, _, h⟩ | ⟨i, _, g2, g3, g4, g5, ⟨_, h⟩ | ⟨o, p, g6, g7, ⟨e, _, h⟩ | ⟨seq, _, h⟩⟩⟩
      · rw [h] at hbody
        cases hbody
        refine ⟨?_, fun _ => ⟨rfl, rfl, rfl⟩⟩
        intro p hp hlt
        cases hp
        simp [planOf] at hlt
      · rw [h] at hbody
        cases hbody
      · have hacc : probe (buildPotentialMask cep.GeneratePlan N i) = true := by
          rw [← hdet s.world s.enclaveComponents]
          simp only [attemptAt] at g6 g7
          simp [accepted, g6, g7]
        rw [h] at hbody
        cases hbody
        refine ⟨?_, ?_⟩
        · intro p hp
          cases hp
        · intro hnone
          exact absurd ⟨g4, hacc⟩ (hnone i (by omega) g3)
      · have hacc : probe (buildPotentialMask cep.GeneratePlan N i) = true := by
          rw [← hdet s.world s.enclaveComponents]
          simp only [attemptAt] at g6 g7
          simp [accepted, g6, g7]
        rw [h] at hbody
        cases hbody
        refine ⟨?_, ?_⟩
        · intro p hp _
          cases hp
          refine ⟨i, rfl, by omega, g4, hacc, ?_⟩
          intro j hj hji hgood
          by_cases hjs : j < s.firstPossibleIndexForMatchingInstruction
          · exact h2 j hj hjs hgood
          · rw [g5 j (by omega) hji] at hgood
            cases hgood.1
        · intro hnone
          exact absurd ⟨g4, hacc⟩ (hnone i (by omega) g3))
  have hinv0 : cep.Size - N.length
        ≤ (initialLoopState c cep naivePlan
            (unmaskedProbe c w1)).firstPossibleIndexForMatchingInstruction
      ∧ ∀ j, cep.Size - N.length ≤ j →
          j < (initialLoopState c cep naivePlan
            (unmaskedProbe c w1)).firstPossibleIndexForMatchingInstruction →
          ¬ (resolvesAt c cep.GeneratePlan N j = true
              ∧ probe (buildPotentialMask cep.GeneratePlan N j) = true) := by
    refine ⟨by omega, ?_⟩
    intro j hj hlt
    omega
  refine ⟨?_, ?_⟩
  · intro r p hr hp hlt
    rw [hloop] at hr
    obtain ⟨i, g1, g2, g3, g4, g5⟩ := (key _ _ r hinv0 hr).1 p hp hlt
    refine ⟨i, g1, (max_zero_sub_le_iff _ _ _).mpr g2, g3, g4, ?_⟩
    intro j hj hji
    exact g5 j ((max_zero_sub_le_iff _ _ _).mp hj) hji
  · intro hnone
    obtain ⟨r, hr⟩ := optimizeLoop_total c cep N out (cep.Size + 1)
      (initialLoopState c cep naivePlan (unmaskedProbe c w1)) (by omega)
    obtain ⟨g1, g2, g3⟩ := (key _ _ r hinv0 hr).2
      (fun j hj hlt => hnone j ((max_zero_sub_le_iff _ _ _).mpr hj) hlt)
    refine ⟨r.calls, ?_⟩
    rw [hloop, hr]
    cases r
    simp only at g1 g2 g3
    subst g1 g2 g3
    rfl

/-- The replaying interpreter on a script generating 1 and 2, against the history 1, 3, 1:
the returned index 2 is the least index from `max(0, 3 - 2) = 1` on that resolves and whose
mask is accepted. -/
theorem first_match_selection_witness :
    ∃ i : Nat, (2 : Int) = (i : Int)
      ∧ max 0 ((3 : Int) - (2 : Int)) ≤ (i : Int)
      ∧ resolvesAt (scripted [1, 2] .replay) [1, 3, 1] [1, 2] i = true
      ∧ (fun m : InstructionsPlanMask Nat => m.isValid && maskAgrees m.slots [1, 2])
          (buildPotentialMask [1, 3, 1] [1, 2] i) = true
      ∧ ∀ j : Nat, max 0 ((3 : Int) - (2 : Int)) ≤ (j : Int) → j < i →
          ¬ (resolvesAt (scripted [1, 2] .replay) [1, 3, 1] [1, 2] j = true
              ∧ (fun m : InstructionsPlanMask Nat => m.isValid && maskAgrees m.slots [1, 2])
                  (buildPotentialMask [1, 3, 1] [1, 2] j) = true) :=
  (first_match_selection (scripted [1, 2] .replay) 0 0 ⟨[1, 3, 1]⟩ "naive"
    (planOf 0 [1, 2]) [1, 2] rfl rfl rfl
    (fun m => m.isValid && maskAgrees m.slots [1, 2])
    (by
      intro w ec m
      by_cases hw : w = 0 <;> simp [scripted, accepted, InstructionsPlanMask.IsValid, hw])).1
    { output := "masked", plan := some (planOf 2 [1, 2]), err := none,
      calls := [⟨0, NewInstructionsPlanMask 0⟩, ⟨2, ⟨[some 3, some 1], true⟩⟩,
                ⟨4, ⟨[some 1, none], true⟩⟩] }
    (planOf 2 [1, 2]) (by decide) rfl (by decide)

/-- C5, bounds on the preserved prefix. For every return of `InterpretAndOptimizePlan`
with a plan, the first-instruction index `k` of the plan satisfies
`max(0, h - n) ≤ k ≤ h`, with `h` the length of the history and `n` the length of the
unmasked sequence (in this model the size of a plan is the length of its generated
sequence). And the historical instructions below `max(0, h - n)` are not read: a history of
the same length with the same instructions from that index on gives the same result. -/
theorem preserved_prefix_bounds (c : Collaborators SI EPI EC W AE) (w w1 : W)
    (cep : EnclavePlan EPI) (out : String) (naivePlan : InstructionsPlan SI) (N : List SI)
    (hclone : c.CloneReplacedPackagesIfNeeded w = (w1, none))
    (hprobe : (unmaskedProbe c w1).result = .ok (out, naivePlan))
    (hfreeze : naivePlan.GeneratePlan = .ok N) :
    (∀ r p, InterpretAndOptimizePlan c w cep = some r → r.plan = some p →
        max 0 ((cep.Size : Int) - (N.length : Int)) ≤ p.indexOfFirstInstruction
          ∧ p.indexOfFirstInstruction ≤ (cep.Size : Int))
    ∧ (∀ cep' : EnclavePlan EPI, cep'.Size = cep.Size →
        (∀ j : Nat, max 0 ((cep.Size : Int) - (N.length : Int)) ≤ (j : Int) →
          cep'.GeneratePlan[j]? = cep.GeneratePlan[j]?) →
        InterpretAndOptimizePlan c w cep' = InterpretAndOptimizePlan c w cep) := by
  have hstart := initialLoopState_cursor_le c cep naivePlan (unmaskedProbe c w1)
  have hsize := GeneratePlan_length naivePlan N hfreeze
  rw [hsize] at hstart
  have hloop :=
    InterpretAndOptimizePlan_eq_loop c w w1 cep out naivePlan N hclone hprobe hfreeze
  refine ⟨?_, ?_⟩
  · intro r p hr hp
    rw [hloop] at hr
    have key := optimizeLoop_invariant c cep N out
      (fun s => cep.Size - N.length ≤ s.firstPossibleIndexForMatchingInstruction)
      (fun r => ∀ p, r.plan = some p →
        ((cep.Size - N.length : Nat) : Int) ≤ p.indexOfFirstInstruction
          ∧ p.indexOfFirstInstruction ≤ (cep.Size : Int))
      (by
        intro s next hinv hbody
        obtain ⟨i, _, _, _, _, _, g6⟩ := loopBody_inl c cep N out s next hbody
        rw [g6]
        simp only [rejectedState]
        omega)
      (by
        intro s r hinv hbody p hp
        rcases loopBody_cases c cep N out s with
          ⟨_, _, h⟩ | ⟨i, _, g2, g3, _, _, ⟨_, h⟩ | ⟨o, q, _, _, ⟨e, _, h⟩ | ⟨seq, _, h⟩⟩⟩
        · rw [h] at hbody
          cases hbody
          cases hp
          simp only [planOf]
          omega
        · rw [h] at hbody
          cases hbody
        · rw [h] at hbody
          cases hbody
          cases hp
        · rw [h] at hbody
          cases hbody
          cases hp
          simp only [planOf]
          omega)
    have := key _ _ r (by omega) hr p hp
    omega
  · intro cep' hsize' hagree
    rw [hloop, InterpretAndOptimizePlan_eq_loop c w w1 cep' out naivePlan N hclone hprobe
      hfreeze]
    have hinit : initialLoopState c cep' naivePlan (unmaskedProbe c w1)
        = initialLoopState c cep naivePlan (unmaskedProbe c w1) := by
      simp [initialLoopState, hsize']
    rw [hinit, hsize']
    exact optimizeLoop_congr c cep cep' N out (cep.Size - N.length) hsize'
      (fun j hj => hagree j ((max_zero_sub_le_iff _ _ _).mpr hj)) _ _ (by omega)

/-- The replaying interpreter on a script generating 1 and 2, against the history 1, 3, 1:
the returned index 2 lies between `max(0, 3 - 2)` and 3. -/
theorem preserved_prefix_bounds_witness :
    max 0 (((⟨[1, 3, 1]⟩ : EnclavePlan Nat).Size : Int) - (([1, 2] : List Nat).length : Int))
        ≤ (planOf 2 [1, 2]).indexOfFirstInstruction
      ∧ (planOf 2 [1, 2]).indexOfFirstInstruction ≤ ((⟨[1, 3, 1]⟩ : EnclavePlan Nat).Size : Int) :=
  (preserved_prefix_bounds (scripted [1, 2] .replay) 0 0 ⟨[1, 3, 1]⟩ "naive"
    (planOf 0 [1, 2]) [1, 2] rfl rfl rfl).1
    { output := "masked", plan := some (planOf 2 [1, 2]), err := none,
      calls := [⟨0, NewInstructionsPlanMask 0⟩, ⟨2, ⟨[some 3, some 1], true⟩⟩,
                ⟨4, ⟨[some 1, none], true⟩⟩] }
    (planOf 2 [1, 2]) (by decide) rfl

/-- C7 as stated fails: the unmasked interpretation succeeds and its plan freezes, the
masked interpretation returns no error and leaves the mask valid, but freezing its plan
fails, and `InterpretAndOptimizePlan` returns that error and no plan. -/
theorem masked_failures_counterexample :
    (unmaskedProbe (scripted [1] .deferredError) 0).result = .ok ("naive", planOf 0 [1])
      ∧ (planOf 0 [1] : InstructionsPlan Nat).GeneratePlan = .ok [1]
      ∧ InterpretAndOptimizePlan (scripted [1] .deferredError) 0 ⟨[1]⟩
          = some { output := "", plan := none, err := some "instruction not found",
                   calls := [⟨0, NewInstructionsPlanMask 0⟩, ⟨1, ⟨[some 1], true⟩⟩] } :=
  ⟨rfl, rfl, by decide⟩

/-- C7, amended. Whenever the unmasked interpretation succeeds and its plan freezes, the
call returns either a plan and no error, or, with no plan, the error that freezing the plan
of a masked interpretation gave, that masked interpretation having returned no error and
left its mask valid. A masked interpretation that returns an error or ends with an invalid
mask is not returned: the loop continues with the cursor moved by one. -/
theorem masked_failures_not_visible (c : Collaborators SI EPI EC W AE) (w w1 : W)
    (cep : EnclavePlan EPI) (out : String) (naivePlan : InstructionsPlan SI) (N : List SI)
    (hclone : c.CloneReplacedPackagesIfNeeded w = (w1, none))
    (hprobe : (unmaskedProbe c w1).result = .ok (out, naivePlan))
    (hfreeze : naivePlan.GeneratePlan = .ok N) :
    (∃ r, InterpretAndOptimizePlan c w cep = some r
      ∧ ((r.err = none ∧ ∃ p, r.plan = some p)
        ∨ ∃ (k : Nat) (s : LoopState EPI EC W) (i : Nat) (o : String)
            (p : InstructionsPlan SI) (e : InterpretationError),
            loopStateAfter c cep N out k
                (initialLoopState c cep naivePlan (unmaskedProbe c w1)) = some s
              ∧ findFirstEqualInstructionPastIndex c cep.GeneratePlan N
                  s.firstPossibleIndexForMatchingInstruction = (i : Int)
              ∧ (attemptAt c cep N s i).result = .ok (o, p)
              ∧ (attemptAt c cep N s i).mask.IsValid = true
              ∧ p.GeneratePlan = .error e
              ∧ r.output = c.NoOutputObject ∧ r.plan = none
              ∧ r.err = some (c.ToAPIType e)))
    ∧ (∀ (s : LoopState EPI EC W) (i : Nat),
        findFirstEqualInstructionPastIndex c cep.GeneratePlan N
          s.firstPossibleIndexForMatchingInstruction = (i : Int) →
        accepted (attemptAt c cep N s i) = false →
        loopBody c cep N out s = .inl (rejectedState c cep N s i)) := by
  have hloop :=
    InterpretAndOptimizePlan_eq_loop c w w1 cep out naivePlan N hclone hprobe hfreeze
  refine ⟨?_, ?_⟩
  · obtain ⟨r, hr⟩ := optimizeLoop_total c cep N out (cep.Size + 1)
      (initialLoopState c cep naivePlan (unmaskedProbe c w1)) (by omega)
    refine ⟨r, by rw [hloop, hr], ?_⟩
    refine optimizeLoop_invariant c cep N out
      (fun s => ∃ k, loopStateAfter c cep N out k
        (initialLoopState c cep naivePlan (unmaskedProbe c w1)) = some s)
      (fun r => (r.err = none ∧ ∃ p, r.plan = some p)
        ∨ ∃ (k : Nat) (s : LoopState EPI EC W) (i : Nat) (o : String)
            (p : InstructionsPlan SI) (e : InterpretationError),
            loopStateAfter c cep N out k
                (initialLoopState c cep naivePlan (unmaskedProbe c w1)) = some s
              ∧ findFirstEqualInstructionPastIndex c cep.GeneratePlan N
                  s.firstPossibleIndexForMatchingInstruction = (i : Int)
              ∧ (attemptAt c cep N s i).result = .ok (o, p)
              ∧ (attemptAt c cep N s i).mask.IsValid = true
              ∧ p.GeneratePlan = .error e
              ∧ r.output = c.NoOutputObject ∧ r.plan = none
              ∧ r.err = some (c.ToAPIType e))
      ?_ ?_ _ _ r ⟨0, rfl⟩ hr
    · intro s next hinv hbody
      obtain ⟨k, hk⟩ := hinv
      exact ⟨k + 1, loopStateAfter_snoc c cep N out k _ s next hk hbody⟩
    · intro s r hinv hbody
      obtain ⟨k, hk⟩ := hinv
      rcases loopBody_cases c cep N out s with
        ⟨_, _, h⟩ | ⟨i, g1, _, _, _, _, ⟨_, h⟩ | ⟨o, p, g6, g7, ⟨e, g8, h⟩ | ⟨seq, _, h⟩⟩⟩
      · rw [h] at hbody
        cases hbody
        exact Or.inl ⟨rfl, _, rfl⟩
      · rw [h] at hbody
        cases hbody
      · rw [h] at hbody
        cases hbody
        exact Or.inr ⟨k, s, i, o, p, e, hk, g1, g6, g7, g8, rfl, rfl, rfl⟩
      · rw [h] at hbody
        cases hbody
        exact Or.inl ⟨rfl, _, rfl⟩
  · intro s i hmatch hrej
    rcases loopBody_cases c cep N out s with
      ⟨h1, _, _⟩ | ⟨i', h1, _, _, _, _, ⟨_, h⟩ | ⟨o, p, g6, g7, _⟩⟩
    · rw [hmatch] at h1; omega
    · have hi : i' = i := by rw [hmatch] at h1; omega
      subst hi
      exact h
    · have hi : i' = i := by rw [hmatch] at h1; omega
      subst hi
      simp [accepted, g6, g7] at hrej

/-- A script generating 1 and 2 whose masked interpretations all fail, against the history
1, 3, 1: a plan and no error are returned. -/
theorem masked_failures_not_visible_witness :
    ∃ r, InterpretAndOptimizePlan (scripted [1, 2] .failEvery) 0 ⟨[1, 3, 1]⟩ = some r
      ∧ ((r.err = none ∧ ∃ p, r.plan = some p)
        ∨ ∃ (k : Nat) (s : LoopState Nat Nat Nat) (i : Nat) (o : String)
            (p : InstructionsPlan Nat) (e : InterpretationError),
            loopStateAfter (scripted [1, 2] .failEvery) ⟨[1, 3, 1]⟩ [1, 2] "naive" k
                (initialLoopState (scripted [1, 2] .failEvery) ⟨[1, 3, 1]⟩ (planOf 0 [1, 2])
                  (unmaskedProbe (scripted [1, 2] .failEvery) 0)) = some s
              ∧ findFirstEqualInstructionPastIndex (scripted [1, 2] .failEvery)
                  (⟨[1, 3, 1]⟩ : EnclavePlan Nat).GeneratePlan [1, 2]
                  s.firstPossibleIndexForMatchingInstruction = (i : Int)
              ∧ (attemptAt (scripted [1, 2] .failEvery) ⟨[1, 3, 1]⟩ [1, 2] s i).result
                  = .ok (o, p)
              ∧ (attemptAt (scripted [1, 2] .failEvery) ⟨[1, 3, 1]⟩ [1, 2] s i).mask.IsValid
                  = true
              ∧ p.GeneratePlan = .error e
              ∧ r.output = (scripted [1, 2] .failEvery).NoOutputObject ∧ r.plan = none
              ∧ r.err = some ((scripted [1, 2] .failEvery).ToAPIType e)) :=
  (masked_failures_not_visible (scripted [1, 2] .failEvery) 0 0 ⟨[1, 3, 1]⟩ "naive"
    (planOf 0 [1, 2]) [1, 2] rfl rfl rfl).1

/-- C8 as stated fails: the script generates exactly one instruction, the history holds
exactly one instruction, which resolves Equal against it, and the plan returned has
first-instruction index 0 and the one instruction of the masked interpretation as body. -/
theorem scenario_B_counterexample :
    (unmaskedProbe (scripted [1] .replay) 0).result = .ok ("naive", planOf 0 [1])
      ∧ (planOf 0 [1] : InstructionsPlan Nat).GeneratePlan = .ok [1]
      ∧ (scripted [1] .replay).TryResolveWith 1 1 (scripted [1] .replay).NewEnclaveComponents
          = .InstructionIsEqual
      ∧ InterpretAndOptimizePlan (scripted [1] .replay) 0 ⟨[1]⟩
          = some { output := "masked", plan := some (planOf 0 [1]), err := none,
                   calls := [⟨0, NewInstructionsPlanMask 0⟩, ⟨1, ⟨[some 1], true⟩⟩] }
      ∧ ¬ ((planOf 0 [1] : InstructionsPlan Nat).indexOfFirstInstruction = 1
            ∧ (planOf 0 [1] : InstructionsPlan Nat).scheduledInstructions = []) :=
  ⟨rfl, rfl, rfl, by decide, by decide⟩

/-- C8, amended (scenario B). For every script whose unmasked interpretation generates
exactly one instruction, run against a history holding exactly one instruction that resolves
Equal against it: the one masked interpretation is run with the mask holding that historical
instruction; when it is rejected (error or invalid mask) the plan returned has
first-instruction index 1 and the unmasked instruction as body; when it is accepted and its
plan freezes, the plan returned has first-instruction index 0 and the sequence of the masked
interpretation as body; in no case is a plan with first-instruction index 1 and an empty body
returned. -/
theorem scenario_B_single_equal_instruction (c : Collaborators SI EPI EC W AE) (w w1 : W)
    (out : String) (naivePlan : InstructionsPlan SI) (first : SI) (e0 : EPI)
    (hclone : c.CloneReplacedPackagesIfNeeded w = (w1, none))
    (hprobe : (unmaskedProbe c w1).result = .ok (out, naivePlan))
    (hfreeze : naivePlan.GeneratePlan = .ok [first])
    (hequal : c.TryResolveWith first e0 c.NewEnclaveComponents = .InstructionIsEqual) :
    buildPotentialMask (⟨[e0]⟩ : EnclavePlan EPI).GeneratePlan [first] 0
        = { slots := [some e0], isValid := true }
    ∧ (accepted (attemptAt c ⟨[e0]⟩ [first]
          (initialLoopState c ⟨[e0]⟩ naivePlan (unmaskedProbe c w1)) 0) = false →
        InterpretAndOptimizePlan c w ⟨[e0]⟩
          = some { output := out, plan := some (planOf 1 [first]), err := none,
                   calls := callsAfterAttempt ⟨[e0]⟩ [first]
                     (initialLoopState c ⟨[e0]⟩ naivePlan (unmaskedProbe c w1)) 0 })
    ∧ (∀ o p seq,
        (attemptAt c ⟨[e0]⟩ [first]
          (initialLoopState c ⟨[e0]⟩ naivePlan (unmaskedProbe c w1)) 0).result
            = .ok (o, p) →
        (attemptAt c ⟨[e0]⟩ [first]
          (initialLoopState c ⟨[e0]⟩ naivePlan (unmaskedProbe c w1)) 0).mask.IsValid
            = true →
        p.GeneratePlan = .ok seq →
        InterpretAndOptimizePlan c w ⟨[e0]⟩
          = some { output := o, plan := some (planOf 0 seq), err := none,
                   calls := callsAfterAttempt ⟨[e0]⟩ [first]
                     (initialLoopState c ⟨[e0]⟩ naivePlan (unmaskedProbe c w1)) 0 })
    ∧ (∀ r p, InterpretAndOptimizePlan c w ⟨[e0]⟩ = some r → r.plan = some p →
        ¬ (p.indexOfFirstInstruction = 1 ∧ p.scheduledInstructions = [])) := by
  have hloop := InterpretAndOptimizePlan_eq_loop c w w1 ⟨[e0]⟩ out naivePlan [first]
    hclone hprobe hfreeze
  have hsize := GeneratePlan_length naivePlan [first] hfreeze
  have hstart := initialLoopState_cursor_le c ⟨[e0]⟩ naivePlan (unmaskedProbe c w1)
  have hcep : (⟨[e0]⟩ : EnclavePlan EPI).Size = 1 := rfl
  rw [hsize, hcep] at hstart
  simp only [List.length_singleton, Nat.sub_self] at hstart
  have hres0 : resolvesAt c (⟨[e0]⟩ : EnclavePlan EPI).GeneratePlan [first] 0 = true := by
    simp [resolvesAt, resolvesWith, EnclavePlan.GeneratePlan, hequal]
  -- the first iteration finds the match at index 0
  have hfirst : findFirstEqualInstructionPastIndex c (⟨[e0]⟩ : EnclavePlan EPI).GeneratePlan
      [first] (initialLoopState c ⟨[e0]⟩ naivePlan
        (unmaskedProbe c w1)).firstPossibleIndexForMatchingInstruction = ((0 : Nat) : Int) := by
    rcases findFirst_spec c (⟨[e0]⟩ : EnclavePlan EPI).GeneratePlan [first]
        (initialLoopState c ⟨[e0]⟩ naivePlan
          (unmaskedProbe c w1)).firstPossibleIndexForMatchingInstruction with
      ⟨_, h2⟩ | ⟨i, h1, _, h3, _, _⟩
    · have := h2 0 (by omega)
      rw [hres0] at this
      cases this
    · have hi : i = 0 := by
        have : (⟨[e0]⟩ : EnclavePlan EPI).GeneratePlan.length = 1 := rfl
        omega
      subst hi
      exact h1
  -- what the loop does after a rejection of that match
  have hrejected : ∀ fuel,
      optimizeLoop c ⟨[e0]⟩ [first] out (fuel + 1)
        (rejectedState c ⟨[e0]⟩ [first]
          (initialLoopState c ⟨[e0]⟩ naivePlan (unmaskedProbe c w1)) 0)
        = some { output := out, plan := some (planOf 1 [first]), err := none,
                 calls := callsAfterAttempt ⟨[e0]⟩ [first]
                   (initialLoopState c ⟨[e0]⟩ naivePlan (unmaskedProbe c w1)) 0 } := by
    intro fuel
    apply optimizeLoop_of_inr
    rcases loopBody_cases c ⟨[e0]⟩ [first] out (rejectedState c ⟨[e0]⟩ [first]
        (initialLoopState c ⟨[e0]⟩ naivePlan (unmaskedProbe c w1)) 0) with
      ⟨_, _, h⟩ | ⟨i, _, g2, g3, _⟩
    · rw [h]
      rfl
    · simp only [rejectedState] at g2
      omega
  refine ⟨rfl, ?_, ?_, ?_⟩
  · intro hrej
    have hbody := (loopBody_of_rejected c ⟨[e0]⟩ [first] out _ 0 hfirst hrej)
    rw [hloop, hcep, optimizeLoop_of_inl c ⟨[e0]⟩ [first] out _ _ 1 hbody]
    exact hrejected 0
  · intro o p seq hok hvalid hfrozen
    rw [hloop, hcep]
    apply optimizeLoop_of_inr
    rcases loopBody_cases c ⟨[e0]⟩ [first] out
        (initialLoopState c ⟨[e0]⟩ naivePlan (unmaskedProbe c w1)) with
      ⟨h1, _, _⟩ | ⟨i, h1, _, _, _, _, hcase⟩
    · rw [hfirst] at h1; omega
    · have hi : i = 0 := by rw [hfirst] at h1; omega
      subst hi
      rcases hcase with ⟨h6, _⟩ | ⟨o', p', h6, _, ⟨e, h8, _⟩ | ⟨seq', h8, h9⟩⟩
      · simp [accepted, hok, hvalid] at h6
      · rw [hok] at h6; cases h6; rw [hfrozen] at h8; cases h8
      · rw [hok] at h6; cases h6; rw [hfrozen] at h8; cases h8; exact h9
  · intro r p hr hp
    rw [hloop, hcep] at hr
    rcases loopBody_cases c ⟨[e0]⟩ [first] out
        (initialLoopState c ⟨[e0]⟩ naivePlan (unmaskedProbe c w1)) with
      ⟨h1, _, _⟩ | ⟨i, h1, _, _, _, _, hcase⟩
    · rw [hfirst] at h1; omega
    · have hi : i = 0 := by rw [hfirst] at h1; omega
      subst hi
      rcases hcase with ⟨_, h⟩ | ⟨o', p', _, _, ⟨e, _, h⟩ | ⟨seq', _, h⟩⟩
      · rw [optimizeLoop_of_inl c ⟨[e0]⟩ [first] out _ _ 1 h, hrejected 0] at hr
        cases hr
        cases hp
        simp [planOf]
      · rw [optimizeLoop_of_inr c ⟨[e0]⟩ [first] out _ _ 1 h] at hr
        cases hr
        cases hp
      · rw [optimizeLoop_of_inr c ⟨[e0]⟩ [first] out _ _ 1 h] at hr
        cases hr
        cases hp
        simp [planOf]

/-- The same script and history with masked interpretations that all end with an invalid
mask: the plan returned has first-instruction index 1 and the unmasked instruction as
body. -/
theorem scenario_B_single_equal_instruction_witness :
    InterpretAndOptimizePlan (scripted [1] .rejectEvery) 0 ⟨[1]⟩
      = some { output := "naive", plan := some (planOf 1 [1]), err := none,
               calls := [⟨0, NewInstructionsPlanMask 0⟩, ⟨1, ⟨[some 1], true⟩⟩] } :=
  (scenario_B_single_equal_instruction (scripted [1] .rejectEvery) 0 0 "naive"
    (planOf 0 [1]) 1 1 rfl rfl rfl rfl).2.1 rfl

end ReconcilerClaims

/-! ## `Interpret`: properties -/

section InterpreterClaims

variable {SI EPI EC W V Fn AE : Type}

theorem entryFunctionName_eq (mainFunctionName : String) :
    (if mainFunctionName = "" ∨ mainFunctionName = runFunctionName
      then runFunctionName else mainFunctionName) = entryFunctionName mainFunctionName := by
  unfold entryFunctionName
  by_cases h1 : mainFunctionName = ""
  · simp [h1]
  · by_cases h2 : mainFunctionName = runFunctionName
    · simp [h1, h2]
    · simp [h1, h2]

/-- The message of the missing-entry-function error names the entry function and the two
required signatures. -/
theorem missingMainFunctionMessage_names (placeholder packageId name : String) :
    ∃ pre post : String, missingMainFunctionMessage placeholder packageId name
      = pre ++ ("'" ++ name ++ "' entrypoint function with the signature `" ++ name
          ++ "(plan, args)` or `" ++ name ++ "()`") ++ post := by
  unfold missingMainFunctionMessage
  have e1 : "' function found in the script; a '"
      = "' function found in the script; a " ++ "'" := by decide
  have e2 : "()` is required in the Kurtosis script"
      = "()`" ++ " is required in the Kurtosis script" := by decide
  have e3 : "'; a '" = "'; a " ++ "'" := by decide
  have e4 : "()` is required in the main file of the Kurtosis package"
      = "()`" ++ " is required in the main file of the Kurtosis package" := by decide
  by_cases h : packageId = placeholder
  · refine ⟨"No '" ++ name ++ "' function found in the script; a ",
      " is required in the Kurtosis script", ?_⟩
    rw [if_pos h, e1, e2]
    simp only [String.append_assoc]
  · refine ⟨"No '" ++ name ++ "' function found in the main file of package '"
        ++ packageId ++ "'; a ",
      " is required in the main file of the Kurtosis package", ?_⟩
    rw [if_neg h, e3, e4]
    simp only [String.append_assoc]

/-- C9, entry-point resolution. For every script that executes successfully, if the entry
name looked up (the requested name, the empty name standing for `run`) is not among the
globals of the script, or is bound to a value that is not a function, `Interpret` returns no
plan and the missing-entry-function error, which is one and the same value in the two cases
(it is built from the package id and the name only), and whose message names the entry
function and the signatures `name(plan, args)` and `name()`. -/
theorem entry_point_resolution (rt : StarlarkRuntime SI EPI EC W V Fn AE)
    (packageId mainFunctionName relativePathtoMainFile serializedStarlark
      serializedJsonParams : String)
    (w : W) (enclaveComponents : EC) (instructionsPlanMask : InstructionsPlanMask EPI)
    (w1 : W) (plan1 : InstructionsPlan SI) (globalVariables : List (String × V))
    (hexec : rt.interpretInternal w packageId
      (moduleLocatorOf rt packageId relativePathtoMainFile) serializedStarlark
      NewInstructionsPlan = (w1, plan1, .ok globalVariables))
    (hmissing : globalVariables.lookup (entryFunctionName mainFunctionName) = none
      ∨ ∃ value, globalVariables.lookup (entryFunctionName mainFunctionName) = some value
          ∧ rt.asFunction value = none) :
    (Interpret rt packageId mainFunctionName relativePathtoMainFile serializedStarlark
        serializedJsonParams w enclaveComponents instructionsPlanMask).plan = none
    ∧ (Interpret rt packageId mainFunctionName relativePathtoMainFile serializedStarlark
        serializedJsonParams w enclaveComponents instructionsPlanMask).err
      = some (rt.ToAPIType (NewInterpretationError
          (missingMainFunctionMessage rt.PackageIdPlaceholderForStandaloneScript packageId
            (entryFunctionName mainFunctionName))))
    ∧ ∃ pre post : String,
        missingMainFunctionMessage rt.PackageIdPlaceholderForStandaloneScript packageId
            (entryFunctionName mainFunctionName)
          = pre ++ ("'" ++ entryFunctionName mainFunctionName
              ++ "' entrypoint function with the signature `"
              ++ entryFunctionName mainFunctionName ++ "(plan, args)` or `"
              ++ entryFunctionName mainFunctionName ++ "()`") ++ post := by
  refine ⟨?_, ?_, missingMainFunctionMessage_names _ _ _⟩
  · rcases hmissing with h | ⟨value, h, hfn⟩
    · simp [Interpret, hexec, entryFunctionName_eq, h]
    · simp [Interpret, hexec, entryFunctionName_eq, h, hfn]
  · rcases hmissing with h | ⟨value, h, hfn⟩
    · simp [Interpret, hexec, entryFunctionName_eq, h, missingMainFunctionError]
    · simp [Interpret, hexec, entryFunctionName_eq, h, hfn, missingMainFunctionError]

/-- A standalone script without a `run` function, and one in which `run` is bound to an
integer: the same error is returned. -/
theorem entry_point_resolution_witness :
    (Interpret (demoRuntime [("main", .function [])] (.dict []))
        "DEFAULT_PACKAGE_ID_FOR_SCRIPT" "" "" "script" "" 0 0
        (NewInstructionsPlanMask 0)).err
      = some ("No 'run' function found in the script; a 'run' entrypoint function with "
          ++ "the signature `run(plan, args)` or `run()` is required in the Kurtosis script")
    ∧ (Interpret (demoRuntime [("run", .int 3)] (.dict []))
        "DEFAULT_PACKAGE_ID_FOR_SCRIPT" "run" "" "script" "" 0 0
        (NewInstructionsPlanMask 0)).err
      = some ("No 'run' function found in the script; a 'run' entrypoint function with "
          ++ "the signature `run(plan, args)` or `run()` is required in the Kurtosis script") :=
  ⟨(entry_point_resolution (demoRuntime [("main", .function [])] (.dict []))
      "DEFAULT_PACKAGE_ID_FOR_SCRIPT" "" "" "script" "" 0 0 (NewInstructionsPlanMask 0)
      1 NewInstructionsPlan [("main", .function [])] rfl (Or.inl rfl)).2.1,
   (entry_point_resolution (demoRuntime [("run", .int 3)] (.dict []))
      "DEFAULT_PACKAGE_ID_FOR_SCRIPT" "run" "" "script" "" 0 0 (NewInstructionsPlanMask 0)
      1 NewInstructionsPlan [("run", .int 3)] rfl (Or.inr ⟨.int 3, rfl, rfl⟩)).2.1⟩

/-- C10, leading-plan rule. For every entry function found by `Interpret`: when the default
entry name is in use (requested name empty or `run`), the function declares at least one
parameter and its first parameter is not named `plan`, `Interpret` returns the
unexpected-argument-name error and no plan; in every other case the check passes and
`Interpret` goes on to bind the arguments and call the function, with the plan handle as
positional argument when the first parameter is named `plan`; this is so in particular for a
function without parameters and for a non-default entry name. The check itself fails
exactly in the first case. -/
theorem leading_plan_rule (rt : StarlarkRuntime SI EPI EC W V Fn AE)
    (packageId mainFunctionName relativePathtoMainFile serializedStarlark
      serializedJsonParams : String)
    (w : W) (enclaveComponents : EC) (instructionsPlanMask : InstructionsPlanMask EPI)
    (w1 : W) (plan1 : InstructionsPlan SI) (globalVariables : List (String × V))
    (value : V) (mainFunction : Fn)
    (hexec : rt.interpretInternal w packageId
      (moduleLocatorOf rt packageId relativePathtoMainFile) serializedStarlark
      NewInstructionsPlan = (w1, plan1, .ok globalVariables))
    (hfound : globalVariables.lookup (entryFunctionName mainFunctionName) = some value)
    (hfn : rt.asFunction value = some mainFunction) :
    (((mainFunctionName = "" ∨ mainFunctionName = runFunctionName)
        ∧ 1 ≤ NumParams rt mainFunction ∧ Param rt mainFunction 0 ≠ planParamName) →
      Interpret rt packageId mainFunctionName relativePathtoMainFile serializedStarlark
          serializedJsonParams w enclaveComponents instructionsPlanMask
        = { output := rt.NoOutputObject, plan := none,
            err := some (rt.ToAPIType (NewInterpretationError
              (unexpectedArgNameError 0 planParamName (Param rt mainFunction 0)))),
            world := w1, enclaveComponents := enclaveComponents,
            mask := instructionsPlanMask, callArguments := none })
    ∧ (¬ ((mainFunctionName = "" ∨ mainFunctionName = runFunctionName)
        ∧ 1 ≤ NumParams rt mainFunction ∧ Param rt mainFunction 0 ≠ planParamName) →
      Interpret rt packageId mainFunctionName relativePathtoMainFile serializedStarlark
          serializedJsonParams w enclaveComponents instructionsPlanMask
        = callMainFunction rt serializedJsonParams
            (decide (mainFunctionName = "" ∨ mainFunctionName = runFunctionName))
            mainFunction
            (if 1 ≤ NumParams rt mainFunction ∧ Param rt mainFunction 0 = planParamName
              then [rt.PlanModule] else [])
            plan1 w1 enclaveComponents instructionsPlanMask)
    ∧ (NumParams rt mainFunction = 0 →
      Interpret rt packageId mainFunctionName relativePathtoMainFile serializedStarlark
          serializedJsonParams w enclaveComponents instructionsPlanMask
        = callMainFunction rt serializedJsonParams
            (decide (mainFunctionName = "" ∨ mainFunctionName = runFunctionName))
            mainFunction [] plan1 w1 enclaveComponents instructionsPlanMask)
    ∧ (¬ (mainFunctionName = "" ∨ mainFunctionName = runFunctionName) →
      Interpret rt packageId mainFunctionName relativePathtoMainFile serializedStarlark
          serializedJsonParams w enclaveComponents instructionsPlanMask
        = callMainFunction rt serializedJsonParams false mainFunction
            (if 1 ≤ NumParams rt mainFunction ∧ Param rt mainFunction 0 = planParamName
              then [rt.PlanModule] else [])
            plan1 w1 enclaveComponents instructionsPlanMask)
    ∧ ((∃ e, injectPlan rt
          (decide (mainFunctionName = "" ∨ mainFunctionName = runFunctionName))
          mainFunction = .error e)
        ↔ ((mainFunctionName = "" ∨ mainFunctionName = runFunctionName)
          ∧ 1 ≤ NumParams rt mainFunction ∧ Param rt mainFunction 0 ≠ planParamName)) := by
  have hinterp : Interpret rt packageId mainFunctionName relativePathtoMainFile
      serializedStarlark serializedJsonParams w enclaveComponents instructionsPlanMask
      = match injectPlan rt
          (decide (mainFunctionName = "" ∨ mainFunctionName = runFunctionName))
          mainFunction with
        | .error interpretationErr =>
          { output := rt.NoOutputObject, plan := none,
            err := some (rt.ToAPIType interpretationErr), world := w1,
            enclaveComponents := enclaveComponents, mask := instructionsPlanMask,
            callArguments := none }
        | .ok argsTuple =>
          callMainFunction rt serializedJsonParams
            (decide (mainFunctionName = "" ∨ mainFunctionName = runFunctionName))
            mainFunction argsTuple plan1 w1 enclaveComponents instructionsPlanMask := by
    simp only [Interpret, hexec, decide_eq_true_eq, entryFunctionName_eq, hfound, hfn]
  have hyes : ((mainFunctionName = "" ∨ mainFunctionName = runFunctionName)
      ∧ 1 ≤ NumParams rt mainFunction ∧ Param rt mainFunction 0 ≠ planParamName) →
      injectPlan rt (decide (mainFunctionName = "" ∨ mainFunctionName = runFunctionName))
        mainFunction
        = .error (NewInterpretationError
            (unexpectedArgNameError 0 planParamName (Param rt mainFunction 0))) := by
    intro ⟨hd, hn, hp⟩
    simp [injectPlan, minimumParamsRequiredForPlan, planParamIndex, hd, hn, hp]
  have hno : ¬ ((mainFunctionName = "" ∨ mainFunctionName = runFunctionName)
      ∧ 1 ≤ NumParams rt mainFunction ∧ Param rt mainFunction 0 ≠ planParamName) →
      injectPlan rt (decide (mainFunctionName = "" ∨ mainFunctionName = runFunctionName))
        mainFunction
        = .ok (if 1 ≤ NumParams rt mainFunction ∧ Param rt mainFunction 0 = planParamName
            then [rt.PlanModule] else []) := by
    intro hcond
    by_cases hn : 1 ≤ NumParams rt mainFunction
    · by_cases hp : Param rt mainFunction 0 = planParamName
      · simp [injectPlan, minimumParamsRequiredForPlan, planParamIndex, hn, hp]
      · have hd : ¬ (mainFunctionName = "" ∨ mainFunctionName = runFunctionName) :=
          fun hd => hcond ⟨hd, hn, hp⟩
        simp [injectPlan, minimumParamsRequiredForPlan, planParamIndex, hn, hp, hd]
    · simp [injectPlan, minimumParamsRequiredForPlan, hn]
  refine ⟨?_, ?_, ?_, ?_, ?_⟩
  · intro hcond
    rw [hinterp, hyes hcond]
  · intro hcond
    rw [hinterp, hno hcond]
  · intro hzero
    have hcond : ¬ ((mainFunctionName = "" ∨ mainFunctionName = runFunctionName)
        ∧ 1 ≤ NumParams rt mainFunction ∧ Param rt mainFunction 0 ≠ planParamName) := by
      intro ⟨_, hn, _⟩
      omega
    rw [hinterp, hno hcond]
    have : ¬ (1 ≤ NumParams rt mainFunction ∧ Param rt mainFunction 0 = planParamName) := by
      intro ⟨hn, _⟩
      omega
    rw [if_neg this]
  · intro hd
    have hcond : ¬ ((mainFunctionName = "" ∨ mainFunctionName = runFunctionName)
        ∧ 1 ≤ NumParams rt mainFunction ∧ Param rt mainFunction 0 ≠ planParamName) :=
      fun h => hd h.1
    rw [hinterp, hno hcond]
    simp [hd]
  · constructor
    · intro ⟨e, he⟩
      by_contra hcond
      rw [hno hcond] at he
      cases he
    · intro hcond
      exact ⟨_, hyes hcond⟩

/-- A script whose `run` function declares the single parameter `args`: the
unexpected-argument-name error is returned. -/
theorem leading_plan_rule_witness :
    Interpret (demoRuntime [("run", .function ["args"])] (.dict []))
        "DEFAULT_PACKAGE_ID_FOR_SCRIPT" "" "" "script" "" 0 0 (NewInstructionsPlanMask 0)
      = { output := "", plan := none,
          err := some ("Expected argument at index '0' of run function to be called 'plan' "
            ++ "got 'args' "),
          world := 1, enclaveComponents := 0, mask := NewInstructionsPlanMask 0,
          callArguments := none } :=
  (leading_plan_rule (demoRuntime [("run", .function ["args"])] (.dict []))
    "DEFAULT_PACKAGE_ID_FOR_SCRIPT" "" "" "script" "" 0 0 (NewInstructionsPlanMask 0)
    1 NewInstructionsPlan [("run", .function ["args"])] (.function ["args"]) ["args"]
    rfl rfl rfl).1 ⟨Or.inl rfl, by decide, by decide⟩

end InterpreterClaims

/-! ## `generateInterpretationError`: properties -/

section ErrorTranslatorClaims

/-- The loop that collects the frames, started with `acc`, appends to `acc` the frames whose
name is not the one to skip, in order. -/
theorem foldl_skip_eq_filter_map {α : Type} (name : α → String) (frame : α → CallFrame)
    (skip : String) (l : List α) (acc : List CallFrame) :
    l.foldl (fun stacktrace x =>
        if name x = skip then stacktrace else stacktrace ++ [frame x]) acc
      = acc ++ (l.filter (fun x => decide (name x ≠ skip))).map frame := by
  induction l generalizing acc with
  | nil => simp
  | cons a t ih =>
    by_cases h : name a = skip
    · simp [List.foldl, ih, h]
    · simp [List.foldl, ih, h]

/-- C13, idempotent error prefixing. For every evaluation error with underlying message
`m`: the translated message is `m` itself when `m` starts with the marker
`"Evaluation error: "`, and the marker followed by `m` otherwise; the translated message
always starts with the marker; it starts with the marker twice only if `m` did; and
translating an evaluation error whose message is an already translated message gives that
message again. -/
theorem idempotent_error_prefixing (callStack : List StarlarkCallFrame) (m : String) :
    (evaluationErrorPrefix.data.isPrefixOf m.data = true →
        (generateInterpretationError (.evalError callStack m)).msg = m)
    ∧ (evaluationErrorPrefix.data.isPrefixOf m.data = false →
        (generateInterpretationError (.evalError callStack m)).msg
          = evaluationErrorPrefix ++ m)
    ∧ evaluationErrorPrefix.data.isPrefixOf
        (generateInterpretationError (.evalError callStack m)).msg.data = true
    ∧ ((evaluationErrorPrefix ++ evaluationErrorPrefix).data.isPrefixOf
          (generateInterpretationError (.evalError callStack m)).msg.data = true →
        (evaluationErrorPrefix ++ evaluationErrorPrefix).data.isPrefixOf m.data = true)
    ∧ ∀ callStack' : List StarlarkCallFrame,
        (generateInterpretationError (.evalError callStack'
          (generateInterpretationError (.evalError callStack m)).msg)).msg
        = (generateInterpretationError (.evalError callStack m)).msg := by
  have hmsg : ∀ (cs : List StarlarkCallFrame) (x : String),
      (generateInterpretationError (.evalError cs x)).msg
        = if evaluationErrorPrefix.data.isPrefixOf x.data then x
          else evaluationErrorPrefix ++ x := by
    intro cs x
    rfl
  by_cases h : evaluationErrorPrefix.data.isPrefixOf m.data = true
  · have hm : (generateInterpretationError (.evalError callStack m)).msg = m := by
      rw [hmsg, if_pos h]
    refine ⟨fun _ => hm, fun hf => ?_, ?_, ?_, ?_⟩
    · rw [h] at hf
      cases hf
    · rw [hm]
      exact h
    · rw [hm]
      exact id
    · intro cs'
      rw [hm, hmsg, if_pos h]
  · have hm : (generateInterpretationError (.evalError callStack m)).msg
        = evaluationErrorPrefix ++ m := by
      rw [hmsg, if_neg h]
    have hstart : evaluationErrorPrefix.data.isPrefixOf
        (evaluationErrorPrefix ++ m).data = true := by
      simp
    refine ⟨fun ht => absurd ht h, fun _ => hm, ?_, ?_, ?_⟩
    · rw [hm]
      exact hstart
    · rw [hm]
      intro hdup
      exfalso
      apply h
      simpa using hdup
    · intro cs'
      rw [hm, hmsg, if_pos hstart]

/-- C14, frame filtering. For every evaluation error the resulting stack is the list of the
frames of the call stack whose name is not `"import_module"`, in their order, each as
(name, file, line, column); for every list of resolution errors it is the list of the
entries whose message is not `"import_module"`, in their order, under the fixed banner
message. No frame named `"import_module"` is in either result, and every other frame
is. -/
theorem frame_filtering (callStack : List StarlarkCallFrame) (m : String)
    (errs : List ResolveError) :
    (generateInterpretationError (.evalError callStack m)).stacktrace
        = (callStack.filter (fun f => decide (f.name ≠ "import_module"))).map
            (fun f => { name := f.name, fileName := f.pos.filename, line := f.pos.line,
                        col := f.pos.col })
    ∧ (generateInterpretationError (.resolveErrorList errs)).stacktrace
        = (errs.filter (fun e => decide (e.msg ≠ "import_module"))).map
            (fun e => { name := e.msg, fileName := e.pos.filename, line := e.pos.line,
                        col := e.pos.col })
    ∧ (generateInterpretationError (.resolveErrorList errs)).msg
        = "Multiple errors caught interpreting the Starlark script. Listing each of them below."
    ∧ (∀ frame ∈ (generateInterpretationError (.evalError callStack m)).stacktrace,
        frame.name ≠ "import_module")
    ∧ (∀ frame ∈ (generateInterpretationError (.resolveErrorList errs)).stacktrace,
        frame.name ≠ "import_module")
    ∧ (∀ f ∈ callStack, f.name ≠ "import_module" →
        NewCallFrame f.name f.pos
          ∈ (generateInterpretationError (.evalError callStack m)).stacktrace)
    ∧ (∀ e ∈ errs, e.msg ≠ "import_module" →
        NewCallFrame e.msg e.pos
          ∈ (generateInterpretationError (.resolveErrorList errs)).stacktrace) := by
  have h1 : (generateInterpretationError (.evalError callStack m)).stacktrace
      = (callStack.filter (fun f => decide (f.name ≠ "import_module"))).map
          (fun f => NewCallFrame f.name f.pos) := by
    have := foldl_skip_eq_filter_map (fun f : StarlarkCallFrame => f.name)
      (fun f => NewCallFrame f.name f.pos) skipImportInstructionInStacktraceValue callStack []
    simpa [generateInterpretationError, NewInterpretationErrorWithCustomMsg,
      skipImportInstructionInStacktraceValue] using this
  have h2 : (generateInterpretationError (.resolveErrorList errs)).stacktrace
      = (errs.filter (fun e => decide (e.msg ≠ "import_module"))).map
          (fun e => NewCallFrame e.msg e.pos) := by
    have := foldl_skip_eq_filter_map (fun e : ResolveError => e.msg)
      (fun e => NewCallFrame e.msg e.pos) skipImportInstructionInStacktraceValue errs []
    simpa [generateInterpretationError, NewInterpretationErrorWithCustomMsg,
      skipImportInstructionInStacktraceValue] using this
  refine ⟨h1, h2, rfl, ?_, ?_, ?_, ?_⟩
  · intro frame hframe
    rw [h1] at hframe
    obtain ⟨f, hf, rfl⟩ := List.mem_map.mp hframe
    simpa [NewCallFrame] using (List.mem_filter.mp hf).2
  · intro frame hframe
    rw [h2] at hframe
    obtain ⟨e, he, rfl⟩ := List.mem_map.mp hframe
    simpa [NewCallFrame] using (List.mem_filter.mp he).2
  · intro f hf hname
    rw [h1]
    exact List.mem_map.mpr ⟨f, List.mem_filter.mpr ⟨hf, by simpa using hname⟩, rfl⟩
  · intro e he hname
    rw [h2]
    exact List.mem_map.mpr ⟨e, List.mem_filter.mpr ⟨he, by simpa using hname⟩, rfl⟩

/-- C15, pass-through and default. The translation is a total function of the error; an
error that is already a structured `InterpretationError` is returned unchanged, so
translating the output of the translation returns it unchanged; and an error of any other
shape, with text `text`, becomes a structured error with no frame whose message is
`"UnknownError: "` followed by `text` (and the line break that ends the format). -/
theorem pass_through_and_default :
    (∀ err : StarlarkError, ∃ e : InterpretationError, generateInterpretationError err = e)
    ∧ (∀ e : InterpretationError, generateInterpretationError (.interpretationError e) = e)
    ∧ (∀ err : StarlarkError,
        generateInterpretationError (.interpretationError (generateInterpretationError err))
          = generateInterpretationError err)
    ∧ (∀ text : String,
        (generateInterpretationError (.other text)).msg = "UnknownError: " ++ text ++ "\n"
        ∧ ("UnknownError: " ++ text).data.isPrefixOf
            (generateInterpretationError (.other text)).msg.data = true
        ∧ (generateInterpretationError (.other text)).stacktrace = []) := by
  refine ⟨fun err => ⟨_, rfl⟩, fun e => rfl, fun err => rfl, ?_⟩
  intro text
  refine ⟨rfl, ?_, rfl⟩
  simp [generateInterpretationError, NewInterpretationError, String.append_assoc]

end ErrorTranslatorClaims

/-! ## `Interpret`: the binding of the arguments -/

section ArgumentBindingClaims

variable {SI EPI EC W V Fn AE : Type}

/-- What `Interpret` is once the script has executed and the entry function is found. -/
theorem Interpret_of_entry_function (rt : StarlarkRuntime SI EPI EC W V Fn AE)
    (packageId mainFunctionName relativePathtoMainFile serializedStarlark
      serializedJsonParams : String)
    (w : W) (enclaveComponents : EC) (instructionsPlanMask : InstructionsPlanMask EPI)
    (w1 : W) (plan1 : InstructionsPlan SI) (globalVariables : List (String × V))
    (value : V) (mainFunction : Fn)
    (hexec : rt.interpretInternal w packageId
      (moduleLocatorOf rt packageId relativePathtoMainFile) serializedStarlark
      NewInstructionsPlan = (w1, plan1, .ok globalVariables))
    (hfound : globalVariables.lookup (entryFunctionName mainFunctionName) = some value)
    (hfn : rt.asFunction value = some mainFunction) :
    Interpret rt packageId mainFunctionName relativePathtoMainFile serializedStarlark
        serializedJsonParams w enclaveComponents instructionsPlanMask
      = match injectPlan rt
          (decide (mainFunctionName = "" ∨ mainFunctionName = runFunctionName))
          mainFunction with
        | .error interpretationErr =>
          { output := rt.NoOutputObject, plan := none,
            err := some (rt.ToAPIType interpretationErr), world := w1,
            enclaveComponents := enclaveComponents, mask := instructionsPlanMask,
            callArguments := none }
        | .ok argsTuple =>
          callMainFunction rt serializedJsonParams
            (decide (mainFunctionName = "" ∨ mainFunctionName = runFunctionName))
            mainFunction argsTuple plan1 w1 enclaveComponents instructionsPlanMask := by
  simp only [Interpret, hexec, decide_eq_true_eq, entryFunctionName_eq, hfound, hfn]

/-- The result of the injection of the plan handle, in one formula. -/
theorem injectPlan_eq (rt : StarlarkRuntime SI EPI EC W V Fn AE) (isDefault : Bool)
    (mainFunction : Fn) :
    injectPlan rt isDefault mainFunction
      = if isDefault = true ∧ 1 ≤ NumParams rt mainFunction
            ∧ Param rt mainFunction 0 ≠ planParamName then
          .error (NewInterpretationError
            (unexpectedArgNameError 0 planParamName (Param rt mainFunction 0)))
        else
          .ok (if 1 ≤ NumParams rt mainFunction ∧ Param rt mainFunction 0 = planParamName
            then [rt.PlanModule] else []) := by
  by_cases hn : 1 ≤ NumParams rt mainFunction
  · by_cases hp : Param rt mainFunction 0 = planParamName
    · simp [injectPlan, minimumParamsRequiredForPlan, planParamIndex, hn, hp]
    · by_cases hd : isDefault = true
      · simp [injectPlan, minimumParamsRequiredForPlan, planParamIndex, hn, hp, hd]
      · simp [injectPlan, minimumParamsRequiredForPlan, planParamIndex, hn, hp, hd]
  · simp [injectPlan, minimumParamsRequiredForPlan, hn]

/-- On the legacy path the entry function is called with the payload as last positional
argument and without keyword arguments. -/
theorem callMainFunction_legacy (rt : StarlarkRuntime SI EPI EC W V Fn AE)
    (serializedJsonParams : String) (isDefault : Bool) (mainFunction : Fn)
    (argsTuple : List V) (plan : InstructionsPlan SI) (w : W) (enclaveComponents : EC)
    (mask : InstructionsPlanMask EPI) (inputArgs : V)
    (hdeser : rt.DeserializeArgs serializedJsonParams = .ok inputArgs)
    (hlegacy : isDefault = true ∧ NumParams rt mainFunction = 2
      ∧ Param rt mainFunction 1 = argsParamName) :
    (callMainFunction rt serializedJsonParams isDefault mainFunction argsTuple plan w
        enclaveComponents mask).callArguments = some (argsTuple ++ [inputArgs], []) := by
  obtain ⟨h1, h2, h3⟩ := hlegacy
  simp only [callMainFunction, hdeser, paramsRequiredForArgs, argsParamIndex, h1, h2, h3]
  simp only [and_self, decide_True, if_true]
  split
  · rfl
  · split
    · rfl
    · split <;> rfl

/-- Off the legacy path, with a payload that is a mapping, the entry function is called with
the entries of the mapping as keyword arguments. -/
theorem callMainFunction_keywords (rt : StarlarkRuntime SI EPI EC W V Fn AE)
    (serializedJsonParams : String) (isDefault : Bool) (mainFunction : Fn)
    (argsTuple : List V) (plan : InstructionsPlan SI) (w : W) (enclaveComponents : EC)
    (mask : InstructionsPlanMask EPI) (inputArgs : V) (items : List (V × V))
    (hdeser : rt.DeserializeArgs serializedJsonParams = .ok inputArgs)
    (hlegacy : ¬ (isDefault = true ∧ NumParams rt mainFunction = 2
      ∧ Param rt mainFunction 1 = argsParamName))
    (hdict : rt.asDict inputArgs = some items) :
    (callMainFunction rt serializedJsonParams isDefault mainFunction argsTuple plan w
        enclaveComponents mask).callArguments = some (argsTuple, items) := by
  simp only [callMainFunction, hdeser, paramsRequiredForArgs, argsParamIndex, hdict]
  rw [if_neg (by simpa using hlegacy)]
  simp only []
  split
  · rfl
  · split
    · rfl
    · split <;> rfl

/-- Off the legacy path, with a payload that is not a mapping, the entry function is not
called and the cast error is returned. -/
theorem callMainFunction_not_mapping (rt : StarlarkRuntime SI EPI EC W V Fn AE)
    (serializedJsonParams : String) (isDefault : Bool) (mainFunction : Fn)
    (argsTuple : List V) (plan : InstructionsPlan SI) (w : W) (enclaveComponents : EC)
    (mask : InstructionsPlanMask EPI) (inputArgs : V)
    (hdeser : rt.DeserializeArgs serializedJsonParams = .ok inputArgs)
    (hlegacy : ¬ (isDefault = true ∧ NumParams rt mainFunction = 2
      ∧ Param rt mainFunction 1 = argsParamName))
    (hdict : rt.asDict inputArgs = none) :
    callMainFunction rt serializedJsonParams isDefault mainFunction argsTuple plan w
        enclaveComponents mask
      = { output := rt.NoOutputObject, plan := none,
          err := some (rt.ToAPIType (NewInterpretationError
            ("An error occurred casting input args '" ++ rt.stringOf inputArgs
              ++ "' to Starlark Dict"))),
          world := w, enclaveComponents := enclaveComponents, mask := mask,
          callArguments := none } := by
  simp only [callMainFunction, hdeser, paramsRequiredForArgs, argsParamIndex, hdict]
  rw [if_neg (by simpa using hlegacy)]

/-- C11 as stated fails: an entry function named `main` with the signature `(plan, args)`
is called with the plan handle as only positional argument and with the entries of the
payload as keyword arguments. -/
theorem legacy_argument_path_counterexample :
    (demoRuntime [("main", .function ["plan", "args"])] (.dict [("a", 1), ("b", 2)])).params
        ["plan", "args"] = ["plan", "args"]
    ∧ (Interpret (demoRuntime [("main", .function ["plan", "args"])]
          (.dict [("a", 1), ("b", 2)]))
        "DEFAULT_PACKAGE_ID_FOR_SCRIPT" "main" "" "script" "json" 0 0
        (NewInstructionsPlanMask 0)).callArguments
      = some ([DemoValue.planModule],
          [(DemoValue.str "a", DemoValue.int 1), (DemoValue.str "b", DemoValue.int 2)]) := by
  decide

/-- C11, amended (legacy argument path). For an entry function whose declared signature is
exactly `(plan, args)`, once the payload is deserialized: when the default entry name is in
use (requested name empty or `run`), `Interpret` calls it with the plan handle and then the
whole payload as positional arguments, and with no keyword argument; when another entry
name is requested, the legacy path is not taken: a payload that is a mapping is spread as
keyword arguments after the plan handle alone, and a payload that is not a mapping is an
error. -/
theorem legacy_argument_path (rt : StarlarkRuntime SI EPI EC W V Fn AE)
    (packageId mainFunctionName relativePathtoMainFile serializedStarlark
      serializedJsonParams : String)
    (w : W) (enclaveComponents : EC) (instructionsPlanMask : InstructionsPlanMask EPI)
    (w1 : W) (plan1 : InstructionsPlan SI) (globalVariables : List (String × V))
    (value : V) (mainFunction : Fn) (inputArgs : V)
    (hexec : rt.interpretInternal w packageId
      (moduleLocatorOf rt packageId relativePathtoMainFile) serializedStarlark
      NewInstructionsPlan = (w1, plan1, .ok globalVariables))
    (hfound : globalVariables.lookup (entryFunctionName mainFunctionName) = some value)
    (hfn : rt.asFunction value = some mainFunction)
    (hdeser : rt.DeserializeArgs serializedJsonParams = .ok inputArgs)
    (hsig : rt.params mainFunction = [planParamName, argsParamName]) :
    ((mainFunctionName = "" ∨ mainFunctionName = runFunctionName) →
      (Interpret rt packageId mainFunctionName relativePathtoMainFile serializedStarlark
          serializedJsonParams w enclaveComponents instructionsPlanMask).callArguments
        = some ([rt.PlanModule, inputArgs], []))
    ∧ (¬ (mainFunctionName = "" ∨ mainFunctionName = runFunctionName) →
      (∀ items, rt.asDict inputArgs = some items →
        (Interpret rt packageId mainFunctionName relativePathtoMainFile serializedStarlark
          serializedJsonParams w enclaveComponents instructionsPlanMask).callArguments
          = some ([rt.PlanModule], items))
      ∧ (rt.asDict inputArgs = none →
        Interpret rt packageId mainFunctionName relativePathtoMainFile serializedStarlark
          serializedJsonParams w enclaveComponents instructionsPlanMask
          = { output := rt.NoOutputObject, plan := none,
              err := some (rt.ToAPIType (NewInterpretationError
                ("An error occurred casting input args '" ++ rt.stringOf inputArgs
                  ++ "' to Starlark Dict"))),
              world := w1, enclaveComponents := enclaveComponents,
              mask := instructionsPlanMask, callArguments := none })) := by
  have hnum : NumParams rt mainFunction = 2 := by simp [NumParams, hsig]
  have hp0 : Param rt mainFunction 0 = planParamName := by simp [Param, hsig]
  have hp1 : Param rt mainFunction 1 = argsParamName := by simp [Param, hsig]
  have hinterp := Interpret_of_entry_function rt packageId mainFunctionName
    relativePathtoMainFile serializedStarlark serializedJsonParams w enclaveComponents
    instructionsPlanMask w1 plan1 globalVariables value mainFunction hexec hfound hfn
  have hinject : injectPlan rt
      (decide (mainFunctionName = "" ∨ mainFunctionName = runFunctionName)) mainFunction
      = .ok [rt.PlanModule] := by
    rw [injectPlan_eq]
    simp [hnum, hp0]
  rw [hinject] at hinterp
  simp only [] at hinterp
  rw [hinterp]
  refine ⟨?_, ?_⟩
  · intro hd
    exact callMainFunction_legacy rt serializedJsonParams _ mainFunction [rt.PlanModule]
      plan1 w1 enclaveComponents instructionsPlanMask inputArgs hdeser
      ⟨by simpa using hd, hnum, hp1⟩
  · intro hd
    have hnl : ¬ (decide (mainFunctionName = "" ∨ mainFunctionName = runFunctionName) = true
        ∧ NumParams rt mainFunction = 2 ∧ Param rt mainFunction 1 = argsParamName) := by
      intro h
      exact hd (by simpa using h.1)
    refine ⟨?_, ?_⟩
    · intro items hdict
      exact callMainFunction_keywords rt serializedJsonParams _ mainFunction [rt.PlanModule]
        plan1 w1 enclaveComponents instructionsPlanMask inputArgs items hdeser hnl hdict
    · intro hdict
      exact callMainFunction_not_mapping rt serializedJsonParams _ mainFunction
        [rt.PlanModule] plan1 w1 enclaveComponents instructionsPlanMask inputArgs hdeser hnl
        hdict

/-- Scenario C, second half: the entry function `run(plan, args)` receives the whole mapping
as one positional argument. -/
theorem legacy_argument_path_witness :
    (Interpret (demoRuntime [("run", .function ["plan", "args"])]
          (.dict [("a", 1), ("b", 2)]))
        "DEFAULT_PACKAGE_ID_FOR_SCRIPT" "" "" "script" "json" 0 0
        (NewInstructionsPlanMask 0)).callArguments
      = some ([DemoValue.planModule, DemoValue.dict [("a", 1), ("b", 2)]], []) :=
  (legacy_argument_path (demoRuntime [("run", .function ["plan", "args"])]
      (.dict [("a", 1), ("b", 2)]))
    "DEFAULT_PACKAGE_ID_FOR_SCRIPT" "" "" "script" "json" 0 0 (NewInstructionsPlanMask 0)
    1 NewInstructionsPlan [("run", .function ["plan", "args"])] (.function ["plan", "args"])
    ["plan", "args"] (.dict [("a", 1), ("b", 2)]) rfl rfl rfl rfl rfl).1 (Or.inl rfl)

/-- C12 as stated fails: the default entry function `run(name)` does not take the legacy
path and the payload is a mapping, but the function is not called: the leading-plan rule
rejects it. -/
theorem keyword_argument_path_counterexample :
    ¬ (NumParams (demoRuntime [("run", .function ["name"])] (.dict [("a", 1)])) ["name"] = 2
        ∧ Param (demoRuntime [("run", .function ["name"])] (.dict [("a", 1)])) ["name"] 1
            = argsParamName)
    ∧ (demoRuntime [("run", .function ["name"])] (.dict [("a", 1)])).asDict
          (.dict [("a", 1)]) = some [(DemoValue.str "a", DemoValue.int 1)]
    ∧ (Interpret (demoRuntime [("run", .function ["name"])] (.dict [("a", 1)]))
        "DEFAULT_PACKAGE_ID_FOR_SCRIPT" "run" "" "script" "json" 0 0
        (NewInstructionsPlanMask 0)).callArguments = none
    ∧ (Interpret (demoRuntime [("run", .function ["name"])] (.dict [("a", 1)]))
        "DEFAULT_PACKAGE_ID_FOR_SCRIPT" "run" "" "script" "json" 0 0
        (NewInstructionsPlanMask 0)).err
      = some ("Expected argument at index '0' of run function to be called 'plan' "
          ++ "got 'name' ") := by
  decide

/-- C12, amended (keyword-argument path). For every entry function that does not take the
legacy `(plan, args)` path, once the payload is deserialized: when the payload is not a
mapping, `Interpret` returns an error and no plan, without calling the function; when the
function passes the leading-plan rule, that error is the cast error, and for a payload that
is a mapping the function is called with the entries of the mapping, in their order, as
keyword arguments, and with the plan handle alone as positional arguments when the first
declared parameter is named `plan`, and with no positional argument otherwise; when the
function does not pass the leading-plan rule it is not called and the
unexpected-argument-name error is returned. -/
theorem keyword_argument_path (rt : StarlarkRuntime SI EPI EC W V Fn AE)
    (packageId mainFunctionName relativePathtoMainFile serializedStarlark
      serializedJsonParams : String)
    (w : W) (enclaveComponents : EC) (instructionsPlanMask : InstructionsPlanMask EPI)
    (w1 : W) (plan1 : InstructionsPlan SI) (globalVariables : List (String × V))
    (value : V) (mainFunction : Fn) (inputArgs : V)
    (hexec : rt.interpretInternal w packageId
      (moduleLocatorOf rt packageId relativePathtoMainFile) serializedStarlark
      NewInstructionsPlan = (w1, plan1, .ok globalVariables))
    (hfound : globalVariables.lookup (entryFunctionName mainFunctionName) = some value)
    (hfn : rt.asFunction value = some mainFunction)
    (hdeser : rt.DeserializeArgs serializedJsonParams = .ok inputArgs)
    (hnotLegacy : ¬ ((mainFunctionName = "" ∨ mainFunctionName = runFunctionName)
      ∧ NumParams rt mainFunction = 2 ∧ Param rt mainFunction 1 = argsParamName)) :
    (rt.asDict inputArgs = none →
      (Interpret rt packageId mainFunctionName relativePathtoMainFile serializedStarlark
          serializedJsonParams w enclaveComponents instructionsPlanMask).plan = none
      ∧ (∃ e, (Interpret rt packageId mainFunctionName relativePathtoMainFile serializedStarlark
          serializedJsonParams w enclaveComponents instructionsPlanMask).err = some e)
      ∧ (Interpret rt packageId mainFunctionName relativePathtoMainFile serializedStarlark
          serializedJsonParams w enclaveComponents instructionsPlanMask).callArguments = none)
    ∧ (¬ ((mainFunctionName = "" ∨ mainFunctionName = runFunctionName)
          ∧ 1 ≤ NumParams rt mainFunction ∧ Param rt mainFunction 0 ≠ planParamName) →
        rt.asDict inputArgs = none →
        Interpret rt packageId mainFunctionName relativePathtoMainFile serializedStarlark
          serializedJsonParams w enclaveComponents instructionsPlanMask
          = { output := rt.NoOutputObject, plan := none,
              err := some (rt.ToAPIType (NewInterpretationError
                ("An error occurred casting input args '" ++ rt.stringOf inputArgs
                  ++ "' to Starlark Dict"))),
              world := w1, enclaveComponents := enclaveComponents,
              mask := instructionsPlanMask, callArguments := none })
    ∧ (¬ ((mainFunctionName = "" ∨ mainFunctionName = runFunctionName)
          ∧ 1 ≤ NumParams rt mainFunction ∧ Param rt mainFunction 0 ≠ planParamName) →
        ∀ items, rt.asDict inputArgs = some items →
        (Interpret rt packageId mainFunctionName relativePathtoMainFile serializedStarlark
          serializedJsonParams w enclaveComponents instructionsPlanMask).callArguments
          = some (if 1 ≤ NumParams rt mainFunction ∧ Param rt mainFunction 0 = planParamName
              then [rt.PlanModule] else [], items))
    ∧ (((mainFunctionName = "" ∨ mainFunctionName = runFunctionName)
          ∧ 1 ≤ NumParams rt mainFunction ∧ Param rt mainFunction 0 ≠ planParamName) →
        Interpret rt packageId mainFunctionName relativePathtoMainFile serializedStarlark
          serializedJsonParams w enclaveComponents instructionsPlanMask
          = { output := rt.NoOutputObject, plan := none,
              err := some (rt.ToAPIType (NewInterpretationError
                (unexpectedArgNameError 0 planParamName (Param rt mainFunction 0)))),
              world := w1, enclaveComponents := enclaveComponents,
              mask := instructionsPlanMask, callArguments := none }) := by
  have hinterp := Interpret_of_entry_function rt packageId mainFunctionName
    relativePathtoMainFile serializedStarlark serializedJsonParams w enclaveComponents
    instructionsPlanMask w1 plan1 globalVariables value mainFunction hexec hfound hfn
  rw [injectPlan_eq] at hinterp
  have hnl : ¬ (decide (mainFunctionName = "" ∨ mainFunctionName = runFunctionName) = true
      ∧ NumParams rt mainFunction = 2 ∧ Param rt mainFunction 1 = argsParamName) := by
    intro h
    exact hnotLegacy ⟨by simpa using h.1, h.2⟩
  have hrejected : ((mainFunctionName = "" ∨ mainFunctionName = runFunctionName)
      ∧ 1 ≤ NumParams rt mainFunction ∧ Param rt mainFunction 0 ≠ planParamName) →
      Interpret rt packageId mainFunctionName relativePathtoMainFile serializedStarlark
          serializedJsonParams w enclaveComponents instructionsPlanMask
        = { output := rt.NoOutputObject, plan := none,
            err := some (rt.ToAPIType (NewInterpretationError
              (unexpectedArgNameError 0 planParamName (Param rt mainFunction 0)))),
            world := w1, enclaveComponents := enclaveComponents,
            mask := instructionsPlanMask, callArguments := none } := by
    intro hrule
    rw [hinterp, if_pos ⟨by simpa using hrule.1, hrule.2⟩]
  have hpassed : ¬ ((mainFunctionName = "" ∨ mainFunctionName = runFunctionName)
      ∧ 1 ≤ NumParams rt mainFunction ∧ Param rt mainFunction 0 ≠ planParamName) →
      Interpret rt packageId mainFunctionName relativePathtoMainFile serializedStarlark
          serializedJsonParams w enclaveComponents instructionsPlanMask
        = callMainFunction rt serializedJsonParams
            (decide (mainFunctionName = "" ∨ mainFunctionName = runFunctionName)) mainFunction
            (if 1 ≤ NumParams rt mainFunction ∧ Param rt mainFunction 0 = planParamName
              then [rt.PlanModule] else [])
            plan1 w1 enclaveComponents instructionsPlanMask := by
    intro hrule
    rw [hinterp, if_neg (fun h => hrule ⟨by simpa using h.1, h.2⟩)]
  refine ⟨?_, ?_, ?_, hrejected⟩
  · intro hdict
    by_cases hrule : ((mainFunctionName = "" ∨ mainFunctionName = runFunctionName)
        ∧ 1 ≤ NumParams rt mainFunction ∧ Param rt mainFunction 0 ≠ planParamName)
    · rw [hrejected hrule]
      exact ⟨rfl, ⟨_, rfl⟩, rfl⟩
    · rw [hpassed hrule, callMainFunction_not_mapping rt serializedJsonParams _ mainFunction
        _ plan1 w1 enclaveComponents instructionsPlanMask inputArgs hdeser hnl hdict]
      exact ⟨rfl, ⟨_, rfl⟩, rfl⟩
  · intro hrule hdict
    rw [hpassed hrule]
    exact callMainFunction_not_mapping rt serializedJsonParams _ mainFunction
      _ plan1 w1 enclaveComponents instructionsPlanMask inputArgs hdeser hnl hdict
  · intro hrule items hdict
    rw [hpassed hrule]
    exact callMainFunction_keywords rt serializedJsonParams _ mainFunction
      _ plan1 w1 enclaveComponents instructionsPlanMask inputArgs items hdeser hnl hdict

/-- Scenario C, first half: the entry function `run(plan, a, b)` receives the plan handle
and the entries `a = 1` and `b = 2` as keyword arguments. -/
theorem keyword_argument_path_witness :
    (Interpret (demoRuntime [("run", .function ["plan", "a", "b"])]
          (.dict [("a", 1), ("b", 2)]))
        "DEFAULT_PACKAGE_ID_FOR_SCRIPT" "run" "" "script" "json" 0 0
        (NewInstructionsPlanMask 0)).callArguments
      = some ([DemoValue.planModule],
          [(DemoValue.str "a", DemoValue.int 1), (DemoValue.str "b", DemoValue.int 2)]) :=
  (keyword_argument_path (demoRuntime [("run", .function ["plan", "a", "b"])]
      (.dict [("a", 1), ("b", 2)]))
    "DEFAULT_PACKAGE_ID_FOR_SCRIPT" "run" "" "script" "json" 0 0 (NewInstructionsPlanMask 0)
    1 NewInstructionsPlan [("run", .function ["plan", "a", "b"])]
    (.function ["plan", "a", "b"]) ["plan", "a", "b"] (.dict [("a", 1), ("b", 2)])
    rfl rfl rfl rfl (by decide)).2.2.1 (by decide)
    [(DemoValue.str "a", DemoValue.int 1), (DemoValue.str "b", DemoValue.int 2)] rfl

end ArgumentBindingClaims

/-! ## The reconciliation algorithm: masks, rejections and accumulators -/

section MaskClaims

variable {SI EPI EC W AE : Type}

/-- The copy loop, given enough fuel, writes the history from `idx` on into the slots from
`copied` on, as far as the history and the mask go, and leaves the other slots and the
validity flag as they were. -/
theorem copyToMask_slots (H : List EPI) :
    ∀ (fuel idx copied : Nat) (mask : InstructionsPlanMask EPI),
      H.length - idx ≤ fuel → copied ≤ mask.slots.length →
      (copyToMask H fuel idx copied mask).2.isValid = mask.isValid
      ∧ ∀ j, (copyToMask H fuel idx copied mask).2.slots[j]?
          = if copied ≤ j ∧ j < mask.slots.length ∧ idx + (j - copied) < H.length
            then some (H[idx + (j - copied)]?) else mask.slots[j]? := by
  intro fuel
  induction fuel with
  | zero =>
    intro idx copied mask hfuel _
    refine ⟨rfl, fun j => ?_⟩
    rw [if_neg (by omega)]
    rfl
  | succ n ih =>
    intro idx copied mask hfuel hcopied
    unfold copyToMask
    cases hget : H[idx]? with
    | none =>
      have : H.length ≤ idx := List.getElem?_eq_none_iff.mp hget
      refine ⟨rfl, fun j => ?_⟩
      rw [if_neg (by omega)]
    | some e =>
      have hidx : idx < H.length := (List.getElem?_eq_some_iff.mp hget).1
      have hsz : mask.Size = mask.slots.length := rfl
      simp only []
      by_cases hfull : copied ≥ mask.Size
      · rw [if_pos hfull]
        refine ⟨rfl, fun j => ?_⟩
        rw [if_neg (by omega)]
      · rw [if_neg hfull]
        obtain ⟨h1, h2⟩ := ih (idx + 1) (copied + 1) (mask.InsertAt copied e) (by omega)
          (by simp only [InsertAt, List.length_set]; omega)
        refine ⟨by rw [h1]; rfl, fun j => ?_⟩
        rw [h2 j]
        simp only [InsertAt, List.length_set]
        by_cases hj : j = copied
        · subst hj
          rw [if_neg (by omega), if_pos ⟨le_refl _, by omega, by omega⟩]
          rw [List.getElem?_set, if_pos rfl, if_pos (by omega)]
          simp [hget]
        · rw [List.getElem?_set_ne (Ne.symm hj)]
          by_cases hlt : copied < j
          · have e1 : idx + 1 + (j - (copied + 1)) = idx + (j - copied) := by omega
            rw [e1]
            by_cases hc : j < mask.slots.length ∧ idx + (j - copied) < H.length
            · rw [if_pos ⟨by omega, hc.1, hc.2⟩, if_pos ⟨by omega, hc.1, hc.2⟩]
            · rw [if_neg (fun h => hc ⟨h.2.1, h.2.2⟩), if_neg (fun h => hc ⟨h.2.1, h.2.2⟩)]
          · rw [if_neg (by omega), if_neg (by omega)]

/-- The mask built for a match at index `i`: slot `j` holds what the history holds at
`i + j`, for every `j` below the length of the naive sequence, and the mask is valid. -/
theorem buildPotentialMask_eq (H : List EPI) (N : List SI) (i : Nat) :
    buildPotentialMask H N i
      = { slots := (List.range N.length).map (fun j => H[i + j]?), isValid := true } := by
  obtain ⟨h1, h2⟩ := copyToMask_slots H (H.length - i) i 0
    (NewInstructionsPlanMask N.length) (le_refl _) (Nat.zero_le _)
  have hslots : (buildPotentialMask H N i).slots
      = (List.range N.length).map (fun j => H[i + j]?) := by
    apply List.ext_getElem?
    intro j
    simp only [buildPotentialMask]
    rw [h2 j]
    simp only [NewInstructionsPlanMask, List.length_replicate, Nat.sub_zero,
      List.getElem?_map, List.getElem?_replicate]
    by_cases hj : j < N.length
    · rw [List.getElem?_range hj]
      by_cases hi : i + j < H.length
      · rw [if_pos ⟨Nat.zero_le _, hj, hi⟩]
        rfl
      · rw [if_neg (fun h => hi h.2.2), if_pos hj]
        simp only [Option.map_some']
        rw [List.getElem?_eq_none_iff.mpr (by omega)]
    · rw [if_neg (fun h => hj h.2.1), if_neg hj]
      rw [List.getElem?_eq_none_iff.mpr (by simp; omega)]
      rfl
  have hvalid : (buildPotentialMask H N i).isValid = true := by
    simp only [buildPotentialMask]
    rw [h1]
    rfl
  cases hm : buildPotentialMask H N i with
  | mk slots isValid =>
    rw [hm] at hslots hvalid
    simp only at hslots hvalid
    rw [hslots, hvalid]

/-- C20, mask construction. For every match at history index `i`, found in any loop state:
the masked interpretation of that iteration is handed the mask built for `i`, which is
fresh, of capacity `n` (the length of the unmasked sequence), valid, and in which slot `j`
holds the historical instruction at `i + j` for every `j < min(n, h - i)` while every other
slot is empty; it holds at most `n` overrides, and it depends on the history, on `n` and on
`i` alone, not on the loop state. -/
theorem mask_construction (c : Collaborators SI EPI EC W AE) (cep : EnclavePlan EPI)
    (N : List SI) (out : String) (s : LoopState EPI EC W) (i : Nat)
    (hmatch : findFirstEqualInstructionPastIndex c cep.GeneratePlan N
      s.firstPossibleIndexForMatchingInstruction = (i : Int)) :
    (loopBody c cep N out s = .inl (rejectedState c cep N s i)
      ∨ ∃ r, loopBody c cep N out s = .inr r ∧ r.calls = callsAfterAttempt cep N s i)
    ∧ callsAfterAttempt cep N s i
        = s.calls ++ [⟨s.enclaveComponents, buildPotentialMask cep.GeneratePlan N i⟩]
    ∧ attemptAt c cep N s i
        = c.Interpret s.world s.enclaveComponents (buildPotentialMask cep.GeneratePlan N i)
    ∧ buildPotentialMask cep.GeneratePlan N i
        = { slots := (List.range N.length).map (fun j => cep.GeneratePlan[i + j]?),
            isValid := true }
    ∧ (buildPotentialMask cep.GeneratePlan N i).Size = N.length
    ∧ (buildPotentialMask cep.GeneratePlan N i).IsValid = true
    ∧ (∀ j, j < min N.length (cep.Size - i) →
        ∃ e, cep.GeneratePlan[i + j]? = some e
          ∧ (buildPotentialMask cep.GeneratePlan N i).slots[j]? = some (some e))
    ∧ (∀ j, min N.length (cep.Size - i) ≤ j → j < N.length →
        (buildPotentialMask cep.GeneratePlan N i).slots[j]? = some none)
    ∧ ((buildPotentialMask cep.GeneratePlan N i).slots.filter Option.isSome).length
        ≤ N.length := by
  have hmask := buildPotentialMask_eq cep.GeneratePlan N i
  have hsize : (buildPotentialMask cep.GeneratePlan N i).slots.length = N.length := by
    rw [hmask]
    simp
  have hlen : cep.GeneratePlan.length = cep.Size := rfl
  refine ⟨?_, rfl, rfl, hmask, hsize, by rw [hmask]; rfl, ?_, ?_, ?_⟩
  · rcases loopBody_cases c cep N out s with
      ⟨h1, _, _⟩ | ⟨i', h1, _, _, _, _, ⟨_, h⟩ | ⟨o, p, _, _, ⟨e, _, h⟩ | ⟨seq, _, h⟩⟩⟩
    · rw [hmatch] at h1; omega
    · have hi : i' = i := by rw [hmatch] at h1; omega
      subst hi
      exact Or.inl h
    · have hi : i' = i := by rw [hmatch] at h1; omega
      subst hi
      exact Or.inr ⟨_, h, rfl⟩
    · have hi : i' = i := by rw [hmatch] at h1; omega
      subst hi
      exact Or.inr ⟨_, h, rfl⟩
  · intro j hj
    have hj1 : j < N.length := by omega
    have hj2 : i + j < cep.GeneratePlan.length := by omega
    refine ⟨cep.GeneratePlan[i + j], List.getElem?_eq_getElem hj2, ?_⟩
    rw [hmask]
    simp only [List.getElem?_map, List.getElem?_range hj1, Option.map_some']
    rw [List.getElem?_eq_getElem hj2]
  · intro j hj hjn
    rw [hmask]
    simp only [List.getElem?_map, List.getElem?_range hjn, Option.map_some']
    rw [List.getElem?_eq_none_iff.mpr (by omega)]
  · calc ((buildPotentialMask cep.GeneratePlan N i).slots.filter Option.isSome).length
        ≤ (buildPotentialMask cep.GeneratePlan N i).slots.length := List.length_filter_le _ _
      _ = N.length := hsize

/-- A script generating 1 and 2 against the history 1, 3, 1: for the match at index 1 the
mask holds the historical instructions 3 and 1. -/
theorem mask_construction_witness :
    buildPotentialMask (⟨[1, 3, 1]⟩ : EnclavePlan Nat).GeneratePlan [1, 2] 1
      = { slots := (List.range ([1, 2] : List Nat).length).map
            (fun j => (⟨[1, 3, 1]⟩ : EnclavePlan Nat).GeneratePlan[1 + j]?),
          isValid := true } :=
  (mask_construction (scripted [1, 2] .replay) ⟨[1, 3, 1]⟩ [1, 2] "naive"
    (initialLoopState (scripted [1, 2] .replay) ⟨[1, 3, 1]⟩ (planOf 0 [1, 2])
      (unmaskedProbe (scripted [1, 2] .replay) 0)) 1 (by decide)).2.2.2.1

/-- C19 as stated fails: with the cursor at 1 and the match found at index 2, a rejection
moves the cursor to 2, not to 3, and the index 2 is probed a second time with the same
mask. -/
theorem rejection_step_counterexample :
    (initialLoopState (scripted [1, 2] .rejectEvery) ⟨[70, 80, 1]⟩ (planOf 0 [1, 2])
        (unmaskedProbe (scripted [1, 2] .rejectEvery) 0)).firstPossibleIndexForMatchingInstruction
      = 1
    ∧ findFirstEqualInstructionPastIndex (scripted [1, 2] .rejectEvery) [70, 80, 1] [1, 2] 1
      = 2
    ∧ (loopStateAfter (scripted [1, 2] .rejectEvery) ⟨[70, 80, 1]⟩ [1, 2] "naive" 1
        (initialLoopState (scripted [1, 2] .rejectEvery) ⟨[70, 80, 1]⟩ (planOf 0 [1, 2])
          (unmaskedProbe (scripted [1, 2] .rejectEvery) 0))).map
        (fun s => s.firstPossibleIndexForMatchingInstruction) = some 2
    ∧ InterpretAndOptimizePlan (scripted [1, 2] .rejectEvery) 0 ⟨[70, 80, 1]⟩
      = some { output := "naive", plan := some (planOf 3 [1, 2]), err := none,
               calls := [⟨0, NewInstructionsPlanMask 0⟩, ⟨2, ⟨[some 1, none], true⟩⟩,
                         ⟨4, ⟨[some 1, none], true⟩⟩] } := by
  decide

/-- C19, amended (rejection step). Whenever a masked interpretation for a match found at
history index `i` returns an error or ends with the mask invalid, the loop continues with
the cursor moved by one position, which is at most `i + 1` and is `i + 1` exactly when the
cursor was at `i`; when the cursor was before `i`, the next scan finds the index `i` again
and the same mask is built and probed again. -/
theorem rejection_step (c : Collaborators SI EPI EC W AE) (cep : EnclavePlan EPI)
    (N : List SI) (out : String) (s : LoopState EPI EC W) (i : Nat)
    (hmatch : findFirstEqualInstructionPastIndex c cep.GeneratePlan N
      s.firstPossibleIndexForMatchingInstruction = (i : Int))
    (hrej : accepted (attemptAt c cep N s i) = false) :
    loopBody c cep N out s = .inl (rejectedState c cep N s i)
    ∧ (rejectedState c cep N s i).firstPossibleIndexForMatchingInstruction
        = s.firstPossibleIndexForMatchingInstruction + 1
    ∧ (rejectedState c cep N s i).firstPossibleIndexForMatchingInstruction ≤ i + 1
    ∧ ((rejectedState c cep N s i).firstPossibleIndexForMatchingInstruction = i + 1
        ↔ s.firstPossibleIndexForMatchingInstruction = i)
    ∧ (s.firstPossibleIndexForMatchingInstruction < i →
        findFirstEqualInstructionPastIndex c cep.GeneratePlan N
            (rejectedState c cep N s i).firstPossibleIndexForMatchingInstruction = (i : Int)
        ∧ attemptAt c cep N (rejectedState c cep N s i) i
            = c.Interpret (attemptAt c cep N s i).world
                (attemptAt c cep N s i).enclaveComponents
                (buildPotentialMask cep.GeneratePlan N i)) := by
  have hcur : (rejectedState c cep N s i).firstPossibleIndexForMatchingInstruction
      = s.firstPossibleIndexForMatchingInstruction + 1 := rfl
  have hspec : s.firstPossibleIndexForMatchingInstruction ≤ i
      ∧ resolvesAt c cep.GeneratePlan N i = true
      ∧ ∀ j, s.firstPossibleIndexForMatchingInstruction ≤ j → j < i →
          resolvesAt c cep.GeneratePlan N j = false := by
    rcases findFirst_spec c cep.GeneratePlan N
        s.firstPossibleIndexForMatchingInstruction with
      ⟨h1, _⟩ | ⟨i', h1, h2, _, h4, h5⟩
    · rw [hmatch] at h1; omega
    · have hi : i' = i := by rw [hmatch] at h1; omega
      subst hi
      exact ⟨h2, h4, h5⟩
  obtain ⟨hle, hres, hnone⟩ := hspec
  refine ⟨loopBody_of_rejected c cep N out s i hmatch hrej, hcur, by omega, by omega, ?_⟩
  intro hlt
  refine ⟨?_, rfl⟩
  rw [hcur]
  rcases findFirst_spec c cep.GeneratePlan N
      (s.firstPossibleIndexForMatchingInstruction + 1) with
    ⟨_, h2⟩ | ⟨i', h1, h2, _, h4, h5⟩
  · have := h2 i (by omega)
    rw [hres] at this
    cases this
  · have hi : i' = i := by
      rcases Nat.lt_trichotomy i' i with hlt' | heq | hgt
      · have := hnone i' (by omega) hlt'
        rw [h4] at this
        cases this
      · exact heq
      · have := h5 i (by omega) hgt
        rw [hres] at this
        cases this
    rw [h1, hi]

/-- A script generating 1 and 2 whose masked interpretations are all rejected, against the
history 70, 80, 1: after the rejection of the match at index 2, found from the cursor 1, the
loop continues with the cursor at 2. -/
theorem rejection_step_witness :
    loopBody (scripted [1, 2] .rejectEvery) ⟨[70, 80, 1]⟩ [1, 2] "naive"
        (initialLoopState (scripted [1, 2] .rejectEvery) ⟨[70, 80, 1]⟩ (planOf 0 [1, 2])
          (unmaskedProbe (scripted [1, 2] .rejectEvery) 0))
      = .inl (rejectedState (scripted [1, 2] .rejectEvery) ⟨[70, 80, 1]⟩ [1, 2]
          (initialLoopState (scripted [1, 2] .rejectEvery) ⟨[70, 80, 1]⟩ (planOf 0 [1, 2])
            (unmaskedProbe (scripted [1, 2] .rejectEvery) 0)) 2) :=
  (rejection_step (scripted [1, 2] .rejectEvery) ⟨[70, 80, 1]⟩ [1, 2] "naive"
    (initialLoopState (scripted [1, 2] .rejectEvery) ⟨[70, 80, 1]⟩ (planOf 0 [1, 2])
      (unmaskedProbe (scripted [1, 2] .rejectEvery) 0)) 2 (by decide) (by decide)).1

/-- A loop state reached after `k + 1` iterations comes, by one `continue`, from a loop
state reached after `k` iterations. -/
theorem loopStateAfter_succ_inv (c : Collaborators SI EPI EC W AE) (cep : EnclavePlan EPI)
    (N : List SI) (out : String) :
    ∀ (k : Nat) (s0 s : LoopState EPI EC W),
      loopStateAfter c cep N out (k + 1) s0 = some s →
      ∃ prev, loopStateAfter c cep N out k s0 = some prev
        ∧ loopBody c cep N out prev = .inl s := by
  intro k
  induction k with
  | zero =>
    intro s0 s h
    cases hbody : loopBody c cep N out s0 with
    | inr r => simp [loopStateAfter, hbody] at h
    | inl next =>
      simp only [loopStateAfter, hbody] at h
      cases h
      exact ⟨s0, rfl, hbody⟩
  | succ n ih =>
    intro s0 s h
    cases hbody : loopBody c cep N out s0 with
    | inr r => simp [loopStateAfter, hbody] at h
    | inl mid =>
      have h' : loopStateAfter c cep N out (n + 1) mid = some s := by
        simpa only [loopStateAfter, hbody] using h
      obtain ⟨prev, hp1, hp2⟩ := ih mid s h'
      refine ⟨prev, ?_, hp2⟩
      simp only [loopStateAfter, hbody]
      exact hp1

theorem getElem?_snoc_cases {α : Type} (l : List α) (x : α) (P : Nat → α → Prop)
    (hold : ∀ j a, l[j]? = some a → P j a) (hnew : P l.length x) :
    ∀ j a, (l ++ [x])[j]? = some a → P j a := by
  intro j a h
  by_cases hj : j < l.length
  · rw [List.getElem?_append_left hj] at h
    exact hold j a h
  · rw [List.getElem?_append_right (by omega)] at h
    have hz : j - l.length = 0 := by
      by_contra hne
      rw [List.getElem?_eq_none_iff.mpr (by simp; omega)] at h
      cases h
    rw [hz] at h
    simp at h
    have hjl : j = l.length := by omega
    subst hjl
    rw [← h]
    exact hnew

/-- C16 as stated fails: the first masked interpretation is handed the enclave components
as the unmasked interpretation left them (2 recorded components), not fresh ones (0), and the
second masked interpretation is handed what the first one left (4). -/
theorem accumulator_isolation_counterexample :
    (scripted [1, 2] .replay).NewEnclaveComponents = 0
    ∧ (unmaskedProbe (scripted [1, 2] .replay) 0).enclaveComponents = 2
    ∧ InterpretAndOptimizePlan (scripted [1, 2] .replay) 0 ⟨[1, 3, 1]⟩
      = some { output := "masked", plan := some (planOf 2 [1, 2]), err := none,
               calls := [⟨0, NewInstructionsPlanMask 0⟩, ⟨2, ⟨[some 3, some 1], true⟩⟩,
                         ⟨4, ⟨[some 1, none], true⟩⟩] } := by
  decide

/-- C16, amended. `InterpretAndOptimizePlan` creates one enclave components object: the
unmasked interpretation is handed it fresh, the first masked interpretation is handed it as
the unmasked interpretation left it, and every later masked interpretation is handed it as
the masked interpretation before it left it. So when each interpretation changes the
enclave components by `f`, the call number `j` of `Interpret` is handed `f` applied `j`
times to fresh enclave components. -/
theorem accumulator_shared_across_probes (c : Collaborators SI EPI EC W AE) (w w1 : W)
    (cep : EnclavePlan EPI) (out : String) (naivePlan : InstructionsPlan SI) (N : List SI)
    (hclone : c.CloneReplacedPackagesIfNeeded w = (w1, none))
    (hprobe : (unmaskedProbe c w1).result = .ok (out, naivePlan))
    (hfreeze : naivePlan.GeneratePlan = .ok N) :
    (∀ r, InterpretAndOptimizePlan c w cep = some r →
        r.calls.head? = some ⟨c.NewEnclaveComponents, NewInstructionsPlanMask 0⟩)
    ∧ (initialLoopState c cep naivePlan (unmaskedProbe c w1)).enclaveComponents
        = (unmaskedProbe c w1).enclaveComponents
    ∧ (∀ k s, loopStateAfter c cep N out (k + 1) (initialLoopState c cep naivePlan (unmaskedProbe c w1)) = some s →
        ∃ (prev : LoopState EPI EC W) (i : Nat),
          loopStateAfter c cep N out k
              (initialLoopState c cep naivePlan (unmaskedProbe c w1)) = some prev
          ∧ findFirstEqualInstructionPastIndex c cep.GeneratePlan N
              prev.firstPossibleIndexForMatchingInstruction = (i : Int)
          ∧ s.enclaveComponents = (attemptAt c cep N prev i).enclaveComponents)
    ∧ (∀ s i, attemptAt c cep N s i
        = c.Interpret s.world s.enclaveComponents (buildPotentialMask cep.GeneratePlan N i))
    ∧ (∀ f : EC → EC,
        (∀ (w' : W) (ec : EC) (m : InstructionsPlanMask EPI),
          (c.Interpret w' ec m).enclaveComponents = f ec) →
        ∀ r, InterpretAndOptimizePlan c w cep = some r →
        ∀ j call, r.calls[j]? = some call →
          call.enclaveComponents = Nat.iterate f j c.NewEnclaveComponents) := by
  have hloop :=
    InterpretAndOptimizePlan_eq_loop c w w1 cep out naivePlan N hclone hprobe hfreeze
  refine ⟨?_, rfl, ?_, fun s i => rfl, ?_⟩
  · intro r hr
    rw [hloop] at hr
    refine optimizeLoop_invariant c cep N out
      (fun s => s.calls.head? = some ⟨c.NewEnclaveComponents, NewInstructionsPlanMask 0⟩)
      (fun r => r.calls.head? = some ⟨c.NewEnclaveComponents, NewInstructionsPlanMask 0⟩)
      ?_ ?_ (cep.Size + 1) (initialLoopState c cep naivePlan (unmaskedProbe c w1)) r rfl hr
    · intro s next hinv hbody
      obtain ⟨i, _, _, _, _, _, g6⟩ := loopBody_inl c cep N out s next hbody
      rw [g6]
      simp only [rejectedState, callsAfterAttempt]
      cases hc : s.calls with
      | nil => rw [hc] at hinv; cases hinv
      | cons a t => rw [hc] at hinv; simpa using hinv
    · intro s r hinv hbody
      have happ : ∀ i, (callsAfterAttempt cep N s i).head?
          = some ⟨c.NewEnclaveComponents, NewInstructionsPlanMask 0⟩ := by
        intro i
        simp only [callsAfterAttempt]
        cases hc : s.calls with
        | nil => rw [hc] at hinv; cases hinv
        | cons a t => rw [hc] at hinv; simpa using hinv
      rcases loopBody_cases c cep N out s with
        ⟨_, _, h⟩ | ⟨i, _, _, _, _, _, ⟨_, h⟩ | ⟨o, p, _, _, ⟨e, _, h⟩ | ⟨seq, _, h⟩⟩⟩
      · rw [h] at hbody
        cases hbody
        exact hinv
      · rw [h] at hbody
        cases hbody
      · rw [h] at hbody
        cases hbody
        exact happ i
      · rw [h] at hbody
        cases hbody
        exact happ i
  · intro k s hs
    obtain ⟨prev, hp1, hp2⟩ := loopStateAfter_succ_inv c cep N out k _ s hs
    rcases loopBody_cases c cep N out prev with
      ⟨_, _, h⟩ | ⟨i, h1, _, _, _, _, ⟨_, h⟩ | ⟨o, p, _, _, ⟨e, _, h⟩ | ⟨seq, _, h⟩⟩⟩
    · rw [h] at hp2
      cases hp2
    · rw [h] at hp2
      cases hp2
      exact ⟨prev, i, hp1, h1, rfl⟩
    · rw [h] at hp2
      cases hp2
    · rw [h] at hp2
      cases hp2
  · intro f hf r hr
    rw [hloop] at hr
    refine optimizeLoop_invariant c cep N out
      (fun s => s.enclaveComponents = Nat.iterate f s.calls.length c.NewEnclaveComponents
        ∧ ∀ j call, s.calls[j]? = some call →
            call.enclaveComponents = Nat.iterate f j c.NewEnclaveComponents)
      (fun r => ∀ j call, r.calls[j]? = some call →
            call.enclaveComponents = Nat.iterate f j c.NewEnclaveComponents)
      ?_ ?_ (cep.Size + 1) (initialLoopState c cep naivePlan (unmaskedProbe c w1)) r ?_ hr
    · intro s next hinv hbody
      obtain ⟨h1, h2⟩ := hinv
      obtain ⟨i, _, _, _, _, _, g6⟩ := loopBody_inl c cep N out s next hbody
      rw [g6]
      simp only [rejectedState, callsAfterAttempt, attemptAt]
      refine ⟨?_, ?_⟩
      · rw [hf, List.length_append, List.length_singleton, Function.iterate_succ_apply', h1]
      · exact getElem?_snoc_cases s.calls _
          (fun j call => call.enclaveComponents = Nat.iterate f j c.NewEnclaveComponents)
          h2 h1
    · intro s r hinv hbody
      obtain ⟨h1, h2⟩ := hinv
      have happ : ∀ i j call, (callsAfterAttempt cep N s i)[j]? = some call →
          call.enclaveComponents = Nat.iterate f j c.NewEnclaveComponents := by
        intro i
        simp only [callsAfterAttempt]
        exact getElem?_snoc_cases s.calls _
          (fun j call => call.enclaveComponents = Nat.iterate f j c.NewEnclaveComponents)
          h2 h1
      rcases loopBody_cases c cep N out s with
        ⟨_, _, h⟩ | ⟨i, _, _, _, _, _, ⟨_, h⟩ | ⟨o, p, _, _, ⟨e, _, h⟩ | ⟨seq, _, h⟩⟩⟩
      · rw [h] at hbody
        cases hbody
        exact h2
      · rw [h] at hbody
        cases hbody
      · rw [h] at hbody
        cases hbody
        exact happ i
      · rw [h] at hbody
        cases hbody
        exact happ i
    · refine ⟨?_, ?_⟩
      · simp only [initialLoopState, unmaskedProbe, List.length_singleton]
        rw [hf]
        rfl
      · intro j call hj
        simp only [initialLoopState] at hj
        cases j with
        | zero =>
          simp at hj
          rw [← hj]
          rfl
        | succ m => simp at hj

/-- The replaying interpreter on a script generating 1 and 2, each interpretation recording
two components: the second call of `Interpret`, which is the first masked one, is handed 2
recorded components, that is, what one interpretation leaves of fresh ones. -/
theorem accumulator_shared_across_probes_witness :
    (⟨2, ⟨[some 3, some 1], true⟩⟩ : InterpretCall Nat Nat).enclaveComponents
      = Nat.iterate (fun ec => ec + 2) 1 (scripted [1, 2] .replay).NewEnclaveComponents :=
  (accumulator_shared_across_probes (scripted [1, 2] .replay) 0 0 ⟨[1, 3, 1]⟩ "naive"
    (planOf 0 [1, 2]) [1, 2] rfl rfl rfl).2.2.2.2 (fun ec => ec + 2)
    (by
      intro w ec m
      by_cases hw : w = 0 <;> simp [scripted, hw])
    { output := "masked", plan := some (planOf 2 [1, 2]), err := none,
      calls := [⟨0, NewInstructionsPlanMask 0⟩, ⟨2, ⟨[some 3, some 1], true⟩⟩,
                ⟨4, ⟨[some 1, none], true⟩⟩] }
    (by decide) 1 ⟨2, ⟨[some 3, some 1], true⟩⟩ rfl

/-- C17 as stated fails: against an empty enclave plan the plan returned holds the
instruction generated by the script, which is not an instruction of the enclave plan. -/
theorem returned_plan_subset_counterexample :
    InterpretAndOptimizePlan (scripted [1] .replay) 0 ⟨[]⟩
      = some { output := "naive", plan := some (planOf 0 [1]), err := none,
               calls := [⟨0, NewInstructionsPlanMask 0⟩] }
    ∧ ¬ (∀ x ∈ (planOf 0 [1] : InstructionsPlan Nat).scheduledInstructions,
          x ∈ (⟨[]⟩ : EnclavePlan Nat).GeneratePlan) := by
  decide

/-- C17, amended. For every return of `InterpretAndOptimizePlan` with a plan, the body of
the plan is a sequence generated by an interpretation of the script: either the unmasked
sequence `N`, with first-instruction index `h` (the fallback), or the sequence into which
the plan of an accepted masked interpretation freezes, with the index of its match. In
particular, against an empty enclave plan the body is the whole of `N`, so the body need
not be contained in the enclave plan. -/
theorem returned_plan_body (c : Collaborators SI EPI EC W AE) (w w1 : W)
    (cep : EnclavePlan EPI) (out : String) (naivePlan : InstructionsPlan SI) (N : List SI)
    (hclone : c.CloneReplacedPackagesIfNeeded w = (w1, none))
    (hprobe : (unmaskedProbe c w1).result = .ok (out, naivePlan))
    (hfreeze : naivePlan.GeneratePlan = .ok N) :
    (∀ r p, InterpretAndOptimizePlan c w cep = some r → r.plan = some p →
        (p = planOf (cep.Size : Int) N ∧ r.output = out)
        ∨ ∃ (k : Nat) (s : LoopState EPI EC W) (i : Nat) (o : String)
            (q : InstructionsPlan SI),
            loopStateAfter c cep N out k (initialLoopState c cep naivePlan (unmaskedProbe c w1)) = some s
              ∧ findFirstEqualInstructionPastIndex c cep.GeneratePlan N
                  s.firstPossibleIndexForMatchingInstruction = (i : Int)
              ∧ (attemptAt c cep N s i).result = .ok (o, q)
              ∧ (attemptAt c cep N s i).mask.IsValid = true
              ∧ q.GeneratePlan = .ok p.scheduledInstructions
              ∧ p = planOf (i : Int) p.scheduledInstructions ∧ r.output = o)
    ∧ (cep.GeneratePlan = [] →
        InterpretAndOptimizePlan c w cep
          = some { output := out, plan := some (planOf 0 N), err := none,
                   calls := [⟨c.NewEnclaveComponents, NewInstructionsPlanMask 0⟩] }) := by
  have hloop :=
    InterpretAndOptimizePlan_eq_loop c w w1 cep out naivePlan N hclone hprobe hfreeze
  refine ⟨?_, ?_⟩
  · intro r p hr hp
    rw [hloop] at hr
    exact optimizeLoop_invariant c cep N out
      (fun s => ∃ k, loopStateAfter c cep N out k (initialLoopState c cep naivePlan (unmaskedProbe c w1)) = some s)
      (fun r => ∀ p, r.plan = some p →
        (p = planOf (cep.Size : Int) N ∧ r.output = out)
        ∨ ∃ (k : Nat) (s : LoopState EPI EC W) (i : Nat) (o : String)
            (q : InstructionsPlan SI),
            loopStateAfter c cep N out k (initialLoopState c cep naivePlan (unmaskedProbe c w1)) = some s
              ∧ findFirstEqualInstructionPastIndex c cep.GeneratePlan N
                  s.firstPossibleIndexForMatchingInstruction = (i : Int)
              ∧ (attemptAt c cep N s i).result = .ok (o, q)
              ∧ (attemptAt c cep N s i).mask.IsValid = true
              ∧ q.GeneratePlan = .ok p.scheduledInstructions
              ∧ p = planOf (i : Int) p.scheduledInstructions ∧ r.output = o)
      (by
        intro s next hinv hbody
        obtain ⟨k, hk⟩ := hinv
        exact ⟨k + 1, loopStateAfter_snoc c cep N out k _ s next hk hbody⟩)
      (by
        intro s r hinv hbody p hp
        obtain ⟨k, hk⟩ := hinv
        rcases loopBody_cases c cep N out s with
          ⟨_, _, h⟩ | ⟨i, g1, _, _, _, _, ⟨_, h⟩ | ⟨o, q, g6, g7, ⟨e, _, h⟩ | ⟨seq, g8, h⟩⟩⟩
        · rw [h] at hbody
          cases hbody
          cases hp
          exact Or.inl ⟨rfl, rfl⟩
        · rw [h] at hbody
          cases hbody
        · rw [h] at hbody
          cases hbody
          cases hp
        · rw [h] at hbody
          cases hbody
          cases hp
          exact Or.inr ⟨k, s, i, o, q, hk, g1, g6, g7, g8, rfl, rfl⟩)
      (cep.Size + 1) (initialLoopState c cep naivePlan (unmaskedProbe c w1)) r ⟨0, rfl⟩ hr p hp
  · intro hempty
    rw [hloop]
    apply optimizeLoop_of_inr
    have hsize : cep.Size = 0 := by
      have : cep.GeneratePlan.length = cep.Size := rfl
      rw [hempty] at this
      exact this.symm
    rcases loopBody_cases c cep N out (initialLoopState c cep naivePlan (unmaskedProbe c w1)) with
      ⟨_, _, h⟩ | ⟨i, _, _, h3, _⟩
    · rw [h, hsize]
      rfl
    · omega

/-- Scenario A: against an empty enclave plan the plan returned holds the one instruction
the script generates. -/
theorem returned_plan_body_witness :
    InterpretAndOptimizePlan (scripted [1] .replay) 0 ⟨[]⟩
      = some { output := "naive", plan := some (planOf 0 [1]), err := none,
               calls := [⟨(scripted [1] .replay).NewEnclaveComponents,
                          NewInstructionsPlanMask 0⟩] } :=
  (returned_plan_body (scripted [1] .replay) 0 0 ⟨[]⟩ "naive" (planOf 0 [1]) [1]
    rfl rfl rfl).2 rfl

end MaskClaims

/-! ## The import closure of `buildBindings`: properties -/

section ImportClosureClaims

variable {SI EPI EC W V Fn AE : Type}

theorem AddPackageDependency_dependencies (plan : InstructionsPlan SI) (dependency : String) :
    (plan.AddPackageDependency dependency).packageDependencies
        = (if dependency ∈ plan.packageDependencies then plan.packageDependencies
            else plan.packageDependencies ++ [dependency])
    ∧ (plan.AddPackageDependency dependency).scheduledInstructions
        = plan.scheduledInstructions
    ∧ (plan.AddPackageDependency dependency).indexOfFirstInstruction
        = plan.indexOfFirstInstruction
    ∧ (plan.AddPackageDependency dependency).deferredError = plan.deferredError := by
  unfold InstructionsPlan.AddPackageDependency
  by_cases h : dependency ∈ plan.packageDependencies
  · simp [h]
  · simp [h]

/-- C18, dependency edges on import. For a package id with prefix `packagePrefix` and an
imported module id with prefix `modulePrefix`, the import closure built by `buildBindings`
executes the module on the shared plan `recorded`, which is the plan it was given with the
dependency `modulePrefix` added when `modulePrefix ≠ packagePrefix`, and the plan it was
given, unchanged, when the two prefixes are equal: the dependencies of `recorded` are those
of the plan together with `modulePrefix` exactly when the prefixes differ, and its
instructions are those of the plan. The result of the closure is the result of that
execution, be it a success or an error, so the recording does not depend on it. -/
theorem dependency_edges_on_import (rt : StarlarkRuntime SI EPI EC W V Fn AE)
    (packageId packagePrefix moduleId modulePrefix serializedStartosis : String) (w : W)
    (plan : InstructionsPlan SI)
    (hpackage : getModulePrefix packageId = some packagePrefix)
    (hmodule : getModulePrefix moduleId = some modulePrefix) :
    ∃ closure, buildBindingsImportClosure rt packageId = some closure
      ∧ ∃ recorded : InstructionsPlan SI,
          closure w plan moduleId serializedStartosis
            = some (rt.interpretInternal w packageId moduleId serializedStartosis recorded)
          ∧ (modulePrefix ≠ packagePrefix →
              recorded = plan.AddPackageDependency modulePrefix
              ∧ modulePrefix ∈ recorded.packageDependencies)
          ∧ (modulePrefix = packagePrefix → recorded = plan)
          ∧ (∀ d, d ∈ recorded.packageDependencies
              ↔ d ∈ plan.packageDependencies
                ∨ (d = modulePrefix ∧ modulePrefix ≠ packagePrefix))
          ∧ recorded.scheduledInstructions = plan.scheduledInstructions
          ∧ recorded.indexOfFirstInstruction = plan.indexOfFirstInstruction := by
  refine ⟨recursiveInterpretForModuleLoading rt packageId packagePrefix, ?_,
    if modulePrefix ≠ packagePrefix then plan.AddPackageDependency modulePrefix else plan,
    ?_, ?_, ?_, ?_, ?_, ?_⟩
  · simp [buildBindingsImportClosure, hpackage]
  · simp only [recursiveInterpretForModuleLoading, hmodule]
    rcases hres : rt.interpretInternal w packageId moduleId serializedStartosis
        (if modulePrefix ≠ packagePrefix then plan.AddPackageDependency modulePrefix
          else plan) with ⟨w', plan', res⟩
    cases res <;> rfl
  · intro hne
    rw [if_pos hne]
    refine ⟨rfl, ?_⟩
    rw [(AddPackageDependency_dependencies plan modulePrefix).1]
    by_cases h : modulePrefix ∈ plan.packageDependencies
    · rw [if_pos h]
      exact h
    · rw [if_neg h]
      simp
  · intro heq
    rw [if_neg (fun hne => hne heq)]
  · intro d
    by_cases hne : modulePrefix ≠ packagePrefix
    · rw [if_pos hne, (AddPackageDependency_dependencies plan modulePrefix).1]
      by_cases h : modulePrefix ∈ plan.packageDependencies
      · rw [if_pos h]
        constructor
        · exact Or.inl
        · rintro (hd | ⟨hd, _⟩)
          · exact hd
          · rw [hd]
            exact h
      · rw [if_neg h]
        simp only [List.mem_append, List.mem_singleton]
        constructor
        · rintro (hd | hd)
          · exact Or.inl hd
          · exact Or.inr ⟨hd, hne⟩
        · rintro (hd | ⟨hd, _⟩)
          · exact Or.inl hd
          · exact Or.inr hd
    · rw [if_neg hne]
      constructor
      · exact Or.inl
      · rintro (hd | ⟨_, hd⟩)
        · exact hd
        · exact absurd hd hne
  · by_cases hne : modulePrefix ≠ packagePrefix
    · rw [if_pos hne]
      exact (AddPackageDependency_dependencies plan modulePrefix).2.1
    · rw [if_neg hne]
  · by_cases hne : modulePrefix ≠ packagePrefix
    · rw [if_pos hne]
      exact (AddPackageDependency_dependencies plan modulePrefix).2.2.1
    · rw [if_neg hne]

/-- A module of the postgres package imported from another package, by a runtime in which
the execution of the module fails: the dependency is on the plan all the same. -/
theorem dependency_edges_on_import_witness :
    ∃ closure, buildBindingsImportClosure failingModuleRuntime
          "github.com/kurtosis-tech/my-package" = some closure
      ∧ ∃ recorded : InstructionsPlan Nat,
          closure 0 NewInstructionsPlan
              "github.com/kurtosis-tech/postgres-package/main.star" "text"
            = some (failingModuleRuntime.interpretInternal 0
                "github.com/kurtosis-tech/my-package"
                "github.com/kurtosis-tech/postgres-package/main.star" "text" recorded)
          ∧ ("github.com/kurtosis-tech/postgres-package"
                ≠ "github.com/kurtosis-tech/my-package" →
              recorded = (NewInstructionsPlan : InstructionsPlan Nat).AddPackageDependency
                  "github.com/kurtosis-tech/postgres-package"
              ∧ "github.com/kurtosis-tech/postgres-package" ∈ recorded.packageDependencies)
          ∧ ("github.com/kurtosis-tech/postgres-package"
                = "github.com/kurtosis-tech/my-package" → recorded = NewInstructionsPlan)
          ∧ (∀ d, d ∈ recorded.packageDependencies
              ↔ d ∈ (NewInstructionsPlan : InstructionsPlan Nat).packageDependencies
                ∨ (d = "github.com/kurtosis-tech/postgres-package"
                    ∧ "github.com/kurtosis-tech/postgres-package"
                      ≠ "github.com/kurtosis-tech/my-package"))
          ∧ recorded.scheduledInstructions
              = (NewInstructionsPlan : InstructionsPlan Nat).scheduledInstructions
          ∧ recorded.indexOfFirstInstruction
              = (NewInstructionsPlan : InstructionsPlan Nat).indexOfFirstInstruction :=
  dependency_edges_on_import failingModuleRuntime "github.com/kurtosis-tech/my-package"
    "github.com/kurtosis-tech/my-package"
    "github.com/kurtosis-tech/postgres-package/main.star"
    "github.com/kurtosis-tech/postgres-package" "text" 0 NewInstructionsPlan
    (by decide) (by decide)

end ImportClosureClaims

/-! ## `findFirstEqualInstructionPastIndex`: properties -/

section SearchClaims

variable {SI EPI EC W AE : Type}

/-- What it is for the historical instruction at index `j` to resolve against the first naive
instruction, in terms of the resolution status. -/
theorem resolvesAt_cons_iff (c : Collaborators SI EPI EC W AE) (H : List EPI) (first : SI)
    (rest : List SI) (j : Nat) :
    resolvesAt c H (first :: rest) j = true
      ↔ ∃ e, H[j]? = some e
          ∧ (c.TryResolveWith first e c.NewEnclaveComponents = .InstructionIsEqual
            ∨ c.TryResolveWith first e c.NewEnclaveComponents = .InstructionIsUpdate) := by
  cases hget : H[j]? with
  | none => simp [resolvesAt, hget]
  | some e => simp [resolvesAt, hget, resolvesWith]

/-- C21, `findFirstEqualInstructionPastIndex(H, N, m)` for `m >= 0`: on an empty `N` it
returns -1, whatever `H` and `m`; on `N = first :: rest` it returns `i` exactly when `i` is
the least index with `m <= i < len(H)` at which `first` resolves against `H[i]` as Equal or
Update, and -1 exactly when there is no such index, which is the case when `m >= len(H)`.
The result is -1 or lies in `[m, len(H))`, and at every index of `[m, result)` the resolution
gives neither Equal nor Update, which for the tri-state outcome is Different. -/
theorem find_first_equal_instruction_past_index (c : Collaborators SI EPI EC W AE)
    (H : List EPI) (N : List SI) (m : Nat) :
    findFirstEqualInstructionPastIndex c H ([] : List SI) m = -1
    ∧ (∀ i : Nat, findFirstEqualInstructionPastIndex c H N m = (i : Int)
        ↔ (m ≤ i ∧ i < H.length
          ∧ (∃ first e, N.head? = some first ∧ H[i]? = some e
              ∧ (c.TryResolveWith first e c.NewEnclaveComponents = .InstructionIsEqual
                ∨ c.TryResolveWith first e c.NewEnclaveComponents = .InstructionIsUpdate))
          ∧ ∀ j, m ≤ j → j < i → resolvesAt c H N j = false))
    ∧ (findFirstEqualInstructionPastIndex c H N m = -1
        ↔ ∀ j, m ≤ j → j < H.length → resolvesAt c H N j = false)
    ∧ (H.length ≤ m → findFirstEqualInstructionPastIndex c H N m = -1)
    ∧ (findFirstEqualInstructionPastIndex c H N m = -1
        ∨ ((m : Int) ≤ findFirstEqualInstructionPastIndex c H N m
          ∧ findFirstEqualInstructionPastIndex c H N m < (H.length : Int)))
    ∧ (∀ j : Nat, m ≤ j → (j : Int) < findFirstEqualInstructionPastIndex c H N m →
        ∃ first e, N.head? = some first ∧ H[j]? = some e
          ∧ c.TryResolveWith first e c.NewEnclaveComponents ≠ .InstructionIsEqual
          ∧ c.TryResolveWith first e c.NewEnclaveComponents ≠ .InstructionIsUpdate
          ∧ c.TryResolveWith first e c.NewEnclaveComponents = .InstructionIsDifferent) := by
  have hout : ∀ j, H.length ≤ j → resolvesAt c H N j = false := by
    intro j hj
    have : H[j]? = none := List.getElem?_eq_none_iff.mpr hj
    cases N <;> simp [resolvesAt, this]
  have hiff : ∀ i, resolvesAt c H N i = true ↔
      ∃ first e, N.head? = some first ∧ H[i]? = some e
        ∧ (c.TryResolveWith first e c.NewEnclaveComponents = .InstructionIsEqual
          ∨ c.TryResolveWith first e c.NewEnclaveComponents = .InstructionIsUpdate) := by
    intro i
    cases N with
    | nil => simp [resolvesAt]
    | cons first rest =>
      rw [resolvesAt_cons_iff]
      simp
  have hdiff : ∀ j, j < H.length → resolvesAt c H N j = false → N ≠ [] →
      ∃ first e, N.head? = some first ∧ H[j]? = some e
        ∧ c.TryResolveWith first e c.NewEnclaveComponents ≠ .InstructionIsEqual
        ∧ c.TryResolveWith first e c.NewEnclaveComponents ≠ .InstructionIsUpdate
        ∧ c.TryResolveWith first e c.NewEnclaveComponents = .InstructionIsDifferent := by
    intro j hj hres hN
    cases N with
    | nil => exact absurd rfl hN
    | cons first rest =>
      obtain ⟨e, he⟩ : ∃ e, H[j]? = some e := ⟨H[j], List.getElem?_eq_getElem hj⟩
      refine ⟨first, e, rfl, he, ?_⟩
      have hno : ¬ resolvesAt c H (first :: rest) j = true := by simp [hres]
      rw [resolvesAt_cons_iff] at hno
      cases hst : c.TryResolveWith first e c.NewEnclaveComponents with
      | InstructionIsEqual => exact absurd ⟨e, he, Or.inl hst⟩ hno
      | InstructionIsUpdate => exact absurd ⟨e, he, Or.inr hst⟩ hno
      | InstructionIsDifferent => exact ⟨by simp, by simp, rfl⟩
  refine ⟨rfl, ?_, ?_, ?_, ?_, ?_⟩
  · intro i
    rcases findFirst_spec c H N m with ⟨h1, h2⟩ | ⟨k, h1, h2, h3, h4, h5⟩
    · constructor
      · intro h
        rw [h1] at h
        omega
      · rintro ⟨g1, _, g3, _⟩
        have := (hiff i).mpr g3
        rw [h2 i g1] at this
        exact absurd this (by simp)
    · constructor
      · intro h
        rw [h1] at h
        have hik : k = i := by exact_mod_cast h
        subst hik
        exact ⟨h2, h3, (hiff k).mp h4, h5⟩
      · rintro ⟨g1, g2, g3, g4⟩
        have hi := (hiff i).mpr g3
        rw [h1]
        have hik : k = i := by
          rcases Nat.lt_trichotomy k i with hlt | heq | hgt
          · have := g4 k h2 hlt
            rw [h4] at this
            exact absurd this (by simp)
          · exact heq
          · have := h5 i g1 hgt
            rw [hi] at this
            exact absurd this (by simp)
        rw [hik]
  · rcases findFirst_spec c H N m with ⟨h1, h2⟩ | ⟨k, h1, h2, h3, h4, h5⟩
    · exact ⟨fun _ j hj _ => h2 j hj, fun _ => h1⟩
    · constructor
      · intro h
        rw [h1] at h
        omega
      · intro h
        have := h k h2 h3
        rw [h4] at this
        exact absurd this (by simp)
  · intro hm
    rcases findFirst_spec c H N m with ⟨h1, _⟩ | ⟨k, _, h2, h3, _, _⟩
    · exact h1
    · omega
  · rcases findFirst_spec c H N m with ⟨h1, _⟩ | ⟨k, h1, h2, h3, _, _⟩
    · exact Or.inl h1
    · right
      rw [h1]
      omega
  · intro j hj hlt
    rcases findFirst_spec c H N m with ⟨h1, _⟩ | ⟨k, h1, h2, h3, h4, h5⟩
    · rw [h1] at hlt
      omega
    · rw [h1] at hlt
      have hjk : j < k := by exact_mod_cast hlt
      refine hdiff j (by omega) (h5 j hj hjk) ?_
      intro hN
      subst hN
      simp [resolvesAt] at h4

end SearchClaims

/-! ## `getModulePrefix`: properties -/

section ModulePrefixClaims

theorem cutAtSeparator_append (sep : Char) (a t : List Char) (ha : sep ∉ a) :
    cutAtSeparator sep (a ++ sep :: t) = some (a, t) := by
  induction a with
  | nil => simp [cutAtSeparator]
  | cons x xs ih =>
    have hx : x ≠ sep := fun h => ha (by simp [h])
    have hxs : sep ∉ xs := fun h => ha (by simp [h])
    simp [cutAtSeparator, hx, ih hxs]

theorem cutAtSeparator_none (sep : Char) (a : List Char) (ha : sep ∉ a) :
    cutAtSeparator sep a = none := by
  induction a with
  | nil => simp [cutAtSeparator]
  | cons x xs ih =>
    have hx : x ≠ sep := fun h => ha (by simp [h])
    have hxs : sep ∉ xs := fun h => ha (by simp [h])
    simp [cutAtSeparator, hx, ih hxs]

/-- The first three pieces of a text that starts with three components. -/
theorem splitPieces_three (sep : Char) (a b c rest : List Char) (ha : sep ∉ a)
    (hb : sep ∉ b) (hc : sep ∉ c) (hrest : rest = [] ∨ ∃ r, rest = sep :: r) :
    ((splitPieces sep 3 (a ++ sep :: (b ++ sep :: (c ++ rest)))) ++
        List.replicate (3 - (splitPieces sep 3 (a ++ sep :: (b ++ sep :: (c ++ rest)))).length)
          []).take 3
      = [a, b, c] := by
  rcases hrest with h | ⟨r, h⟩
  · subst h
    simp [splitPieces, cutAtSeparator_append, cutAtSeparator_none, ha, hb, hc]
  · subst h
    simp [splitPieces, cutAtSeparator_append, ha, hb, hc]

theorem length_le_utf8Len (cs : List Char) : cs.length ≤ String.utf8Len cs := by
  induction cs with
  | nil => simp
  | cons x xs ih =>
    have := x.utf8Size_pos
    simp only [String.utf8Len_cons, List.length_cons]
    omega

/-- What `getModulePrefix` returns on a text that starts with three components. -/
theorem getModulePrefix_of_three (moduleId : String) (a b c rest : List Char)
    (hid : moduleId.data = a ++ OsPathSeparator :: (b ++ OsPathSeparator :: (c ++ rest)))
    (ha : OsPathSeparator ∉ a) (hb : OsPathSeparator ∉ b) (hc : OsPathSeparator ∉ c)
    (hrest : rest = [] ∨ ∃ r, rest = OsPathSeparator :: r) :
    getModulePrefix moduleId
      = some (String.mk (a ++ OsPathSeparator :: (b ++ OsPathSeparator :: c))) := by
  obtain ⟨data⟩ := moduleId
  simp only at hid
  subst hid
  have hlen := length_le_utf8Len (a ++ OsPathSeparator :: (b ++ OsPathSeparator :: (c ++ rest)))
  simp only [List.length_append, List.length_cons] at hlen
  by_cases hbig : 3 ≤ String.utf8Len (a ++ OsPathSeparator :: (b ++ OsPathSeparator :: (c ++ rest)))
  · have hn : ¬ (numModIdSeparators + 1 >
        String.utf8Len (a ++ OsPathSeparator :: (b ++ OsPathSeparator :: (c ++ rest))) + 1) := by
      simp only [numModIdSeparators]
      omega
    simp only [getModulePrefix, SplitN, String.utf8ByteSize_mk, hn, if_false,
      GoStringSlice.upTo]
    have h3 := splitPieces_three OsPathSeparator a b c rest ha hb hc hrest
    simp only [numModIdSeparators] at h3 ⊢
    simp [h3, List.intercalate]
  · have ha0 : a = [] := List.eq_nil_of_length_eq_zero (by omega)
    have hb0 : b = [] := List.eq_nil_of_length_eq_zero (by omega)
    have hc0 : c = [] := List.eq_nil_of_length_eq_zero (by omega)
    have hr0 : rest = [] := List.eq_nil_of_length_eq_zero (by omega)
    subst ha0 hb0 hc0 hr0
    decide

/-- C22, `getModulePrefix` on a module id made of at least three components separated by
"/" (`a`, `b`, `c`, then the components `more`): the result is `a`, `b` and `c` joined by
"/"; it is a prefix of the module id, it holds exactly two separators, and `getModulePrefix`
returns it unchanged. -/
theorem get_module_prefix_first_three_components (moduleId : String)
    (a b c : List Char) (more : List (List Char))
    (hid : moduleId.data = List.intercalate [OsPathSeparator] (a :: b :: c :: more))
    (ha : OsPathSeparator ∉ a) (hb : OsPathSeparator ∉ b) (hc : OsPathSeparator ∉ c) :
    getModulePrefix moduleId
        = some (String.mk (List.intercalate [OsPathSeparator] [a, b, c]))
    ∧ List.intercalate [OsPathSeparator] [a, b, c] <+: moduleId.data
    ∧ (List.intercalate [OsPathSeparator] [a, b, c]).count OsPathSeparator = 2
    ∧ getModulePrefix (String.mk (List.intercalate [OsPathSeparator] [a, b, c]))
        = some (String.mk (List.intercalate [OsPathSeparator] [a, b, c])) := by
  have hjoin : List.intercalate [OsPathSeparator] [a, b, c]
      = a ++ OsPathSeparator :: (b ++ OsPathSeparator :: c) := by
    simp [List.intercalate]
  obtain ⟨rest, hrest, hdata⟩ : ∃ rest, (rest = [] ∨ ∃ r, rest = OsPathSeparator :: r)
      ∧ moduleId.data = a ++ OsPathSeparator :: (b ++ OsPathSeparator :: (c ++ rest)) := by
    cases more with
    | nil => exact ⟨[], Or.inl rfl, by rw [hid]; simp [List.intercalate]⟩
    | cons d ds =>
      exact ⟨OsPathSeparator :: List.intercalate [OsPathSeparator] (d :: ds),
        Or.inr ⟨_, rfl⟩, by rw [hid]; simp [List.intercalate]⟩
  rw [hjoin]
  refine ⟨getModulePrefix_of_three moduleId a b c rest hdata ha hb hc hrest, ?_, ?_, ?_⟩
  · rw [hdata]
    exact ⟨rest, by simp⟩
  · simp [List.count_eq_zero_of_not_mem ha, List.count_eq_zero_of_not_mem hb,
      List.count_eq_zero_of_not_mem hc]
  · exact getModulePrefix_of_three _ a b c [] (by simp) ha hb hc (Or.inl rfl)

theorem get_module_prefix_first_three_components_witness :
    getModulePrefix "github.com/kurtosis-tech/postgres-package/main.star"
        = some "github.com/kurtosis-tech/postgres-package"
    ∧ "github.com/kurtosis-tech/postgres-package".data
        <+: "github.com/kurtosis-tech/postgres-package/main.star".data
    ∧ "github.com/kurtosis-tech/postgres-package".data.count OsPathSeparator = 2
    ∧ getModulePrefix "github.com/kurtosis-tech/postgres-package"
        = some "github.com/kurtosis-tech/postgres-package" :=
  get_module_prefix_first_three_components
    "github.com/kurtosis-tech/postgres-package/main.star"
    "github.com".data "kurtosis-tech".data "postgres-package".data ["main.star".data]
    (by decide) (by decide) (by decide) (by decide)

end ModulePrefixClaims

/-! ## The returned plan and the returned error -/

section PlanXorErrorClaims

variable {SI EPI EC W V Fn AE : Type}

theorem callMainFunction_plan_xor_error (rt : StarlarkRuntime SI EPI EC W V Fn AE)
    (serializedJsonParams : String) (isDefault : Bool) (mainFunction : Fn)
    (argsTuple : List V) (plan : InstructionsPlan SI) (w : W) (enclaveComponents : EC)
    (mask : InstructionsPlanMask EPI) :
    ((∃ p, (callMainFunction rt serializedJsonParams isDefault mainFunction argsTuple plan w
          enclaveComponents mask).plan = some p)
        ∧ (callMainFunction rt serializedJsonParams isDefault mainFunction argsTuple plan w
          enclaveComponents mask).err = none)
    ∨ ((callMainFunction rt serializedJsonParams isDefault mainFunction argsTuple plan w
          enclaveComponents mask).plan = none
        ∧ ∃ e, (callMainFunction rt serializedJsonParams isDefault mainFunction argsTuple plan w
          enclaveComponents mask).err = some e) := by
  cases hdeser : rt.DeserializeArgs serializedJsonParams with
  | error e => simp [callMainFunction, hdeser]
  | ok inputArgs =>
    by_cases hlegacy : isDefault = true ∧ NumParams rt mainFunction = 2
        ∧ Param rt mainFunction 1 = argsParamName
    · obtain ⟨h1, h2, h3⟩ := hlegacy
      simp only [callMainFunction, hdeser, paramsRequiredForArgs, argsParamIndex, h1, h2, h3]
      simp only [and_self, decide_True, if_true]
      split
      · simp
      · split
        · simp
        · split <;> simp
    · cases hdict : rt.asDict inputArgs with
      | none =>
        rw [callMainFunction_not_mapping rt serializedJsonParams isDefault mainFunction
          argsTuple plan w enclaveComponents mask inputArgs hdeser hlegacy hdict]
        simp
      | some items =>
        simp only [callMainFunction, hdeser, paramsRequiredForArgs, argsParamIndex, hdict]
        rw [if_neg (by simpa using hlegacy)]
        simp only []
        split
        · simp
        · split
          · simp
          · split <;> simp

theorem Interpret_plan_xor_error (rt : StarlarkRuntime SI EPI EC W V Fn AE)
    (packageId mainFunctionName relativePathtoMainFile serializedStarlark
      serializedJsonParams : String)
    (w : W) (enclaveComponents : EC) (mask : InstructionsPlanMask EPI) :
    ((∃ p, (Interpret rt packageId mainFunctionName relativePathtoMainFile serializedStarlark
          serializedJsonParams w enclaveComponents mask).plan = some p)
        ∧ (Interpret rt packageId mainFunctionName relativePathtoMainFile serializedStarlark
          serializedJsonParams w enclaveComponents mask).err = none)
    ∨ ((Interpret rt packageId mainFunctionName relativePathtoMainFile serializedStarlark
          serializedJsonParams w enclaveComponents mask).plan = none
        ∧ ∃ e, (Interpret rt packageId mainFunctionName relativePathtoMainFile
          serializedStarlark serializedJsonParams w enclaveComponents mask).err = some e) := by
  unfold Interpret
  simp only
  split
  · simp
  · split
    · simp
    · split
      · simp
      · split
        · simp
        · exact callMainFunction_plan_xor_error ..

theorem InterpretAndOptimizePlan_plan_xor_error (c : Collaborators SI EPI EC W AE) (w : W)
    (cep : EnclavePlan EPI) :
    ∃ r, InterpretAndOptimizePlan c w cep = some r
      ∧ (((∃ p, r.plan = some p) ∧ r.err = none) ∨ (r.plan = none ∧ ∃ e, r.err = some e)) := by
  cases hclone : c.CloneReplacedPackagesIfNeeded w with
  | mk w1 cloneErr =>
  cases cloneErr with
  | some e =>
    simp only [InterpretAndOptimizePlan, hclone]
    exact ⟨_, rfl, by simp⟩
  | none =>
    cases hprobe : (unmaskedProbe c w1).result with
    | error e =>
      simp only [unmaskedProbe] at hprobe
      simp only [InterpretAndOptimizePlan, hclone, hprobe]
      exact ⟨_, rfl, by simp⟩
    | ok op =>
      obtain ⟨out, naivePlan⟩ := op
      cases hfreeze : naivePlan.GeneratePlan with
      | error e =>
        simp only [unmaskedProbe] at hprobe
        simp only [InterpretAndOptimizePlan, hclone, hprobe, hfreeze]
        exact ⟨_, rfl, by simp⟩
      | ok N =>
        rw [InterpretAndOptimizePlan_eq_loop c w w1 cep out naivePlan N hclone hprobe hfreeze]
        obtain ⟨r, hr⟩ := optimizeLoop_total c cep N out (cep.Size + 1)
          (initialLoopState c cep naivePlan (unmaskedProbe c w1)) (by omega)
        refine ⟨r, hr, ?_⟩
        refine optimizeLoop_invariant c cep N out (fun _ => True)
          (fun r => ((∃ p, r.plan = some p) ∧ r.err = none) ∨ (r.plan = none ∧ ∃ e, r.err = some e))
          (fun _ _ _ _ => trivial) ?_ (cep.Size + 1)
          (initialLoopState c cep naivePlan (unmaskedProbe c w1)) r trivial hr
        intro s r _ hbody
        rcases loopBody_cases c cep N out s with
          ⟨_, _, h⟩ | ⟨i, _, _, _, _, _, ⟨_, h⟩ | ⟨o, p, _, _, ⟨e, _, h⟩ | ⟨seq, _, h⟩⟩⟩
        all_goals
          rw [h] at hbody
          first
            | (injection hbody with h'; rw [← h']; simp)
            | (exact absurd hbody (by simp))

/-- The slice expression of `getModulePrefix` panics exactly on the texts of fewer than two
bytes. -/
theorem getModulePrefix_eq_none_iff (moduleId : String) :
    getModulePrefix moduleId = none ↔ moduleId.utf8ByteSize < 2 := by
  simp only [getModulePrefix, SplitN, GoStringSlice.upTo, numModIdSeparators]
  by_cases h : 3 + 1 > moduleId.utf8ByteSize + 1
  · simp only [h, if_true]
    by_cases h2 : 3 ≤ moduleId.utf8ByteSize + 1
    · simp only [h2, if_true]
      constructor
      · intro h3; exact absurd h3 (by simp)
      · intro h3; omega
    · simp only [h2, if_false]
      constructor
      · intro _; omega
      · intro _; trivial
  · simp only [h, if_false]
    constructor
    · intro h3; simp at h3
    · intro h3; omega

/-- C25, plan xor error. A call of `Interpret` returns nothing when `getModulePrefix` panics
on its package id, which is when the package id has fewer than two bytes, and returns
otherwise; every call that returns, returns either a plan and no error, or an error and no
plan. `InterpretAndOptimizePlan` returns nothing when the replaced packages were cloned and
`getModulePrefix` panics on the package id, and returns otherwise; every call that returns,
returns either a plan and no error, or an error and no plan. A plan to which instructions
were added before a failure is therefore not returned. -/
theorem plan_xor_error (rt : StarlarkRuntime SI EPI EC W V Fn AE)
    (c : Collaborators SI EPI EC W AE) :
    (∀ (packageId mainFunctionName relativePathtoMainFile serializedStarlark
        serializedJsonParams : String) (w : W) (enclaveComponents : EC)
        (mask : InstructionsPlanMask EPI),
      (InterpretOrPanic rt packageId mainFunctionName relativePathtoMainFile
          serializedStarlark serializedJsonParams w enclaveComponents mask = none
        ↔ packageId.utf8ByteSize < 2)
      ∧ (getModulePrefix packageId = none ↔ packageId.utf8ByteSize < 2)
      ∧ ∀ r, InterpretOrPanic rt packageId mainFunctionName relativePathtoMainFile
          serializedStarlark serializedJsonParams w enclaveComponents mask = some r →
        (((∃ p, r.plan = some p) ∧ r.err = none) ∨ (r.plan = none ∧ ∃ e, r.err = some e)))
    ∧ (∀ (packageId : String) (w : W) (cep : EnclavePlan EPI),
      (InterpretAndOptimizePlanOrPanic c packageId w cep = none
        ↔ ((c.CloneReplacedPackagesIfNeeded w).2 = none ∧ packageId.utf8ByteSize < 2))
      ∧ ∀ r, InterpretAndOptimizePlanOrPanic c packageId w cep = some r →
        (((∃ p, r.plan = some p) ∧ r.err = none)
          ∨ (r.plan = none ∧ ∃ e, r.err = some e))) := by
  constructor
  · intro packageId mainFunctionName relativePathtoMainFile serializedStarlark
      serializedJsonParams w enclaveComponents mask
    have hiff := getModulePrefix_eq_none_iff packageId
    refine ⟨?_, hiff, ?_⟩
    · rw [← hiff]
      cases hp : getModulePrefix packageId with
      | none => simp [InterpretOrPanic, hp]
      | some p => simp [InterpretOrPanic, hp]
    · intro r hr
      cases hp : getModulePrefix packageId with
      | none => simp [InterpretOrPanic, hp] at hr
      | some p =>
        simp only [InterpretOrPanic, hp, Option.some.injEq] at hr
        rw [← hr]
        exact Interpret_plan_xor_error rt packageId mainFunctionName relativePathtoMainFile
          serializedStarlark serializedJsonParams w enclaveComponents mask
  · intro packageId w cep
    obtain ⟨r0, hr0, hx0⟩ := InterpretAndOptimizePlan_plan_xor_error c w cep
    have hiff := getModulePrefix_eq_none_iff packageId
    cases hclone : c.CloneReplacedPackagesIfNeeded w with
    | mk w1 cloneErr =>
    cases cloneErr with
    | some e =>
      refine ⟨?_, ?_⟩
      · simp [InterpretAndOptimizePlanOrPanic, hclone, hr0]
      · intro r hr
        simp only [InterpretAndOptimizePlanOrPanic, hclone, hr0, Option.some.injEq] at hr
        rw [← hr]
        exact hx0
    | none =>
      cases hp : getModulePrefix packageId with
      | none =>
        refine ⟨?_, ?_⟩
        · simp [InterpretAndOptimizePlanOrPanic, hclone, hp, hiff.mp hp]
        · intro r hr
          simp [InterpretAndOptimizePlanOrPanic, hclone, hp] at hr
      | some p =>
        have hlen : ¬ packageId.utf8ByteSize < 2 := by
          intro h
          rw [hiff.mpr h] at hp
          exact absurd hp (by simp)
        refine ⟨?_, ?_⟩
        · simp [InterpretAndOptimizePlanOrPanic, hclone, hp, hr0, hlen]
        · intro r hr
          simp only [InterpretAndOptimizePlanOrPanic, hclone, hp, hr0, Option.some.injEq] at hr
          rw [← hr]
          exact hx0

end PlanXorErrorClaims

/-! ## The guard of the copy loop -/

section CopyLoopClaims

variable {SI EPI EC W AE : Type}

/-- The recording loop returns what the copy loop returns. -/
theorem copyToMaskTrace_result (H : List EPI) :
    ∀ (fuel idx copied : Nat) (mask : InstructionsPlanMask EPI),
      (copyToMaskTrace H fuel idx copied mask).result = copyToMask H fuel idx copied mask := by
  intro fuel
  induction fuel with
  | zero => intro idx copied mask; rfl
  | succ n ih =>
    intro idx copied mask
    unfold copyToMaskTrace copyToMask
    cases H[idx]? with
    | none => rfl
    | some e =>
      simp only []
      by_cases hfull : copied ≥ mask.Size
      · rw [if_pos hfull, if_pos hfull]
      · rw [if_neg hfull, if_neg hfull]
        exact ih (idx + 1) (copied + 1) (mask.InsertAt copied e)

/-- When the mask has room for what is left of the history, the copy loop copies all of it,
at consecutive slots, and does not take the `break`. -/
theorem copyToMaskTrace_of_room (H : List EPI) :
    ∀ (fuel idx copied : Nat) (mask : InstructionsPlanMask EPI),
      H.length - idx ≤ fuel → copied + (H.length - idx) ≤ mask.Size →
      (copyToMaskTrace H fuel idx copied mask).insertedAt
          = List.range' copied (H.length - idx)
        ∧ (copyToMaskTrace H fuel idx copied mask).maskFullBreak = false
        ∧ (copyToMaskTrace H fuel idx copied mask).result.1 = copied + (H.length - idx) := by
  intro fuel
  induction fuel with
  | zero =>
    intro idx copied mask hfuel _
    have h0 : H.length - idx = 0 := by omega
    simp [copyToMaskTrace, h0]
  | succ n ih =>
    intro idx copied mask hfuel hroom
    unfold copyToMaskTrace
    cases hget : H[idx]? with
    | none =>
      have : H.length ≤ idx := List.getElem?_eq_none_iff.mp hget
      have h0 : H.length - idx = 0 := by omega
      simp [h0]
    | some e =>
      have hidx : idx < H.length := (List.getElem?_eq_some_iff.mp hget).1
      have hfull : ¬ copied ≥ mask.Size := by omega
      simp only []
      rw [if_neg hfull]
      have hsz : (mask.InsertAt copied e).Size = mask.Size := by
        simp [InsertAt, InstructionsPlanMask.Size]
      obtain ⟨h1, h2, h3⟩ := ih (idx + 1) (copied + 1) (mask.InsertAt copied e) (by omega)
        (by rw [hsz]; omega)
      have hlen : H.length - idx = (H.length - (idx + 1)) + 1 := by omega
      refine ⟨?_, h2, ?_⟩
      · simp only [h1]
        rw [hlen, List.range'_succ]
      · simp only [h3]
        omega

/-- C24, the guard against a full mask is never taken. In every loop state that
`InterpretAndOptimizePlan` reaches and for the match index `i` found there, with `h` the
length of the history and `n` the length of the naive sequence (which is the size of the
naive plan): `h - i <= n`; the copy loop calls `InsertAt` at the slots `0, ..., h - i - 1`,
all below `n`, copies `h - i` instructions, does not take the `break`, and the mask it leaves
holds the history from `i` on, followed by empty slots. -/
theorem mask_full_guard_unreachable (c : Collaborators SI EPI EC W AE) (w w1 : W)
    (cep : EnclavePlan EPI) (out : String) (naivePlan : InstructionsPlan SI) (N : List SI)
    (hclone : c.CloneReplacedPackagesIfNeeded w = (w1, none))
    (hprobe : (unmaskedProbe c w1).result = .ok (out, naivePlan))
    (hfreeze : naivePlan.GeneratePlan = .ok N)
    (k : Nat) (s : LoopState EPI EC W) (i : Nat)
    (hreach : loopStateAfter c cep N out k
      (initialLoopState c cep naivePlan (unmaskedProbe c w1)) = some s)
    (hmatch : findFirstEqualInstructionPastIndex c cep.GeneratePlan N
      s.firstPossibleIndexForMatchingInstruction = (i : Int)) :
    InterpretAndOptimizePlan c w cep
        = optimizeLoop c cep N out (cep.Size + 1)
            (initialLoopState c cep naivePlan (unmaskedProbe c w1))
    ∧ naivePlan.Size = N.length
    ∧ i < cep.Size
    ∧ cep.Size - i ≤ N.length
    ∧ (copyToMaskTrace cep.GeneratePlan (cep.GeneratePlan.length - i) i 0
        (NewInstructionsPlanMask N.length)).result
        = (cep.Size - i, buildPotentialMask cep.GeneratePlan N i)
    ∧ (copyToMaskTrace cep.GeneratePlan (cep.GeneratePlan.length - i) i 0
        (NewInstructionsPlanMask N.length)).insertedAt = List.range (cep.Size - i)
    ∧ (∀ slot, slot ∈ (copyToMaskTrace cep.GeneratePlan (cep.GeneratePlan.length - i) i 0
        (NewInstructionsPlanMask N.length)).insertedAt → slot < N.length)
    ∧ (copyToMaskTrace cep.GeneratePlan (cep.GeneratePlan.length - i) i 0
        (NewInstructionsPlanMask N.length)).maskFullBreak = false
    ∧ (buildPotentialMask cep.GeneratePlan N i).slots
        = (cep.GeneratePlan.drop i).map some
          ++ List.replicate (N.length - (cep.Size - i)) none := by
  have hsize := GeneratePlan_length naivePlan N hfreeze
  have hlen : cep.GeneratePlan.length = cep.Size := rfl
  obtain ⟨hcur, _, _⟩ := loopStateAfter_cursor c cep N out k _ s hreach
  rw [initialLoopState_cursor_le] at hcur
  obtain ⟨hi1, hi2⟩ : s.firstPossibleIndexForMatchingInstruction ≤ i ∧ i < cep.Size := by
    rcases findFirst_spec c cep.GeneratePlan N s.firstPossibleIndexForMatchingInstruction with
      ⟨h1, _⟩ | ⟨i', h1, h2, h3, _, _⟩
    · rw [hmatch] at h1; omega
    · have hi : i' = i := by rw [hmatch] at h1; omega
      subst hi
      exact ⟨h2, h3⟩
  have hroom : cep.Size - i ≤ N.length := by omega
  obtain ⟨t1, t2, t3⟩ := copyToMaskTrace_of_room cep.GeneratePlan
    (cep.GeneratePlan.length - i) i 0 (NewInstructionsPlanMask N.length) (le_refl _)
    (by simp [NewInstructionsPlanMask, InstructionsPlanMask.Size]; omega)
  have hres := copyToMaskTrace_result cep.GeneratePlan (cep.GeneratePlan.length - i) i 0
    (NewInstructionsPlanMask N.length)
  refine ⟨InterpretAndOptimizePlan_eq_loop c w w1 cep out naivePlan N hclone hprobe hfreeze,
    hsize, hi2, hroom, ?_, ?_, ?_, t2, ?_⟩
  · apply Prod.ext
    · rw [t3]
      simp only [hlen]
      omega
    · rw [hres]
      rfl
  · rw [t1, hlen, List.range_eq_range']
  · intro slot hslot
    rw [t1, List.mem_range'_1] at hslot
    omega
  · rw [buildPotentialMask_eq]
    apply List.ext_getElem?
    intro j
    simp only [List.getElem?_map]
    by_cases hj : j < cep.Size - i
    · rw [List.getElem?_range (by omega), List.getElem?_append_left (by simp; omega)]
      simp only [Option.map_some', List.getElem?_map, List.getElem?_drop]
      rw [List.getElem?_eq_getElem (by omega : i + j < cep.GeneratePlan.length)]
      rfl
    · by_cases hjn : j < N.length
      · rw [List.getElem?_range hjn, List.getElem?_append_right (by simp; omega)]
        simp only [Option.map_some', List.length_map, List.length_drop, hlen]
        rw [List.getElem?_eq_none_iff.mpr (by omega), List.getElem?_replicate,
          if_pos (by omega)]
      · rw [List.getElem?_eq_none_iff.mpr (by simp; omega),
          List.getElem?_eq_none_iff.mpr (by simp; omega)]
        rfl

/-- A script generating 1 and 2 against the history 1, 3, 1: the match at index 1, found in
the first iteration, has two historical instructions copied at the slots 0 and 1. -/
theorem mask_full_guard_unreachable_witness :
    (copyToMaskTrace (⟨[1, 3, 1]⟩ : EnclavePlan Nat).GeneratePlan
        ((⟨[1, 3, 1]⟩ : EnclavePlan Nat).GeneratePlan.length - 1) 1 0
        (NewInstructionsPlanMask ([1, 2] : List Nat).length)).insertedAt
      = List.range ((⟨[1, 3, 1]⟩ : EnclavePlan Nat).Size - 1) :=
  (mask_full_guard_unreachable (scripted [1, 2] .replay) 0 0 ⟨[1, 3, 1]⟩ "naive"
    (planOf 0 [1, 2]) [1, 2] rfl rfl rfl 0
    (initialLoopState (scripted [1, 2] .replay) ⟨[1, 3, 1]⟩ (planOf 0 [1, 2])
      (unmaskedProbe (scripted [1, 2] .replay) 0)) 1 rfl (by decide)).2.2.2.2.2.1

end CopyLoopClaims

/-! ## The advance of the cursor by one and the advance past the rejected match -/

section CursorAdvanceClaims

variable {SI EPI EC W AE : Type}

/-- The search from `m` returns `i` when `i` is the first index from `m` on that resolves. -/
theorem findFirst_eq_of_least (c : Collaborators SI EPI EC W AE) (H : List EPI) (N : List SI)
    (m i : Nat) (hmi : m ≤ i) (hres : resolvesAt c H N i = true)
    (hleast : ∀ j, m ≤ j → j < i → resolvesAt c H N j = false) :
    findFirstEqualInstructionPastIndex c H N m = (i : Int) := by
  rcases findFirst_spec c H N m with ⟨_, h2⟩ | ⟨k, h1, h2, _, h4, h5⟩
  · rw [h2 i hmi] at hres
    exact absurd hres (by simp)
  · rw [h1]
    rcases Nat.lt_trichotomy k i with hlt | heq | hgt
    · have := hleast k h2 hlt
      rw [h4] at this
      exact absurd this (by simp)
    · rw [heq]
    · have := h5 i hmi hgt
      rw [hres] at this
      exact absurd this (by simp)

theorem optimizeLoopSkipToNext_of_inr (c : Collaborators SI EPI EC W AE)
    (cep : EnclavePlan EPI) (N : List SI) (out : String) (s : LoopState EPI EC W)
    (r : OptimizeReturn SI EPI EC AE) (fuel : Nat) (hbody : loopBody c cep N out s = .inr r) :
    optimizeLoopSkipToNext c cep N out (fuel + 1) s = some r := by
  simp [optimizeLoopSkipToNext, loopBodySkipToNext, hbody]

theorem optimizeLoopSkipToNext_of_rejected (c : Collaborators SI EPI EC W AE)
    (cep : EnclavePlan EPI) (N : List SI) (out : String) (s : LoopState EPI EC W) (i : Nat)
    (fuel : Nat)
    (hmatch : findFirstEqualInstructionPastIndex c cep.GeneratePlan N
      s.firstPossibleIndexForMatchingInstruction = (i : Int))
    (hbody : loopBody c cep N out s = .inl (rejectedState c cep N s i)) :
    optimizeLoopSkipToNext c cep N out (fuel + 1) s
      = optimizeLoopSkipToNext c cep N out fuel
          { rejectedState c cep N s i with firstPossibleIndexForMatchingInstruction := i + 1 } := by
  simp [optimizeLoopSkipToNext, loopBodySkipToNext, hbody, hmatch]

theorem accepted_of_probeOutcome (a b : InterpretEffect SI EPI EC W AE)
    (h : probeOutcome a = probeOutcome b) : accepted a = accepted b := by
  simp only [probeOutcome, Prod.mk.injEq] at h
  obtain ⟨h1, h2⟩ := h
  simp only [accepted, h2]
  cases ha : a.result with
  | error e =>
    cases hb : b.result with
    | error e' => rfl
    | ok op => rw [ha, hb] at h1; simp at h1
  | ok op =>
    cases hb : b.result with
    | error e' => rw [ha, hb] at h1; simp at h1
    | ok op' => rfl

theorem result_of_probeOutcome (a b : InterpretEffect SI EPI EC W AE)
    (h : probeOutcome a = probeOutcome b) (o : String) (p : InstructionsPlan SI)
    (ha : a.result = .ok (o, p)) :
    ∃ p', b.result = .ok (o, p') ∧ p'.GeneratePlan = p.GeneratePlan := by
  simp only [probeOutcome, Prod.mk.injEq] at h
  obtain ⟨h1, _⟩ := h
  cases hb : b.result with
  | error e' => rw [ha, hb] at h1; simp at h1
  | ok op' =>
    obtain ⟨o', p'⟩ := op'
    rw [ha, hb] at h1
    simp only [Except.ok.injEq, Prod.mk.injEq] at h1
    exact ⟨p', by rw [h1.1], h1.2.symm⟩

/-- The two loops return the same values when the loop of the source lags behind the loop of
the variant by positions whose match is absent or rejected. -/
theorem optimizeLoop_eq_skipToNext (c : Collaborators SI EPI EC W AE) (cep : EnclavePlan EPI)
    (N : List SI) (out : String)
    (hdet : ∀ (i : Nat) (w w' : W) (ec ec' : EC),
      probeOutcome (c.Interpret w ec (buildPotentialMask cep.GeneratePlan N i))
        = probeOutcome (c.Interpret w' ec' (buildPotentialMask cep.GeneratePlan N i))) :
    ∀ (d : Nat) (s t : LoopState EPI EC W) (fuel fuel' : Nat),
      cep.Size - s.firstPossibleIndexForMatchingInstruction ≤ d →
      s.firstPossibleIndexForMatchingInstruction ≤ t.firstPossibleIndexForMatchingInstruction →
      (∀ j, s.firstPossibleIndexForMatchingInstruction ≤ j →
        j < t.firstPossibleIndexForMatchingInstruction →
        resolvesAt c cep.GeneratePlan N j = true → accepted (attemptAt c cep N s j) = false) →
      t.calls.length ≤ s.calls.length →
      cep.Size - s.firstPossibleIndexForMatchingInstruction < fuel →
      cep.Size - t.firstPossibleIndexForMatchingInstruction < fuel' →
      ∃ r r', optimizeLoop c cep N out fuel s = some r
        ∧ optimizeLoopSkipToNext c cep N out fuel' t = some r'
        ∧ returnedValues r = returnedValues r'
        ∧ r'.calls.length ≤ r.calls.length := by
  have hacc : ∀ (s t : LoopState EPI EC W) (j : Nat),
      accepted (attemptAt c cep N s j) = accepted (attemptAt c cep N t j) :=
    fun s t j => accepted_of_probeOutcome _ _
      (hdet j s.world t.world s.enclaveComponents t.enclaveComponents)
  have hres : ∀ (s t : LoopState EPI EC W) (j : Nat) (o : String) (p : InstructionsPlan SI),
      (attemptAt c cep N s j).result = .ok (o, p) →
      ∃ p', (attemptAt c cep N t j).result = .ok (o, p')
        ∧ p'.GeneratePlan = p.GeneratePlan :=
    fun s t j o p h => result_of_probeOutcome _ _
      (hdet j s.world t.world s.enclaveComponents t.enclaveComponents) o p h
  intro d
  induction d with
  | zero =>
    intro s t fuel fuel' hd hst hlag hcalls hfuel hfuel'
    obtain ⟨n, rfl⟩ : ∃ n, fuel = n + 1 := ⟨fuel - 1, by omega⟩
    obtain ⟨n', rfl⟩ : ∃ n', fuel' = n' + 1 := ⟨fuel' - 1, by omega⟩
    rcases loopBody_cases c cep N out s with ⟨_, _, h⟩ | ⟨i, _, h2, h3, _⟩
    · rcases loopBody_cases c cep N out t with ⟨_, _, h'⟩ | ⟨i', _, h2', h3', _⟩
      · exact ⟨_, _, optimizeLoop_of_inr c cep N out s _ n h,
          optimizeLoopSkipToNext_of_inr c cep N out t _ n' h', rfl, hcalls⟩
      · omega
    · omega
  | succ d ih =>
    intro s t fuel fuel' hd hst hlag hcalls hfuel hfuel'
    obtain ⟨n, rfl⟩ : ∃ n, fuel = n + 1 := ⟨fuel - 1, by omega⟩
    obtain ⟨n', rfl⟩ : ∃ n', fuel' = n' + 1 := ⟨fuel' - 1, by omega⟩
    rcases loopBody_cases c cep N out s with
      ⟨_, g2, h⟩ | ⟨i, g1, g2, g3, g4, g5, g6⟩
    · -- no match from the cursor of the source on: none from the cursor of the variant on
      rcases loopBody_cases c cep N out t with ⟨_, _, h'⟩ | ⟨i', _, h2', _, h4', _⟩
      · exact ⟨_, _, optimizeLoop_of_inr c cep N out s _ n h,
          optimizeLoopSkipToNext_of_inr c cep N out t _ n' h', rfl, hcalls⟩
      · have := g2 i' (by omega)
        rw [h4'] at this
        exact absurd this (by simp)
    · rcases g6 with ⟨hrej, h⟩ | hok
      · -- the match at `i` is rejected by the source
        rw [optimizeLoop_of_inl c cep N out s _ n h]
        by_cases heq : t.firstPossibleIndexForMatchingInstruction
            = s.firstPossibleIndexForMatchingInstruction
        · have hmatch' : findFirstEqualInstructionPastIndex c cep.GeneratePlan N
              t.firstPossibleIndexForMatchingInstruction = (i : Int) := by rw [heq]; exact g1
          have hrej' : accepted (attemptAt c cep N t i) = false := by
            rw [hacc t s i]; exact hrej
          rw [optimizeLoopSkipToNext_of_rejected c cep N out t i n' hmatch'
            (loopBody_of_rejected c cep N out t i hmatch' hrej')]
          refine ih (rejectedState c cep N s i) _ n n' ?_ ?_ ?_ ?_ ?_ ?_
          · simp only [rejectedState]; omega
          · simp only [rejectedState]; omega
          · intro j hj1 hj2 hj3
            simp only [rejectedState] at hj1 hj2
            rw [hacc _ s j]
            by_cases hji : j = i
            · rw [hji]; exact hrej
            · have := g5 j (by omega) (by omega)
              rw [hj3] at this
              exact absurd this (by simp)
          · simp only [rejectedState, callsAfterAttempt, List.length_append]
            simp
            omega
          · simp only [rejectedState]; omega
          · simp only [rejectedState]; omega
        · refine ih (rejectedState c cep N s i) t n (n' + 1) ?_ ?_ ?_ ?_ ?_ hfuel'
          · simp only [rejectedState]; omega
          · simp only [rejectedState]; omega
          · intro j hj1 hj2 hj3
            simp only [rejectedState] at hj1
            rw [hacc _ s j]
            exact hlag j (by omega) hj2 hj3
          · simp only [rejectedState, callsAfterAttempt, List.length_append]
            simp
            omega
          · simp only [rejectedState]; omega
      · -- the match at `i` is accepted by the source
        obtain ⟨o, p, hr, hv, hgen⟩ := hok
        have hgood : accepted (attemptAt c cep N s i) = true := by
          simp [accepted, hr, hv]
        have hti : t.firstPossibleIndexForMatchingInstruction ≤ i := by
          by_contra hlt
          have := hlag i g2 (by omega) g4
          rw [hgood] at this
          exact absurd this (by simp)
        have hmatch' : findFirstEqualInstructionPastIndex c cep.GeneratePlan N
            t.firstPossibleIndexForMatchingInstruction = (i : Int) :=
          findFirst_eq_of_least c cep.GeneratePlan N _ i hti g4
            (fun j hj1 hj2 => g5 j (by omega) hj2)
        obtain ⟨p'', hr', hp''⟩ := hres s t i o p hr
        have hgood' : accepted (attemptAt c cep N t i) = true := by
          rw [hacc t s i]; exact hgood
        rcases loopBody_cases c cep N out t with
          ⟨k1, _, _⟩ | ⟨i', k1, _, _, _, _, ⟨krej, _⟩ | ⟨o', p', kr, _, kgen⟩⟩
        · rw [hmatch'] at k1; omega
        · have hi : i' = i := by rw [hmatch'] at k1; omega
          subst hi
          rw [hgood'] at krej
          exact absurd krej (by simp)
        · have hi : i' = i := by rw [hmatch'] at k1; omega
          subst hi
          rw [hr'] at kr
          injection kr with kr
          injection kr with ko kp
          subst ko kp
          rw [hp''] at kgen
          rcases hgen with ⟨e, he, h⟩ | ⟨seq, hseq, h⟩
          · rcases kgen with ⟨e', he', h'⟩ | ⟨seq', hseq', h'⟩
            · rw [he] at he'
              injection he' with he'
              subst he'
              refine ⟨_, _, optimizeLoop_of_inr c cep N out s _ n h,
                optimizeLoopSkipToNext_of_inr c cep N out t _ n' h', rfl, ?_⟩
              simp only [callsAfterAttempt, List.length_append, List.length_singleton]
              omega
            · rw [he] at hseq'
              exact absurd hseq' (by simp)
          · rcases kgen with ⟨e', he', h'⟩ | ⟨seq', hseq', h'⟩
            · rw [hseq] at he'
              exact absurd he' (by simp)
            · rw [hseq] at hseq'
              injection hseq' with hseq'
              subst hseq'
              refine ⟨_, _, optimizeLoop_of_inr c cep N out s _ n h,
                optimizeLoopSkipToNext_of_inr c cep N out t _ n' h', rfl, ?_⟩
              simp only [callsAfterAttempt, List.length_append, List.length_singleton]
              omega

/-- A match at `i` that is rejected is probed again, with the same mask, until the cursor has
passed `i`. -/
theorem rejected_mask_rerun (c : Collaborators SI EPI EC W AE) (cep : EnclavePlan EPI)
    (N : List SI) (out : String)
    (hdet : ∀ (i : Nat) (w w' : W) (ec ec' : EC),
      probeOutcome (c.Interpret w ec (buildPotentialMask cep.GeneratePlan N i))
        = probeOutcome (c.Interpret w' ec' (buildPotentialMask cep.GeneratePlan N i)))
    (i : Nat) :
    ∀ (n : Nat) (s : LoopState EPI EC W),
      i - s.firstPossibleIndexForMatchingInstruction = n →
      findFirstEqualInstructionPastIndex c cep.GeneratePlan N
        s.firstPossibleIndexForMatchingInstruction = (i : Int) →
      accepted (attemptAt c cep N s i) = false →
      ∃ s', loopStateAfter c cep N out (n + 1) s = some s'
        ∧ s'.firstPossibleIndexForMatchingInstruction = i + 1
        ∧ s'.calls.map (fun call => call.instructionsPlanMask)
          = s.calls.map (fun call => call.instructionsPlanMask)
            ++ List.replicate (n + 1) (buildPotentialMask cep.GeneratePlan N i) := by
  intro n
  induction n with
  | zero =>
    intro s hn hmatch hrej
    have hbody := loopBody_of_rejected c cep N out s i hmatch hrej
    rcases findFirst_spec c cep.GeneratePlan N s.firstPossibleIndexForMatchingInstruction with
      ⟨h1, _⟩ | ⟨k, h1, h2, _, _, _⟩
    · rw [hmatch] at h1; omega
    · have hk : k = i := by rw [hmatch] at h1; omega
      subst hk
      refine ⟨rejectedState c cep N s k, by simp [loopStateAfter, hbody], ?_, ?_⟩
      · simp only [rejectedState]; omega
      · simp [rejectedState, callsAfterAttempt]
  | succ n ih =>
    intro s hn hmatch hrej
    have hbody := loopBody_of_rejected c cep N out s i hmatch hrej
    rcases findFirst_spec c cep.GeneratePlan N s.firstPossibleIndexForMatchingInstruction with
      ⟨h1, _⟩ | ⟨k, h1, h2, _, h4, h5⟩
    · rw [hmatch] at h1; omega
    · have hk : k = i := by rw [hmatch] at h1; omega
      subst hk
      have hmatch' : findFirstEqualInstructionPastIndex c cep.GeneratePlan N
          (rejectedState c cep N s k).firstPossibleIndexForMatchingInstruction = (k : Int) :=
        findFirst_eq_of_least c cep.GeneratePlan N _ k (by simp only [rejectedState]; omega)
          h4 (fun j hj1 hj2 => h5 j (by simp only [rejectedState] at hj1; omega) hj2)
      have hrej' : accepted (attemptAt c cep N (rejectedState c cep N s k) k) = false := by
        rw [← hrej]
        exact accepted_of_probeOutcome _ _
          (hdet k (rejectedState c cep N s k).world s.world
            (rejectedState c cep N s k).enclaveComponents s.enclaveComponents)
      obtain ⟨s', e1, e2, e3⟩ := ih (rejectedState c cep N s k)
        (by simp only [rejectedState]; omega) hmatch' hrej'
      refine ⟨s', ?_, e2, ?_⟩
      · rw [show n + 1 + 1 = (n + 1) + 1 from rfl]
        simp only [loopStateAfter, hbody] at e1 ⊢
        exact e1
      · rw [e3]
        simp [rejectedState, callsAfterAttempt, List.replicate_succ]

/-- C23, the advance of the cursor by one and the advance past the rejected match are
equivalent. When what the loop reads of a masked interpretation (the error, or the output
and the generated sequence, and the validity of the mask) depends on the mask alone, `InterpretAndOptimizePlan` and the variant that sets the cursor to
`i + 1` after rejecting the match at `i` both return, and they return the same output, the
same plan and the same error; the variant makes no more calls of `Interpret`. In a loop
state with the cursor at `k` whose match at `i` is rejected, the loop of the source runs
`i - k + 1` iterations, every one of them probing the mask built for `i`, before its cursor
is at `i + 1`. -/
theorem cursor_advance_equivalence (c : Collaborators SI EPI EC W AE) (w w1 : W)
    (cep : EnclavePlan EPI) (out : String) (naivePlan : InstructionsPlan SI) (N : List SI)
    (hclone : c.CloneReplacedPackagesIfNeeded w = (w1, none))
    (hprobe : (unmaskedProbe c w1).result = .ok (out, naivePlan))
    (hfreeze : naivePlan.GeneratePlan = .ok N)
    (hdet : ∀ (i : Nat) (w w' : W) (ec ec' : EC),
      probeOutcome (c.Interpret w ec (buildPotentialMask cep.GeneratePlan N i))
        = probeOutcome (c.Interpret w' ec' (buildPotentialMask cep.GeneratePlan N i))) :
    (InterpretAndOptimizePlan c w cep).isSome = true
    ∧ (InterpretAndOptimizePlan c w cep).map returnedValues
        = (InterpretAndOptimizePlanSkipToNext c w cep).map returnedValues
    ∧ (∀ r r', InterpretAndOptimizePlan c w cep = some r →
        InterpretAndOptimizePlanSkipToNext c w cep = some r' →
        r'.calls.length ≤ r.calls.length)
    ∧ (∀ (s : LoopState EPI EC W) (i : Nat),
        findFirstEqualInstructionPastIndex c cep.GeneratePlan N
          s.firstPossibleIndexForMatchingInstruction = (i : Int) →
        accepted (attemptAt c cep N s i) = false →
        ∃ s', loopStateAfter c cep N out
              (i - s.firstPossibleIndexForMatchingInstruction + 1) s = some s'
          ∧ s'.firstPossibleIndexForMatchingInstruction = i + 1
          ∧ s'.calls.map (fun call => call.instructionsPlanMask)
            = s.calls.map (fun call => call.instructionsPlanMask)
              ++ List.replicate (i - s.firstPossibleIndexForMatchingInstruction + 1)
                  (buildPotentialMask cep.GeneratePlan N i)) := by
  have hcoded := InterpretAndOptimizePlan_eq_loop c w w1 cep out naivePlan N hclone hprobe
    hfreeze
  have hvariant : InterpretAndOptimizePlanSkipToNext c w cep
      = optimizeLoopSkipToNext c cep N out (cep.Size + 1)
          (initialLoopState c cep naivePlan (unmaskedProbe c w1)) := by
    have hprobe' := hprobe
    simp only [unmaskedProbe] at hprobe'
    simp [InterpretAndOptimizePlanSkipToNext, hclone, hprobe', hfreeze, unmaskedProbe]
  obtain ⟨r, r', h1, h2, h3, h4⟩ := optimizeLoop_eq_skipToNext c cep N out hdet cep.Size
    (initialLoopState c cep naivePlan (unmaskedProbe c w1))
    (initialLoopState c cep naivePlan (unmaskedProbe c w1)) (cep.Size + 1) (cep.Size + 1)
    (by omega) (le_refl _) (fun j hj1 hj2 => absurd hj2 (by omega)) (le_refl _)
    (by omega) (by omega)
  rw [hcoded, hvariant, h1, h2]
  refine ⟨rfl, by simp [h3], ?_, ?_⟩
  · intro a b ha hb
    injection ha with ha
    injection hb with hb
    subst ha hb
    exact h4
  · intro s i hmatch hrej
    exact rejected_mask_rerun c cep N out hdet i _ s rfl hmatch hrej

/-- A script generating 1 and 2 against the history 70, 80, 2: the match at index 2 is
rejected twice by the source and once by the variant, and both return the naive plan. -/
theorem cursor_advance_equivalence_witness :
    (InterpretAndOptimizePlan (maskDetermined [1, 2]) 0 ⟨[70, 80, 2]⟩).map returnedValues
      = (InterpretAndOptimizePlanSkipToNext (maskDetermined [1, 2]) 0 ⟨[70, 80, 2]⟩).map
          returnedValues :=
  (cursor_advance_equivalence (maskDetermined [1, 2]) 0 0 ⟨[70, 80, 2]⟩ "output"
    (planOf 0 [1, 2]) [1, 2] rfl rfl rfl
    (fun _ _ _ _ _ => rfl)).2.1

end CursorAdvanceClaims

end StartosisEngine
